import Mathlib

/-!
File system calls of the teaching kernel (`kern_syscall_file.c`).

A shallow embedding of the open-file registry, the per-process descriptor
table and the system calls `sys_open`, `sys_close`, `sys_read`, `sys_write`,
`sys_dup2` and `sys_lseek`.

Modelling conventions.

* A node of the doubly linked open-file list is identified by its address (a
  `Nat`).  A node and the `open_file` it points to are allocated and released
  together, so the list is kept as the sequence of its live nodes, head to
  tail, each paired with its `open_file` record.
* Every function that dereferences a pointer or indexes the descriptor array
  returns an `Option`; `none` stands for undefined behaviour (index out of
  bounds, NULL or dangling dereference) or for a kernel panic.
* The collaborators outside the file (the allocator, `copyinstr`, the VFS) are
  not run: the outcome of each of their calls is an argument of the system
  call, and the calls that are made are recorded in the result.
* The per-file mutex is not modelled: one thread executes one system call at a
  time.
-/

namespace FileSyscalls

/-! ## Constants and machine integers -/

/-- Constants that the source takes from kernel headers which are not part of
the sources at hand (`kern/limits.h`, `kern/fcntl.h`, `kern/seek.h`,
`kern/errno.h`).  They are parameters of the model. -/
structure kern_consts where
  OPEN_MAX : Nat
  O_RDONLY : Int
  O_WRONLY : Int
  O_RDWR : Int
  O_ACCMODE : Int
  O_APPEND : Int
  SEEK_SET : Int
  SEEK_CUR : Int
  SEEK_END : Int
  EBADF : Int
  EMFILE : Int
  ENFILE : Int
  ESPIPE : Int
  EINVAL : Int
deriving DecidableEq, Repr

/-- The values these constants have in the OS/161 headers; used for the
concrete runs. -/
def os161 : kern_consts where
  OPEN_MAX := 128
  O_RDONLY := 0
  O_WRONLY := 1
  O_RDWR := 2
  O_ACCMODE := 3
  O_APPEND := 32
  SEEK_SET := 0
  SEEK_CUR := 1
  SEEK_END := 2
  EBADF := 30
  EMFILE := 28
  ENFILE := 29
  ESPIPE := 33
  EINVAL := 8

/-- The value of a C `int` / `ssize_t` (32 bits, two's complement) holding the
unsigned word `n`. -/
def to_int32 (n : Nat) : Int :=
  if n % 4294967296 < 2147483648 then ((n % 4294967296 : Nat) : Int)
  else ((n % 4294967296 : Nat) : Int) - 4294967296

/-- The unsigned 32-bit word representing the C `int` `i`. -/
def to_uint32 (i : Int) : Nat := (i % 4294967296).toNat

/-- C `a & b` on `int` operands. -/
def int_and (a b : Int) : Int := to_int32 (Nat.land (to_uint32 a) (to_uint32 b))

/-- Conversion of a `uint64_t` to `off_t` (signed 64 bits, two's complement). -/
def to_int64 (n : Nat) : Int :=
  if n % 18446744073709551616 < 9223372036854775808
  then ((n % 18446744073709551616 : Nat) : Int)
  else ((n % 18446744073709551616 : Nat) : Int) - 18446744073709551616

/-- Conversion of an `off_t` (or of the `int` constant `-1`) to `uint64_t`. -/
def to_uint64 (i : Int) : Nat := (i % 18446744073709551616).toNat

/-- C `a + b` where one operand is `uint64_t` and the other `off_t`: the signed
operand is converted and the sum wraps modulo `2^64`. -/
def add_uint64 (a : Nat) (b : Int) : Nat := (a + to_uint64 b) % 18446744073709551616

/-- C `a - b` on `size_t` operands (32 bits), converted to `ssize_t`. -/
def ssize_sub (a b : Nat) : Int :=
  to_int32 ((a % 4294967296 + 4294967296 - b % 4294967296) % 4294967296)

/-! ## Data model (`kern_include_file.h`) -/

/-- The C `struct open_file`, without its mutex.  `vnode = none` is the NULL vnode. -/
structure open_file where
  vnode : Option Nat
  offset : Int
  flags : Int
  reference_count : Int
deriving DecidableEq, Repr

/-- The C `struct file_descriptor_table`: the slot array (`none` is NULL, `some a` the
address of an open-file node) and the hint `next` (`-1` if full). -/
structure file_descriptor_table where
  OF_node_ptr_array : List (Option Nat)
  next : Int
deriving DecidableEq, Repr

/-- The state the system calls work on: the global `open_file_table` (its live
nodes from head to tail) and `curproc->FD_table`. -/
structure kstate where
  open_file_table : List (Nat × open_file)
  FD_table : file_descriptor_table
deriving DecidableEq, Repr

/-- The calls into the VFS that a system call makes, in order. -/
inductive vfs_call where
  | vfs_open (flags : Int) (mode : Int)
  | vfs_close (vnode : Option Nat)
  | VOP_READ (vnode : Option Nat) (uio_offset : Int) (uio_resid : Nat)
  | VOP_WRITE (vnode : Option Nat) (uio_offset : Int) (uio_resid : Nat)
  | VOP_STAT (vnode : Option Nat)
  | VOP_ISSEEKABLE (vnode : Option Nat)
deriving DecidableEq, Repr

/-- What a system call leaves behind: its return value, the value it stored
through the `errno` out-parameter (`none` if it stored nothing), the new state
and the VFS calls it made. -/
structure sys_result (α : Type) where
  ret : α
  errno : Option Int
  st : kstate
  calls : List vfs_call
deriving DecidableEq, Repr

/-! ## Memory access helpers -/

/-- The read `arr[i]` for a C `int` index; `none` when `i` is out of bounds. -/
def array_load (arr : List (Option Nat)) (i : Int) : Option (Option Nat) :=
  if 0 ≤ i then arr[i.toNat]? else none

/-- The store `arr[i] = v` for a C `int` index; `none` when `i` is out of bounds. -/
def array_store (arr : List (Option Nat)) (i : Int) (v : Option Nat) :
    Option (List (Option Nat)) :=
  if 0 ≤ i ∧ i.toNat < arr.length then some (arr.set i.toNat v) else none

/-- The dereference `node->open_file`: the record of a live node; `none` for a dangling
pointer. -/
def node_file (reg : List (Nat × open_file)) (node : Nat) : Option open_file :=
  (reg.find? (fun e => e.1 == node)).map Prod.snd

/-- Assignment to fields of `node->open_file`; `none` for a dangling pointer. -/
def modify_file (reg : List (Nat × open_file)) (node : Nat) (g : open_file → open_file) :
    Option (List (Nat × open_file)) :=
  match node_file reg node with
  | none => none
  | some _ => some (reg.map (fun e => if e.1 == node then (e.1, g e.2) else e))

/-! ## Open file table functions -/

/-- Function `open_file_table_create`: an empty list (only the sentinel); a failed
`kmalloc` panics. -/
def open_file_table_create (kmalloc_list kmalloc_sentinel : Bool) :
    Option (List (Nat × open_file)) :=
  if kmalloc_list && kmalloc_sentinel then some [] else none

/-- Function `add_open_file`: with `kmalloc_node = none` (NULL) the vnode is closed and
NULL is returned; otherwise the new node is linked in just before the sentinel,
that is, at the tail. -/
def add_open_file (reg : List (Nat × open_file)) (new : open_file) (kmalloc_node : Option Nat) :
    Option Nat × List (Nat × open_file) × List vfs_call :=
  match kmalloc_node with
  | none => (none, reg, [vfs_call.vfs_close new.vnode])
  | some new_node => (some new_node, reg ++ [(new_node, new)], [])

/-- Function `close_open_file`: decrement the reference count; at zero unlink the node
and release it (`free_open_file_node` calls `vfs_close`). -/
def close_open_file (reg : List (Nat × open_file)) (node : Nat) :
    Option (List (Nat × open_file) × List vfs_call) :=
  match node_file reg node with
  | none => none
  | some f =>
    if f.reference_count - 1 = 0 then
      some (reg.filter (fun e => !(e.1 == node)), [vfs_call.vfs_close f.vnode])
    else
      some (reg.map (fun e =>
        if e.1 == node then (e.1, { e.2 with reference_count := e.2.reference_count - 1 }) else e), [])

/-- Function `create_open_file`: `none` is the NULL returned when `kmalloc` fails. -/
def create_open_file (kmalloc_file : Bool) : Option open_file :=
  if kmalloc_file then
    some { vnode := none, offset := 0, flags := 0, reference_count := 1 }
  else none

/-! ## File descriptor table functions -/

/-- Function `is_fd_table_full`: the hint is the sentinel. -/
def is_fd_table_full (T : file_descriptor_table) : Bool := T.next == -1

/-- The `while` loop of `get_next_fd`, started at `next_free`: the value stored
into `next` (the first unbound index found, or `-1` after the loop).  `fuel`
bounds the number of iterations; `none` is an out-of-bounds read or exhausted
fuel. -/
def get_next_fd_loop (K : kern_consts) (arr : List (Option Nat)) : Nat → Int → Option Int
  | 0, _ => none
  | fuel + 1, next_free =>
    if next_free < K.OPEN_MAX then
      match array_load arr next_free with
      | none => none
      | some none => some next_free
      | some (some _) => get_next_fd_loop K arr fuel (next_free + 1)
    else some (-1)

/-- Function `get_next_fd`: returns the hint and re-picks it by the upward scan. -/
def get_next_fd (K : kern_consts) (T : file_descriptor_table) :
    Option (Int × file_descriptor_table) :=
  let free := T.next
  match get_next_fd_loop K T.OF_node_ptr_array (K.OPEN_MAX + 1) (free + 1) with
  | none => none
  | some n => some (free, { T with next := n })

/-- Function `get_open_file`: the node in slot `fd` with its record; the inner `none` is
NULL. -/
def get_open_file (s : kstate) (fd : Int) : Option (Option (Nat × open_file)) :=
  match array_load s.FD_table.OF_node_ptr_array fd with
  | none => none
  | some none => some none
  | some (some node) =>
    match node_file s.open_file_table node with
    | none => none
    | some f => some (some (node, f))

/-- Function `close_fd`: a bound slot is closed with `close_open_file`, set to
NULL, and becomes the hint; an unbound slot is left alone. -/
def close_fd (s : kstate) (fd : Int) : Option (kstate × List vfs_call) :=
  match array_load s.FD_table.OF_node_ptr_array fd with
  | none => none
  | some none => some (s, [])
  | some (some node) =>
    match close_open_file s.open_file_table node with
    | none => none
    | some (reg, calls) =>
      match array_store s.FD_table.OF_node_ptr_array fd none with
      | none => none
      | some arr =>
        some ({ open_file_table := reg, FD_table := { OF_node_ptr_array := arr, next := fd } },
              calls)

/-- Function `validate_fd`: `0` if `fd` is in range and its slot is bound, `-1` if not. -/
def validate_fd (K : kern_consts) (T : file_descriptor_table) (fd : Int) : Option Int :=
  if fd < 0 ∨ fd ≥ K.OPEN_MAX then some (-1)
  else
    match array_load T.OF_node_ptr_array fd with
    | none => none
    | some none => some (-1)
    | some (some _) => some 0

/-- The outcomes of the allocator and VFS calls made by `FD_table_create`:
a `vfs_open` outcome is its result code and the vnode it stores when the code
is `0`; a node `kmalloc` outcome is NULL (`none`) or the address. -/
structure create_env where
  kmalloc_table : Bool
  kmalloc_stdout : Bool
  vfs_open_stdout : Int × Nat
  kmalloc_stdout_node : Option Nat
  kmalloc_stderr : Bool
  vfs_open_stderr : Int × Nat
  kmalloc_stderr_node : Option Nat
deriving DecidableEq, Repr

/-- Function `FD_table_create`, run on the global list `reg`.  `none` when no table
comes back: the table `kmalloc` failed (NULL is returned), the kernel
panicked, or a NULL `open_file` was dereferenced. -/
def FD_table_create (K : kern_consts) (reg : List (Nat × open_file)) (env : create_env) :
    Option (sys_result Unit) :=
  if !env.kmalloc_table then none
  else
    let arr0 : List (Option Nat) := List.replicate K.OPEN_MAX none
    match create_open_file env.kmalloc_stdout with
    | none => none
    | some stdout =>
      if env.vfs_open_stdout.1 ≠ 0 then none
      else
        match add_open_file reg { stdout with vnode := some env.vfs_open_stdout.2 }
            env.kmalloc_stdout_node with
        | (none, _, _) => none
        | (some node1, reg1, _) =>
          match array_store arr0 1 (some node1) with
          | none => none
          | some arr1 =>
            match modify_file reg1 node1 (fun f => { f with flags := K.O_WRONLY }) with
            | none => none
            | some reg1 =>
              match create_open_file env.kmalloc_stderr with
              | none => none
              | some stderr =>
                if env.vfs_open_stderr.1 ≠ 0 then none
                else
                  match add_open_file reg1 { stderr with vnode := some env.vfs_open_stderr.2 }
                      env.kmalloc_stderr_node with
                  | (none, _, _) => none
                  | (some node2, reg2, _) =>
                    match array_store arr1 2 (some node2) with
                    | none => none
                    | some arr2 =>
                      match modify_file reg2 node2 (fun f => { f with flags := K.O_WRONLY }) with
                      | none => none
                      | some reg2 =>
                        some { ret := (), errno := none,
                               st := { open_file_table := reg2,
                                       FD_table := { OF_node_ptr_array := arr2, next := 3 } },
                               calls := [vfs_call.vfs_open K.O_WRONLY 0,
                                         vfs_call.vfs_open K.O_WRONLY 0] }

/-! ## System calls -/

/-- The outcomes of the calls `sys_open` makes outside the file: the result of
`copyinstr`, whether the `kmalloc` of `create_open_file` succeeded, the result
code of `vfs_open` with the vnode it stores on success, the node address from
the `kmalloc` of `add_open_file` (`none` is NULL), and the result code of
`VOP_STAT` with the `st_size` it leaves in the stat buffer. -/
structure open_env where
  copyinstr : Int
  kmalloc_file : Bool
  vfs_open : Int × Nat
  kmalloc_node : Option Nat
  VOP_STAT : Int × Int
deriving DecidableEq, Repr

/-- System call `sys_open`.  The record from `create_open_file` is first touched when
`vfs_open` stores the vnode into it, so a NULL record is undefined behaviour
only on the path where `vfs_open` succeeds. -/
def sys_open (K : kern_consts) (s : kstate) (flags : Int) (mode : Int) (env : open_env) :
    Option (sys_result Int) :=
  if env.copyinstr ≠ 0 then
    some { ret := -1, errno := some env.copyinstr, st := s, calls := [] }
  else if is_fd_table_full s.FD_table then
    some { ret := -1, errno := some K.EMFILE, st := s, calls := [] }
  else
    match get_next_fd K s.FD_table with
    | none => none
    | some (fd, T1) =>
      if env.vfs_open.1 ≠ 0 then
        some { ret := -1, errno := some env.vfs_open.1,
               st := { s with FD_table := T1 },
               calls := [vfs_call.vfs_open flags mode] }
      else
        match create_open_file env.kmalloc_file with
        | none => none
        | some new_open_file =>
          match add_open_file s.open_file_table
              { new_open_file with vnode := some env.vfs_open.2 } env.kmalloc_node with
          | (none, reg, calls) =>
            some { ret := -1, errno := some K.ENFILE,
                   st := { open_file_table := reg, FD_table := T1 },
                   calls := vfs_call.vfs_open flags mode :: calls }
          | (some new_node, reg, calls) =>
            match array_store T1.OF_node_ptr_array fd (some new_node) with
            | none => none
            | some arr =>
              match modify_file reg new_node (fun f => { f with flags := flags }) with
              | none => none
              | some reg1 =>
                if int_and flags K.O_APPEND = K.O_APPEND then
                  match modify_file reg1 new_node
                      (fun f => { f with offset := env.VOP_STAT.2 }) with
                  | none => none
                  | some reg2 =>
                    some { ret := fd, errno := some 0,
                           st := { open_file_table := reg2,
                                   FD_table := { T1 with OF_node_ptr_array := arr } },
                           calls := vfs_call.vfs_open flags mode :: calls ++
                                    [vfs_call.VOP_STAT (some env.vfs_open.2)] }
                else
                  some { ret := fd, errno := some 0,
                         st := { open_file_table := reg1,
                                 FD_table := { T1 with OF_node_ptr_array := arr } },
                         calls := vfs_call.vfs_open flags mode :: calls }

/-- System call `sys_close`. -/
def sys_close (K : kern_consts) (s : kstate) (fd : Int) : Option (sys_result Int) :=
  match validate_fd K s.FD_table fd with
  | none => none
  | some v =>
    if v ≠ 0 then some { ret := -1, errno := some K.EBADF, st := s, calls := [] }
    else
      match close_fd s fd with
      | none => none
      | some (s1, calls) => some { ret := 0, errno := none, st := s1, calls := calls }

/-- The outcome of a `VOP_READ` or `VOP_WRITE` call: its result code and the
`uio_resid` and `uio_offset` it leaves in the uio. -/
structure uio_result where
  err : Int
  uio_resid : Nat
  uio_offset : Int
deriving DecidableEq, Repr

/-- System call `sys_read`.  `vop` is the outcome of `VOP_READ`. -/
def sys_read (K : kern_consts) (s : kstate) (fd : Int) (buflen : Nat) (vop : uio_result) :
    Option (sys_result Int) :=
  match validate_fd K s.FD_table fd with
  | none => none
  | some v =>
    if v ≠ 0 then some { ret := -1, errno := some K.EBADF, st := s, calls := [] }
    else
      match get_open_file s fd with
      | none => none
      | some none => none
      | some (some (node, file)) =>
        let flags := file.flags
        if int_and flags K.O_ACCMODE ≠ K.O_RDONLY ∧ int_and flags K.O_ACCMODE ≠ K.O_RDWR then
          some { ret := -1, errno := some K.EBADF, st := s, calls := [] }
        else if vop.err ≠ 0 then
          some { ret := -1, errno := some vop.err, st := s,
                 calls := [vfs_call.VOP_READ file.vnode file.offset buflen] }
        else
          match modify_file s.open_file_table node
              (fun f => { f with offset := vop.uio_offset }) with
          | none => none
          | some reg =>
            some { ret := ssize_sub buflen vop.uio_resid, errno := some 0,
                   st := { s with open_file_table := reg },
                   calls := [vfs_call.VOP_READ file.vnode file.offset buflen] }

/-- System call `sys_write`.  `vop` is the outcome of `VOP_WRITE`. -/
def sys_write (K : kern_consts) (s : kstate) (fd : Int) (nbytes : Nat) (vop : uio_result) :
    Option (sys_result Int) :=
  match validate_fd K s.FD_table fd with
  | none => none
  | some v =>
    if v ≠ 0 then some { ret := -1, errno := some K.EBADF, st := s, calls := [] }
    else
      match get_open_file s fd with
      | none => none
      | some none => none
      | some (some (node, file)) =>
        let flags := file.flags
        if int_and flags K.O_ACCMODE ≠ K.O_WRONLY ∧ int_and flags K.O_ACCMODE ≠ K.O_RDWR then
          some { ret := -1, errno := some K.EBADF, st := s, calls := [] }
        else if vop.err ≠ 0 then
          some { ret := -1, errno := some vop.err, st := s,
                 calls := [vfs_call.VOP_WRITE file.vnode file.offset nbytes] }
        else
          match modify_file s.open_file_table node
              (fun f => { f with offset := vop.uio_offset }) with
          | none => none
          | some reg =>
            some { ret := ssize_sub nbytes vop.uio_resid, errno := some 0,
                   st := { s with open_file_table := reg },
                   calls := [vfs_call.VOP_WRITE file.vnode file.offset nbytes] }

/-- System call `sys_dup2`. -/
def sys_dup2 (K : kern_consts) (s : kstate) (oldfd newfd : Int) : Option (sys_result Int) :=
  match validate_fd K s.FD_table oldfd with
  | none => none
  | some v =>
    if v ≠ 0 ∨ (newfd < 0 ∨ newfd ≥ K.OPEN_MAX) then
      some { ret := -1, errno := some K.EBADF, st := s, calls := [] }
    else if oldfd = newfd then
      some { ret := newfd, errno := none, st := s, calls := [] }
    else
      let closed : Option (kstate × List vfs_call) :=
        match array_load s.FD_table.OF_node_ptr_array newfd with
        | none => none
        | some none => some (s, [])
        | some (some _) =>
          match close_fd s newfd with
          | none => none
          | some (s1, calls) =>
            match get_next_fd K s1.FD_table with
            | none => none
            | some (_, T1) => some ({ s1 with FD_table := T1 }, calls)
      match closed with
      | none => none
      | some (s2, calls) =>
        match array_load s2.FD_table.OF_node_ptr_array oldfd with
        | none => none
        | some p =>
          match array_store s2.FD_table.OF_node_ptr_array newfd p with
          | none => none
          | some arr =>
            let s3 : kstate := { s2 with FD_table := { s2.FD_table with OF_node_ptr_array := arr } }
            match get_open_file s3 newfd with
            | none => none
            | some none => none
            | some (some (node, _)) =>
              match modify_file s3.open_file_table node
                  (fun f => { f with reference_count := f.reference_count + 1 }) with
              | none => none
              | some reg =>
                some { ret := newfd, errno := none,
                       st := { s3 with open_file_table := reg }, calls := calls }

/-- The `switch (whence)` of `sys_lseek`: the value assigned to the `off_t`
variable `newpos`, or `none` in the `default` case.  `pos` is `uint64_t`;
`opf->offset` and `st_size` are `off_t`. -/
def lseek_newpos (K : kern_consts) (opf : open_file) (pos : Nat) (whence : Int)
    (st_size : Int) : Option Int :=
  if whence = K.SEEK_SET then some (to_int64 pos)
  else if whence = K.SEEK_CUR then some (to_int64 (add_uint64 pos opf.offset))
  else if whence = K.SEEK_END then some (to_int64 (add_uint64 pos st_size))
  else none

/-- System call `sys_lseek`.  `isseekable` is the outcome of `VOP_ISSEEKABLE`, `stat` the
result code of `VOP_STAT` with the `st_size` it reports.  The return type is
`uint64_t`, so `return -1` yields `to_uint64 (-1)`. -/
def sys_lseek (K : kern_consts) (s : kstate) (fd : Int) (pos : Nat) (whence : Int)
    (isseekable : Bool) (stat : Int × Int) : Option (sys_result Nat) :=
  match validate_fd K s.FD_table fd with
  | none => none
  | some v =>
    if v ≠ 0 then some { ret := to_uint64 (-1), errno := some K.EBADF, st := s, calls := [] }
    else
      match get_open_file s fd with
      | none => none
      | some none => none
      | some (some (node, opf)) =>
        if !isseekable then
          some { ret := to_uint64 (-1), errno := some K.ESPIPE, st := s,
                 calls := [vfs_call.VOP_ISSEEKABLE opf.vnode] }
        else
          let calls := [vfs_call.VOP_ISSEEKABLE opf.vnode, vfs_call.VOP_STAT opf.vnode]
          if stat.1 ≠ 0 then
            some { ret := to_uint64 (-1), errno := some K.EINVAL, st := s, calls := calls }
          else
            match lseek_newpos K opf pos whence stat.2 with
            | none =>
              some { ret := to_uint64 (-1), errno := some K.EINVAL, st := s, calls := calls }
            | some newpos =>
              if newpos < 0 then
                some { ret := to_uint64 (-1), errno := some K.EINVAL, st := s, calls := calls }
              else
                match modify_file s.open_file_table node
                    (fun f => { f with offset := newpos }) with
                | none => none
                | some reg =>
                  some { ret := to_uint64 newpos, errno := none,
                         st := { s with open_file_table := reg }, calls := calls }

/-- What the caller of a system call observes besides the state: the return
value, the value stored through `errno`, and the VFS calls made. -/
def observed {α : Type} (r : sys_result α) : α × Option Int × List vfs_call :=
  (r.ret, r.errno, r.calls)

/-! ## State predicates and reachability -/

/-- The addresses of the live nodes of the open-file list. -/
def node_ids (reg : List (Nat × open_file)) : List Nat := reg.map Prod.fst

/-- The number of descriptor slots that point at `node`. -/
def slot_count (T : file_descriptor_table) (node : Nat) : Nat :=
  T.OF_node_ptr_array.count (some node)

/-- The reference-count invariant: every open file in the list is referenced by
exactly `reference_count` descriptor slots. -/
def refcount_exact (s : kstate) : Prop :=
  ∀ e ∈ s.open_file_table, e.2.reference_count = (slot_count s.FD_table e.1 : Int)

/-- Well-formed states: the slot array has `OPEN_MAX` entries, the hint is the
sentinel or an index of the array, the live nodes have distinct addresses,
every bound slot points at a live node, and no open file is referenced by more
slots than its reference count. -/
def well_formed (K : kern_consts) (s : kstate) : Prop :=
  s.FD_table.OF_node_ptr_array.length = K.OPEN_MAX ∧
  (s.FD_table.next = -1 ∨ (0 ≤ s.FD_table.next ∧ s.FD_table.next < K.OPEN_MAX)) ∧
  (node_ids s.open_file_table).Nodup ∧
  (∀ p ∈ s.FD_table.OF_node_ptr_array, ∀ node ∈ p, node ∈ node_ids s.open_file_table) ∧
  (∀ e ∈ s.open_file_table, (slot_count s.FD_table e.1 : Int) ≤ e.2.reference_count)

instance (K : kern_consts) (s : kstate) : Decidable (well_formed K s) := by
  unfold well_formed; infer_instance

instance (s : kstate) : Decidable (refcount_exact s) := by
  unfold refcount_exact; infer_instance

/-- The allocator contract for a node `kmalloc`: the address returned is not
the address of a live node. -/
def fresh_node (reg : List (Nat × open_file)) (kmalloc_node : Option Nat) : Prop :=
  ∀ a, kmalloc_node = some a → a ∉ node_ids reg

/-- The states reachable from a freshly created open-file list and descriptor
table by `sys_open`, `sys_close` and `sys_dup2`, under any outcomes of the
allocator and the VFS that respect the allocator contract. -/
inductive reachable (K : kern_consts) : kstate → Prop
  | create (a b : Bool) (reg : List (Nat × open_file)) (env : create_env)
      (r : sys_result Unit) :
      open_file_table_create a b = some reg →
      env.kmalloc_stdout_node ≠ env.kmalloc_stderr_node →
      FD_table_create K reg env = some r → reachable K r.st
  | step_open (s : kstate) (flags mode : Int) (env : open_env) (r : sys_result Int) :
      reachable K s → fresh_node s.open_file_table env.kmalloc_node →
      sys_open K s flags mode env = some r → reachable K r.st
  | step_close (s : kstate) (fd : Int) (r : sys_result Int) :
      reachable K s → sys_close K s fd = some r → reachable K r.st
  | step_dup2 (s : kstate) (oldfd newfd : Int) (r : sys_result Int) :
      reachable K s → sys_dup2 K s oldfd newfd = some r → reachable K r.st

/-- The registry invariant: every open file in the list has a positive
reference count and a non-NULL vnode. -/
def registry_ok (s : kstate) : Prop :=
  ∀ e ∈ s.open_file_table, 0 < e.2.reference_count ∧ e.2.vnode ≠ none

instance (s : kstate) : Decidable (registry_ok s) := by
  unfold registry_ok; infer_instance

/-- The hint invariant: `next` is the sentinel `-1` or the index of an unbound
slot of the array. -/
def hint_ok (K : kern_consts) (s : kstate) : Prop :=
  s.FD_table.next = -1 ∨
  (0 ≤ s.FD_table.next ∧ s.FD_table.next < K.OPEN_MAX ∧
    array_load s.FD_table.OF_node_ptr_array s.FD_table.next = some none)

instance (K : kern_consts) (s : kstate) : Decidable (hint_ok K s) := by
  unfold hint_ok; infer_instance

/-! ## Concrete runs -/

/-- Outcomes for `FD_table_create` in which everything succeeds: the console
vnodes are `100` and `101`, the two nodes are allocated at `1000` and `1001`. -/
def boot_env : create_env where
  kmalloc_table := true
  kmalloc_stdout := true
  vfs_open_stdout := (0, 100)
  kmalloc_stdout_node := some 1000
  kmalloc_stderr := true
  vfs_open_stderr := (0, 101)
  kmalloc_stderr_node := some 1001

/-- The state right after `FD_table_create` under `boot_env`, written out. -/
def boot_state : kstate where
  open_file_table :=
    [(1000, { vnode := some 100, offset := 0, flags := 1, reference_count := 1 }),
     (1001, { vnode := some 101, offset := 0, flags := 1, reference_count := 1 })]
  FD_table :=
    { OF_node_ptr_array := [none, some 1000, some 1001] ++ List.replicate 125 none,
      next := 3 }

/-- Outcomes for `sys_open` in which everything succeeds: vnode `102`, node
allocated at `1002`, `VOP_STAT` reporting size `7`. -/
def open_ok_env : open_env where
  copyinstr := 0
  kmalloc_file := true
  vfs_open := (0, 102)
  kmalloc_node := some 1002
  VOP_STAT := (0, 7)

/-- The state after `sys_dup2(1, 3)` in `boot_state`. -/
def dup_state : kstate where
  open_file_table :=
    [(1000, { vnode := some 100, offset := 0, flags := 1, reference_count := 2 }),
     (1001, { vnode := some 101, offset := 0, flags := 1, reference_count := 1 })]
  FD_table :=
    { OF_node_ptr_array := [none, some 1000, some 1001, some 1000] ++ List.replicate 124 none,
      next := 3 }

/-- The state after a successful `sys_open` with `O_RDONLY` in `dup_state`:
slot 3 has been overwritten. -/
def clobbered_state : kstate where
  open_file_table :=
    [(1000, { vnode := some 100, offset := 0, flags := 1, reference_count := 2 }),
     (1001, { vnode := some 101, offset := 0, flags := 1, reference_count := 1 }),
     (1002, { vnode := some 102, offset := 0, flags := 0, reference_count := 1 })]
  FD_table :=
    { OF_node_ptr_array := [none, some 1000, some 1001, some 1002] ++ List.replicate 124 none,
      next := 4 }

/-- The state after a successful `sys_open` with `O_WRONLY` in `boot_state`
under `open_ok_env`: descriptor 3 is bound to the new open file. -/
def open_state : kstate where
  open_file_table :=
    [(1000, { vnode := some 100, offset := 0, flags := 1, reference_count := 1 }),
     (1001, { vnode := some 101, offset := 0, flags := 1, reference_count := 1 }),
     (1002, { vnode := some 102, offset := 0, flags := 1, reference_count := 1 })]
  FD_table :=
    { OF_node_ptr_array := [none, some 1000, some 1001, some 1002] ++ List.replicate 124 none,
      next := 4 }

/-- The state after `sys_dup2(1, 127)` in `boot_state`. -/
def dup_last_state : kstate where
  open_file_table :=
    [(1000, { vnode := some 100, offset := 0, flags := 1, reference_count := 2 }),
     (1001, { vnode := some 101, offset := 0, flags := 1, reference_count := 1 })]
  FD_table :=
    { OF_node_ptr_array :=
        [none, some 1000, some 1001] ++ List.replicate 124 none ++ [some 1000],
      next := 3 }

/-- The state after `sys_dup2(2, 127)` in `dup_last_state`: closing the bound
descriptor 127 and re-picking the hint above it leaves the sentinel `-1`. -/
def sentinel_state : kstate where
  open_file_table :=
    [(1000, { vnode := some 100, offset := 0, flags := 1, reference_count := 1 }),
     (1001, { vnode := some 101, offset := 0, flags := 1, reference_count := 2 })]
  FD_table :=
    { OF_node_ptr_array :=
        [none, some 1000, some 1001] ++ List.replicate 124 none ++ [some 1001],
      next := -1 }

/-- Outcomes for `sys_open` in which `copyinstr` fails with `EFAULT` (6 in the
OS/161 headers); nothing else is called. -/
def bad_path_env : open_env where
  copyinstr := 6
  kmalloc_file := true
  vfs_open := (0, 102)
  kmalloc_node := some 1002
  VOP_STAT := (0, 7)

/-- Outcomes for `sys_open` in which `vfs_open` fails with `ENOENT` (19 in the
OS/161 headers). -/
def no_entry_env : open_env where
  copyinstr := 0
  kmalloc_file := true
  vfs_open := (19, 0)
  kmalloc_node := some 1002
  VOP_STAT := (0, 0)

end FileSyscalls

/-!
Virtual memory of the teaching kernel (`kern_vm_vm.c`, `kern_vm_addrspace.c`).

A shallow embedding of the three-level page table, the region list, the
address-space functions `as_create`, `as_copy`, `as_destroy`,
`as_define_region`, `as_prepare_load`, `as_complete_load`, and the fault
handler `vm_fault`.

Modelling conventions.

* `vaddr_t`, `paddr_t` and page-table entries are 32-bit words, kept as `Nat`
  with explicit reduction modulo `2^32` where the C arithmetic can wrap.
* The arrays of the page table are owned by one address space and never
  shared, so they are kept by value: a level is a list, NULL is `none`.
* A function returns an `Option` where the C code can index outside an array,
  dereference NULL or read memory it never initialised; `none` stands for that
  undefined behaviour.
* Kernel memory is a map from kernel virtual addresses to bytes together with
  the list of frames handed out by `alloc_kpages` and not yet freed.  The
  outcomes of `kmalloc` and `alloc_kpages` are arguments; the entries written
  with `tlb_random` are recorded in the result.
-/

namespace VirtualMemory

/-! ## Constants and machine words -/

/-- Constants and macros that the source takes from headers which are not part
of the sources at hand (`vm.h`, `machine/vm.h`, `mips/tlb.h`, `addrspace.h`,
`kern/errno.h`).  They are parameters of the model; the two address
conversions are functions on 32-bit words. -/
structure vm_consts where
  PAGE_SIZE : Nat
  PAGE_FRAME : Nat
  USERSPACETOP : Nat
  KVADDR_TO_PADDR : Nat → Nat
  PADDR_TO_KVADDR : Nat → Nat
  TLBHI_VPAGE : Nat
  TLBLO_PPAGE : Nat
  TLBLO_DIRTY : Nat
  TLBLO_VALID : Nat
  VADDR_LEVEL_ONE : Nat
  VADDR_LEVEL_ONE_SHIFT : Nat
  VADDR_LEVEL_TWO : Nat
  VADDR_LEVEL_TWO_SHIFT : Nat
  VADDR_LEVEL_THREE : Nat
  VADDR_LEVEL_THREE_SHIFT : Nat
  VM_FAULT_READ : Int
  VM_FAULT_WRITE : Int
  VM_FAULT_READONLY : Int
  EFAULT : Int
  EINVAL : Int
  ENOMEM : Int

/-- The values these constants have on OS/161 for MIPS, with the 8/6/6 split of
the virtual page number; used for the concrete runs. -/
def mips : vm_consts where
  PAGE_SIZE := 4096
  PAGE_FRAME := 4294963200
  USERSPACETOP := 2147483648
  KVADDR_TO_PADDR := fun kvaddr => (kvaddr + 4294967296 - 2147483648) % 4294967296
  PADDR_TO_KVADDR := fun paddr => (paddr + 2147483648) % 4294967296
  TLBHI_VPAGE := 4294963200
  TLBLO_PPAGE := 4294963200
  TLBLO_DIRTY := 1024
  TLBLO_VALID := 512
  VADDR_LEVEL_ONE := 4278190080
  VADDR_LEVEL_ONE_SHIFT := 24
  VADDR_LEVEL_TWO := 16515072
  VADDR_LEVEL_TWO_SHIFT := 18
  VADDR_LEVEL_THREE := 258048
  VADDR_LEVEL_THREE_SHIFT := 12
  VM_FAULT_READ := 0
  VM_FAULT_WRITE := 1
  VM_FAULT_READONLY := 2
  EFAULT := 6
  EINVAL := 8
  ENOMEM := 3

/-- The macro `VADDR_LEVEL_ONE_SIZE` of `kern_vm_addrspace.c`. -/
def VADDR_LEVEL_ONE_SIZE : Nat := 256

/-- The macro `VADDR_LEVEL_TWO_SIZE` of `kern_vm_addrspace.c`. -/
def VADDR_LEVEL_TWO_SIZE : Nat := 64

/-- The macro `VADDR_LEVEL_THREE_SIZE` of `kern_vm_addrspace.c`. -/
def VADDR_LEVEL_THREE_SIZE : Nat := 64

/-- C `a << k` on a 32-bit unsigned word. -/
def shl32 (a k : Nat) : Nat := (a <<< k) % 4294967296

/-- C `~a` on a 32-bit unsigned word. -/
def not32 (a : Nat) : Nat := 4294967295 - a % 4294967296

/-- C `a + b` on 32-bit unsigned words. -/
def add32 (a b : Nat) : Nat := (a + b) % 4294967296

/-! ## Data model -/

/-- The C `struct as_region`: its fields as the source uses them; the three
permissions are C `int`s, nonzero meaning allowed. -/
structure as_region where
  vbase : Nat
  vtop : Nat
  memsize : Nat
  readable : Int
  writeable : Int
  executable : Int
deriving DecidableEq, Repr

/-- The C `struct addrspace`: the page table (`none` is a NULL `page_table`; a
level-one array of optional level-two arrays of optional level-three arrays of
entries), the region list from its head, and the loading flag. -/
structure addrspace where
  page_table : Option (List (Option (List (Option (List Nat)))))
  as_regions_head : List as_region
  loading_flag : Nat
deriving DecidableEq, Repr

/-- Kernel memory: the byte at each kernel virtual address, and the frames
returned by `alloc_kpages` that have not been given back to `free_kpages`. -/
structure phys_mem where
  bytes : Nat → Nat
  held : List Nat

/-- The effect of `bzero(p, n)` on memory. -/
def bzero (p n : Nat) (bytes : Nat → Nat) : Nat → Nat :=
  fun a => if p ≤ a ∧ a < p + n then 0 else bytes a

/-- The effect of `memmove(dst, src, n)` on memory. -/
def memmove (dst src n : Nat) (bytes : Nat → Nat) : Nat → Nat :=
  fun a => if dst ≤ a ∧ a < dst + n then bytes (src + (a - dst)) else bytes a

/-- The effect of `free_kpages(kvaddr)`: the frame is no longer held. -/
def free_kpages (kvaddr : Nat) (m : phys_mem) : phys_mem :=
  { m with held := m.held.erase kvaddr }

/-! ## Page table functions (`kern_vm_vm.c`) -/

/-- The walk of `page_table_lookup` with the three indices already extracted:
the entry found, `0` where a level is missing. -/
def page_table_walk (as : addrspace) (first_level_index second_level_index
    third_level_index : Nat) : Option Nat :=
  match as.page_table with
  | none => some 0
  | some pt =>
    match pt[first_level_index]? with
    | none => none
    | some none => some 0
    | some (some l2) =>
      match l2[second_level_index]? with
      | none => none
      | some none => some 0
      | some (some l3) =>
        match l3[third_level_index]? with
        | none => none
        | some e => if e = 0 then some 0 else some e

/-- Function `page_table_lookup`: the entry of the page of `fault_addr`, `0` if
there is none.  The indices are extracted by shifts of the 32-bit address. -/
def page_table_lookup (as : addrspace) (fault_addr : Nat) : Option Nat :=
  page_table_walk as (fault_addr >>> 24) (shl32 fault_addr 8 >>> 26)
    (shl32 fault_addr 14 >>> 26)

/-- The body of `insert_into_page_table` with the three indices already
extracted: the return code (`enomem` when a `kmalloc` fails) and the address
space afterwards.  `kmalloc_level_two` and `kmalloc_level_three` say whether
the `kmalloc` of a missing level succeeds. -/
def page_table_store (enomem : Int) (as : addrspace) (new_pte : Nat)
    (first_level_index second_level_index third_level_index : Nat)
    (kmalloc_level_two kmalloc_level_three : Bool) : Option (Int × addrspace) :=
  match as.page_table with
  | none => none
  | some pt =>
    match pt[first_level_index]? with
    | none => none
    | some l2_ptr =>
      let l2_new : Option (List (Option (List Nat))) :=
        match l2_ptr with
        | some l2 => some l2
        | none =>
          if kmalloc_level_two then some (List.replicate VADDR_LEVEL_TWO_SIZE none) else none
      match l2_new with
      | none => some (enomem, as)
      | some l2 =>
        match l2[second_level_index]? with
        | none => none
        | some l3_ptr =>
          let l3_new : Option (List Nat) :=
            match l3_ptr with
            | some l3 => some l3
            | none =>
              if kmalloc_level_three then some (List.replicate VADDR_LEVEL_THREE_SIZE 0)
              else none
          match l3_new with
          | none =>
            some (enomem, { as with page_table := some (pt.set first_level_index (some l2)) })
          | some l3 =>
            if third_level_index < l3.length then
              let l2_set := l2.set second_level_index (some (l3.set third_level_index new_pte))
              some (0, { as with page_table := some (pt.set first_level_index (some l2_set)) })
            else none

/-- Function `insert_into_page_table`.  The indices are extracted with the
masks and shifts `VADDR_LEVEL_*`. -/
def insert_into_page_table (K : vm_consts) (as : addrspace) (new_pte fault_addr : Nat)
    (kmalloc_level_two kmalloc_level_three : Bool) : Option (Int × addrspace) :=
  page_table_store K.ENOMEM as new_pte
    ((fault_addr &&& K.VADDR_LEVEL_ONE) >>> K.VADDR_LEVEL_ONE_SHIFT)
    ((fault_addr &&& K.VADDR_LEVEL_TWO) >>> K.VADDR_LEVEL_TWO_SHIFT)
    ((fault_addr &&& K.VADDR_LEVEL_THREE) >>> K.VADDR_LEVEL_THREE_SHIFT)
    kmalloc_level_two kmalloc_level_three

/-- Function `addr_to_region` on the region list: the first region from the
head that contains `fault_addr`, `none` (NULL) if there is none. -/
def addr_to_region_walk : List as_region → Nat → Option as_region
  | [], _ => none
  | as_region :: next, fault_addr =>
    if as_region.vbase ≤ fault_addr ∧ fault_addr < as_region.vtop then some as_region
    else addr_to_region_walk next fault_addr

/-- Function `addr_to_region`. -/
def addr_to_region (as : addrspace) (fault_addr : Nat) : Option as_region :=
  addr_to_region_walk as.as_regions_head fault_addr

/-- Function `init_pte`. -/
def init_pte (K : vm_consts) (fault_region : as_region) (new_page : Nat) : Nat :=
  let new_pte := new_page &&& K.TLBLO_PPAGE
  let new_pte := if fault_region.writeable ≠ 0 then new_pte ||| K.TLBLO_DIRTY else new_pte
  if fault_region.readable ≠ 0 ∨ fault_region.writeable ≠ 0 ∨ fault_region.executable ≠ 0 then
    new_pte ||| K.TLBLO_VALID
  else new_pte

/-- Function `load_into_tlb`: the pair handed to `tlb_random`. -/
def load_into_tlb (K : vm_consts) (fault_addr pte : Nat) : Nat × Nat :=
  (fault_addr &&& K.TLBHI_VPAGE, pte)

/-- The outcomes of the allocations `vm_fault` may make: the address returned
by `alloc_kpages(1)` (`0` on failure) and whether the `kmalloc`s of
`insert_into_page_table` succeed. -/
structure fault_env where
  alloc_kpages : Nat
  kmalloc_level_two : Bool
  kmalloc_level_three : Bool
deriving DecidableEq, Repr

/-- What `vm_fault` leaves behind: its return code, the current address space,
kernel memory, and the entries it wrote with `tlb_random`. -/
structure fault_result where
  ret : Int
  as : Option addrspace
  mem : phys_mem
  tlb : List (Nat × Nat)

/-- Function `vm_fault`.  `curproc` says whether `curproc` is non-NULL, `as` is
what `proc_getas()` returns. -/
def vm_fault (K : vm_consts) (curproc : Bool) (as : Option addrspace) (m : phys_mem)
    (faulttype : Int) (faultaddress : Nat) (env : fault_env) : Option fault_result :=
  if faulttype = K.VM_FAULT_READONLY then
    some { ret := K.EFAULT, as := as, mem := m, tlb := [] }
  else if ¬ (faulttype = K.VM_FAULT_READ ∨ faulttype = K.VM_FAULT_WRITE) then
    some { ret := K.EINVAL, as := as, mem := m, tlb := [] }
  else if !curproc then
    some { ret := K.EFAULT, as := as, mem := m, tlb := [] }
  else
    match as with
    | none => some { ret := K.EFAULT, as := as, mem := m, tlb := [] }
    | some a =>
      match page_table_lookup a faultaddress with
      | none => none
      | some pte =>
        if pte &&& K.TLBLO_VALID ≠ 0 then
          if faulttype = K.VM_FAULT_WRITE ∧ pte &&& K.TLBLO_DIRTY = 0 ∧ a.loading_flag = 0 then
            some { ret := K.EFAULT, as := as, mem := m, tlb := [] }
          else
            some { ret := 0, as := as, mem := m,
                   tlb := [load_into_tlb K faultaddress (pte ||| a.loading_flag)] }
        else
          match addr_to_region a faultaddress with
          | none => some { ret := K.EFAULT, as := as, mem := m, tlb := [] }
          | some fault_region =>
            if faulttype = K.VM_FAULT_WRITE ∧ fault_region.writeable = 0 ∧
                a.loading_flag = 0 then
              some { ret := K.EFAULT, as := as, mem := m, tlb := [] }
            else
              let new_page := env.alloc_kpages
              if new_page = 0 then
                some { ret := K.ENOMEM, as := as, mem := m, tlb := [] }
              else
                let m1 : phys_mem :=
                  { bytes := bzero new_page 4096 m.bytes, held := new_page :: m.held }
                let new_pte := init_pte K fault_region (K.KVADDR_TO_PADDR new_page)
                match insert_into_page_table K a new_pte faultaddress
                    env.kmalloc_level_two env.kmalloc_level_three with
                | none => none
                | some (ret, a1) =>
                  if ret ≠ 0 then
                    some { ret := ret, as := some a1, mem := free_kpages new_page m1, tlb := [] }
                  else
                    some { ret := 0, as := some a1, mem := m1,
                           tlb := [load_into_tlb K faultaddress (new_pte ||| a1.loading_flag)] }

/-! ## Address space functions (`kern_vm_addrspace.c`) -/

/-- Function `as_create`: `none` is the NULL returned when a `kmalloc` fails. -/
def as_create (kmalloc_as kmalloc_level_one : Bool) : Option addrspace :=
  if !kmalloc_as then none
  else if !kmalloc_level_one then none
  else
    some { page_table := some (List.replicate VADDR_LEVEL_ONE_SIZE none),
           as_regions_head := [],
           loading_flag := 0 }

/-- Function `as_define_region`: the return code and the address space
afterwards.  `vaddr + memsize` is computed on 32-bit words. -/
def as_define_region (K : vm_consts) (as : Option addrspace) (vaddr memsize : Nat)
    (readable writeable executable : Int) (kmalloc_region kmalloc_node : Bool) :
    Int × Option addrspace :=
  match as with
  | none => (K.EFAULT, none)
  | some a =>
    if add32 vaddr memsize > K.USERSPACETOP then (K.ENOMEM, as)
    else if !kmalloc_region then (K.ENOMEM, as)
    else if !kmalloc_node then (K.ENOMEM, as)
    else
      let region : as_region :=
        { vbase := vaddr, vtop := add32 vaddr memsize, memsize := memsize,
          readable := readable, writeable := writeable, executable := executable }
      (0, some { a with as_regions_head := region :: a.as_regions_head })

/-- Function `as_prepare_load`: the return code, the address space afterwards
and whether `tlb_flush` was called. -/
def as_prepare_load (K : vm_consts) (as : Option addrspace) : Int × Option addrspace × Bool :=
  match as with
  | none => (K.EFAULT, none, false)
  | some a => (0, some { a with loading_flag := K.TLBLO_DIRTY }, true)

/-- Function `as_complete_load`: the return code, the address space afterwards
and whether `tlb_flush` was called. -/
def as_complete_load (K : vm_consts) (as : Option addrspace) : Int × Option addrspace × Bool :=
  match as with
  | none => (K.EFAULT, none, false)
  | some a => (0, some { a with loading_flag := 0 }, true)

/-- The innermost loop of `as_destroy`: `n` iterations from index `k` over a
level-three array, freeing the frame of every nonzero entry. -/
def destroy_level_three (K : vm_consts) (l3 : List Nat) : Nat → Nat → phys_mem → Option phys_mem
  | 0, _, m => some m
  | n + 1, k, m =>
    match l3[k]? with
    | none => none
    | some e =>
      if e ≠ 0 then
        destroy_level_three K l3 n (k + 1)
          (free_kpages (K.PADDR_TO_KVADDR (e &&& K.PAGE_FRAME)) m)
      else destroy_level_three K l3 n (k + 1) m

/-- The middle loop of `as_destroy`: `n` iterations from index `j` over a
level-two array. -/
def destroy_level_two (K : vm_consts) (l2 : List (Option (List Nat))) :
    Nat → Nat → phys_mem → Option phys_mem
  | 0, _, m => some m
  | n + 1, j, m =>
    match l2[j]? with
    | none => none
    | some none => destroy_level_two K l2 n (j + 1) m
    | some (some l3) =>
      match destroy_level_three K l3 VADDR_LEVEL_THREE_SIZE 0 m with
      | none => none
      | some m1 => destroy_level_two K l2 n (j + 1) m1

/-- The outer loop of `as_destroy`: `n` iterations from index `i` over the
level-one array. -/
def destroy_level_one (K : vm_consts) (pt : List (Option (List (Option (List Nat))))) :
    Nat → Nat → phys_mem → Option phys_mem
  | 0, _, m => some m
  | n + 1, i, m =>
    match pt[i]? with
    | none => none
    | some none => destroy_level_one K pt n (i + 1) m
    | some (some l2) =>
      match destroy_level_two K l2 VADDR_LEVEL_TWO_SIZE 0 m with
      | none => none
      | some m1 => destroy_level_one K pt n (i + 1) m1

/-- Function `as_destroy`: kernel memory afterwards (the frames of the page
table are given back).  An index that is missing from a list stands for an
array element that was never initialised. -/
def as_destroy (K : vm_consts) (as : Option addrspace) (m : phys_mem) : Option phys_mem :=
  match as with
  | none => some m
  | some a =>
    match a.page_table with
    | none => some m
    | some pt => destroy_level_one K pt VADDR_LEVEL_ONE_SIZE 0 m

/-- The outcomes of the allocations `as_copy` may make, by the place where the
allocation happens: the two `kmalloc`s of `as_create`, the `kmalloc` of the
level-two array for first-level index `i`, of the level-three array for
`(i, j)`, the address returned by `alloc_kpages(1)` for entry `(i, j, k)` (`0`
on failure), and the two `kmalloc`s of `as_define_region` for the region at
position `n` of the source list. -/
structure copy_env where
  kmalloc_as : Bool
  kmalloc_level_one : Bool
  kmalloc_level_two : Nat → Bool
  kmalloc_level_three : Nat → Nat → Bool
  alloc_kpages : Nat → Nat → Nat → Nat
  kmalloc_region : Nat → Bool
  kmalloc_node : Nat → Bool

/-- The copy of one page in `as_copy`: `new_page` becomes held, is zeroed and
receives `PAGE_SIZE` bytes of the frame of the source entry `e`. -/
def copy_page (K : vm_consts) (new_page e : Nat) (m : phys_mem) : phys_mem :=
  { bytes := memmove new_page (K.PADDR_TO_KVADDR (e &&& K.PAGE_FRAME)) K.PAGE_SIZE
      (bzero new_page K.PAGE_SIZE m.bytes),
    held := new_page :: m.held }

/-- The entry `as_copy` stores for the source entry `e` copied to `new_page`. -/
def copy_pte (K : vm_consts) (new_page e : Nat) : Nat :=
  (K.KVADDR_TO_PADDR new_page &&& K.PAGE_FRAME) ||| (e &&& not32 K.PAGE_FRAME)

/-- The "copy level three" loop of `as_copy`: `n` iterations from index `k`.
The address from `alloc_kpages` is used unchecked, so a failed allocation is a
NULL dereference. -/
def copy_level_three (K : vm_consts) (alloc : Nat → Nat) (old_l3 : List Nat) :
    Nat → Nat → phys_mem → Option (List Nat × phys_mem)
  | 0, _, m => some ([], m)
  | n + 1, k, m =>
    match old_l3[k]? with
    | none => none
    | some e =>
      if e = 0 then
        match copy_level_three K alloc old_l3 n (k + 1) m with
        | none => none
        | some (l3, m1) => some (0 :: l3, m1)
      else
        let new_page := alloc k
        if new_page = 0 then none
        else
          match copy_level_three K alloc old_l3 n (k + 1) (copy_page K new_page e m) with
          | none => none
          | some (l3, m1) => some (copy_pte K new_page e :: l3, m1)

/-- How a loop of `as_copy` over a level ends: with undefined behaviour, with a
failed `kmalloc` (the array as far as it was written, and memory), or
completed. -/
inductive copy_status (α : Type) where
  | undefined
  | nomem (built : α) (m : phys_mem)
  | done (a : α) (m : phys_mem)

/-- Put an element written earlier in front of what the rest of a loop
wrote. -/
def copy_status.cons {α : Type} (x : α) : copy_status (List α) → copy_status (List α)
  | copy_status.undefined => copy_status.undefined
  | copy_status.nomem built m => copy_status.nomem (x :: built) m
  | copy_status.done a m => copy_status.done (x :: a) m

/-- The "copy level two" loop of `as_copy` for first-level index `i`: `n`
iterations from index `j`.  When the `kmalloc` of a level-three array fails the
new level-two array holds what was written so far and NULL at `j`; its later
elements were never written. -/
def copy_level_two (K : vm_consts) (env : copy_env) (i : Nat)
    (old_l2 : List (Option (List Nat))) :
    Nat → Nat → phys_mem → copy_status (List (Option (List Nat)))
  | 0, _, m => copy_status.done [] m
  | n + 1, j, m =>
    match old_l2[j]? with
    | none => copy_status.undefined
    | some none => copy_status.cons none (copy_level_two K env i old_l2 n (j + 1) m)
    | some (some old_l3) =>
      if !env.kmalloc_level_three i j then copy_status.nomem [none] m
      else
        match copy_level_three K (env.alloc_kpages i j) old_l3 VADDR_LEVEL_THREE_SIZE 0 m with
        | none => copy_status.undefined
        | some (l3, m1) =>
          copy_status.cons (some l3) (copy_level_two K env i old_l2 n (j + 1) m1)

/-- The "copy page table" loop of `as_copy`: `n` iterations from index `i`.
The level-one array of the new address space was set to NULL throughout by
`as_create`, so the elements not reached stay NULL. -/
def copy_level_one (K : vm_consts) (env : copy_env)
    (old_pt : List (Option (List (Option (List Nat))))) :
    Nat → Nat → phys_mem → copy_status (List (Option (List (Option (List Nat)))))
  | 0, _, m => copy_status.done [] m
  | n + 1, i, m =>
    match old_pt[i]? with
    | none => copy_status.undefined
    | some none => copy_status.cons none (copy_level_one K env old_pt n (i + 1) m)
    | some (some old_l2) =>
      if !env.kmalloc_level_two i then copy_status.nomem (List.replicate (n + 1) none) m
      else
        match copy_level_two K env i old_l2 VADDR_LEVEL_TWO_SIZE 0 m with
        | copy_status.undefined => copy_status.undefined
        | copy_status.nomem l2 m1 => copy_status.nomem (some l2 :: List.replicate n none) m1
        | copy_status.done l2 m1 =>
          copy_status.cons (some l2) (copy_level_one K env old_pt n (i + 1) m1)

/-- The "copy regions list" loop of `as_copy`: `as_define_region` on the new
address space for every region of the source list from its head; the return
codes are not looked at.  `n` is the position of the first region. -/
def copy_regions (K : vm_consts) (env : copy_env) :
    List as_region → Nat → Option addrspace → Option addrspace
  | [], _, newas => newas
  | region :: next, n, newas =>
    copy_regions K env next (n + 1)
      (as_define_region K newas region.vbase region.memsize region.readable region.writeable
        region.executable (env.kmalloc_region n) (env.kmalloc_node n)).2

/-- What `as_copy` leaves behind: its return code, the value stored through
`ret` (`none` if nothing was stored, `some none` for NULL), and kernel
memory. -/
structure copy_result where
  ret : Int
  new_as : Option (Option addrspace)
  mem : phys_mem

/-- Function `as_copy`. -/
def as_copy (K : vm_consts) (old : addrspace) (m : phys_mem) (env : copy_env) :
    Option copy_result :=
  match as_create env.kmalloc_as env.kmalloc_level_one with
  | none => some { ret := K.ENOMEM, new_as := none, mem := m }
  | some newas =>
    match old.page_table with
    | none => none
    | some old_pt =>
      match copy_level_one K env old_pt VADDR_LEVEL_ONE_SIZE 0 m with
      | copy_status.undefined => none
      | copy_status.nomem pt m1 =>
        match as_destroy K (some { newas with page_table := some pt }) m1 with
        | none => none
        | some m2 => some { ret := K.ENOMEM, new_as := some none, mem := m2 }
      | copy_status.done pt m1 =>
        some { ret := 0,
               new_as := some (copy_regions K env old.as_regions_head 0
                 (some { newas with page_table := some pt })),
               mem := m1 }

/-! ## Predicates on constants and states -/

/-- Modelled from the spec: the macros `VADDR_LEVEL_ONE`, `VADDR_LEVEL_TWO`,
`VADDR_LEVEL_THREE` and their shifts come from a header that is not among the
sources; the spec splits a 32-bit virtual address as "8 high bits, next 6 bits,
next 6 bits, 12-bit page offset discarded", so the masks select bits 31..24,
23..18 and 17..12 and the shifts are 24, 18 and 12. -/
def split_8_6_6 (K : vm_consts) : Prop :=
  K.VADDR_LEVEL_ONE = 4278190080 ∧ K.VADDR_LEVEL_ONE_SHIFT = 24 ∧
  K.VADDR_LEVEL_TWO = 16515072 ∧ K.VADDR_LEVEL_TWO_SHIFT = 18 ∧
  K.VADDR_LEVEL_THREE = 258048 ∧ K.VADDR_LEVEL_THREE_SHIFT = 12

instance (K : vm_consts) : Decidable (split_8_6_6 K) := by
  unfold split_8_6_6; infer_instance

/-- The bits of a TLB entry: `TLBLO_VALID` and `TLBLO_DIRTY` are nonzero flags
outside the frame field `TLBLO_PPAGE` and share no bit. -/
def tlb_bits (K : vm_consts) : Prop :=
  K.TLBLO_VALID ≠ 0 ∧ K.TLBLO_DIRTY ≠ 0 ∧ K.TLBLO_PPAGE &&& K.TLBLO_VALID = 0 ∧
  K.TLBLO_PPAGE &&& K.TLBLO_DIRTY = 0 ∧ K.TLBLO_VALID &&& K.TLBLO_DIRTY = 0

instance (K : vm_consts) : Decidable (tlb_bits K) := by
  unfold tlb_bits; infer_instance

/-- The three fault types are distinct and the three error codes are not 0. -/
def codes_ok (K : vm_consts) : Prop :=
  K.VM_FAULT_READ ≠ K.VM_FAULT_READONLY ∧ K.VM_FAULT_WRITE ≠ K.VM_FAULT_READONLY ∧
  K.VM_FAULT_READ ≠ K.VM_FAULT_WRITE ∧ K.EFAULT ≠ 0 ∧ K.EINVAL ≠ 0 ∧ K.ENOMEM ≠ 0

instance (K : vm_consts) : Decidable (codes_ok K) := by
  unfold codes_ok; infer_instance

/-- Two frames of `size` bytes at `x` and `y` do not overlap. -/
def frames_disjoint (size x y : Nat) : Prop := x + size ≤ y ∨ y + size ≤ x

instance (size x y : Nat) : Decidable (frames_disjoint size x y) := by
  unfold frames_disjoint; infer_instance

/-- The kernel virtual address of the frame of the entry `e`, as `as_copy` and
`as_destroy` compute it. -/
def source_frame (K : vm_consts) (e : Nat) : Nat := K.PADDR_TO_KVADDR (e &&& K.PAGE_FRAME)

/-- The address `alloc_kpages` returns when `as_copy` copies the page of the
address `a`. -/
def copy_frame (env : copy_env) (a : Nat) : Nat :=
  env.alloc_kpages (a / 16777216) (a / 262144 % 64) (a / 4096 % 64)

/-- What `as_copy` relies on from the frame allocator while it copies `old`:
the address returned for a mapped page is the kernel address of a page-aligned
frame whose physical address is not 0, the frame overlaps no frame of the
source, and two different pages get frames that do not overlap. -/
def alloc_contract (K : vm_consts) (env : copy_env) (old : addrspace) : Prop :=
  ∀ a, a < 4294967296 → ∀ e, page_table_lookup old a = some e → e ≠ 0 →
    K.PADDR_TO_KVADDR (K.KVADDR_TO_PADDR (copy_frame env a) &&& K.PAGE_FRAME) =
      copy_frame env a ∧
    K.KVADDR_TO_PADDR (copy_frame env a) &&& K.PAGE_FRAME ≠ 0 ∧
    ∀ b, b < 4294967296 → ∀ e1, page_table_lookup old b = some e1 → e1 ≠ 0 →
      frames_disjoint K.PAGE_SIZE (copy_frame env a) (source_frame K e1) ∧
      (b / 4096 ≠ a / 4096 →
        frames_disjoint K.PAGE_SIZE (copy_frame env a) (copy_frame env b))

/-- Memory `m1` is memory `m` after the page copies `jobs` (pairs of the new
frame and the source entry): bytes outside the new frames are those of `m`,
each new frame holds the bytes its source frame has in `m`, and the frames held
are those of `m` and the new ones. -/
def copied (K : vm_consts) (jobs : Nat → Nat → Prop) (m m1 : phys_mem) : Prop :=
  (∀ x, (∀ np e, jobs np e → ¬ (np ≤ x ∧ x < np + K.PAGE_SIZE)) → m1.bytes x = m.bytes x) ∧
  (∀ np e, jobs np e → ∀ off, off < K.PAGE_SIZE →
    m1.bytes (np + off) = m.bytes (source_frame K e + off)) ∧
  (∀ x, x ∈ m1.held ↔ (x ∈ m.held ∨ ∃ e, jobs x e))

/-- The page copies of the "copy level three" loop over the indices from `k`
up to `k + n`. -/
def level_three_jobs (alloc : Nat → Nat) (old_l3 : List Nat) (k n : Nat) (np e : Nat) : Prop :=
  ∃ t, k ≤ t ∧ t < k + n ∧ old_l3[t]? = some e ∧ e ≠ 0 ∧ np = alloc t

/-- The page copies of the "copy level two" loop for first-level index `i` over
the indices from `j` up to `j + n`. -/
def level_two_jobs (env : copy_env) (i : Nat) (old_l2 : List (Option (List Nat)))
    (j n : Nat) (np e : Nat) : Prop :=
  ∃ t old_l3, j ≤ t ∧ t < j + n ∧ old_l2[t]? = some (some old_l3) ∧
    level_three_jobs (env.alloc_kpages i t) old_l3 0 VADDR_LEVEL_THREE_SIZE np e

/-- The page copies of the "copy page table" loop over the indices from `i` up
to `i + n`. -/
def level_one_jobs (env : copy_env) (old_pt : List (Option (List (Option (List Nat)))))
    (i n : Nat) (np e : Nat) : Prop :=
  ∃ t old_l2, i ≤ t ∧ t < i + n ∧ old_pt[t]? = some (some old_l2) ∧
    level_two_jobs env t old_l2 0 VADDR_LEVEL_TWO_SIZE np e

/-! ## Concrete address spaces -/

/-- An address space as `as_create` returns it. -/
def fresh_as : addrspace where
  page_table := some (List.replicate 256 none)
  as_regions_head := []
  loading_flag := 0

/-- The address space `fresh_as` after
`as_define_region(as, 0x00400000, 0x1000, 1, 0, 1)`. -/
def text_as : addrspace where
  page_table := some (List.replicate 256 none)
  as_regions_head :=
    [{ vbase := 4194304, vtop := 4198400, memsize := 4096,
       readable := 1, writeable := 0, executable := 1 }]
  loading_flag := 0

/-- The address space `text_as` after a read fault at `0x00400100` was served
with the frame at physical address `0x00050000`: the entry of the page is
`0x00050000 | TLBLO_VALID`. -/
def text_mapped_as : addrspace where
  page_table :=
    some ((List.replicate 256 none).set 0
      (some ((List.replicate 64 none).set 16 (some ((List.replicate 64 0).set 0 328192)))))
  as_regions_head := text_as.as_regions_head
  loading_flag := 0

/-- The address space `text_as` after `as_prepare_load`: the loading flag is
`TLBLO_DIRTY`. -/
def text_loading_as : addrspace where
  page_table := some (List.replicate 256 none)
  as_regions_head := text_as.as_regions_head
  loading_flag := 1024

/-- The address space `fresh_as` after
`as_define_region(as, 0x00400000, 0x1000, 0, 0, 0)`: a region without any
permission. -/
def noperm_as : addrspace where
  page_table := some (List.replicate 256 none)
  as_regions_head :=
    [{ vbase := 4194304, vtop := 4198400, memsize := 4096,
       readable := 0, writeable := 0, executable := 0 }]
  loading_flag := 0

/-- The address space `noperm_as` after a read fault at `0x00400100` was served
with the frame at physical address `0x00050000`: the entry of the page is
`0x00050000`, without `TLBLO_VALID`. -/
def noperm_mapped_as : addrspace where
  page_table :=
    some ((List.replicate 256 none).set 0
      (some ((List.replicate 64 none).set 16 (some ((List.replicate 64 0).set 0 327680)))))
  as_regions_head := noperm_as.as_regions_head
  loading_flag := 0

/-- Kernel memory in which every byte is `7` and no frame is held. -/
def sevens : phys_mem where
  bytes := fun _ => 7
  held := []

/-- Outcomes for `vm_fault` in which `alloc_kpages` returns the frame at
`0x80050000` and both `kmalloc`s succeed. -/
def fault_ok_env : fault_env where
  alloc_kpages := 2147811328
  kmalloc_level_two := true
  kmalloc_level_three := true

/-- Outcomes for `as_copy` in which every `kmalloc` succeeds and `alloc_kpages`
returns, for the entry `(i, j, k)`, the frame at `0x80100000 + (64 j + k) 4096`. -/
def copy_ok_env : copy_env where
  kmalloc_as := true
  kmalloc_level_one := true
  kmalloc_level_two := fun _ => true
  kmalloc_level_three := fun _ _ => true
  alloc_kpages := fun _ j k => 2148532224 + (64 * j + k) * 4096
  kmalloc_region := fun _ => true
  kmalloc_node := fun _ => true

/-- The copy `as_copy` makes of `text_mapped_as` with `copy_ok_env`: the page of
`0x00400100` is in the frame at physical address `0x00500000`. -/
def text_copy_as : addrspace where
  page_table :=
    some ((List.replicate 256 none).set 0
      (some ((List.replicate 64 none).set 16 (some ((List.replicate 64 0).set 0 5243392)))))
  as_regions_head := text_as.as_regions_head
  loading_flag := 0

/-- Outcomes for `as_copy` in which every `kmalloc` succeeds and `alloc_kpages`
fails, returning 0. -/
def copy_nopage_env : copy_env where
  kmalloc_as := true
  kmalloc_level_one := true
  kmalloc_level_two := fun _ => true
  kmalloc_level_three := fun _ _ => true
  alloc_kpages := fun _ _ _ => 0
  kmalloc_region := fun _ => true
  kmalloc_node := fun _ => true

/-- Outcomes for `as_copy` as in `copy_ok_env`, except that the `kmalloc` of
every level-three array fails. -/
def copy_nolevel3_env : copy_env where
  kmalloc_as := true
  kmalloc_level_one := true
  kmalloc_level_two := fun _ => true
  kmalloc_level_three := fun _ _ => false
  alloc_kpages := fun _ j k => 2148532224 + (64 * j + k) * 4096
  kmalloc_region := fun _ => true
  kmalloc_node := fun _ => true

/-- Outcomes for `as_copy` as in `copy_ok_env`, except that the `kmalloc` of the
region record in `as_define_region` fails. -/
def copy_noregion_env : copy_env where
  kmalloc_as := true
  kmalloc_level_one := true
  kmalloc_level_two := fun _ => true
  kmalloc_level_three := fun _ _ => true
  alloc_kpages := fun _ j k => 2148532224 + (64 * j + k) * 4096
  kmalloc_region := fun _ => false
  kmalloc_node := fun _ => true

/-- The address space `as_copy` stores for `text_mapped_as` with
`copy_noregion_env`: the page table of `text_copy_as` and no region. -/
def text_copy_noregion_as : addrspace where
  page_table := text_copy_as.page_table
  as_regions_head := []
  loading_flag := 0

/-- The address space `fresh_as` after
`as_define_region(as, 0x7fff0000, 0xffff0000, 1, 1, 0)`: the 32-bit sum wraps to
`0x7ffe0000`. -/
def wrapped_as : addrspace where
  page_table := some (List.replicate 256 none)
  as_regions_head :=
    [{ vbase := 2147418112, vtop := 2147352576, memsize := 4294901760,
       readable := 1, writeable := 1, executable := 0 }]
  loading_flag := 0

/-- The address space `text_as` after
`as_define_region(as, 0x00400000, 0x2000, 1, 1, 0)`: the writable region defined
second is at the head of the list, before the region of `text_as`. -/
def overlap_as : addrspace where
  page_table := some (List.replicate 256 none)
  as_regions_head :=
    [{ vbase := 4194304, vtop := 4202496, memsize := 8192,
       readable := 1, writeable := 1, executable := 0 },
     { vbase := 4194304, vtop := 4198400, memsize := 4096,
       readable := 1, writeable := 0, executable := 1 }]
  loading_flag := 0

/-- The address space `as_copy` stores for `overlap_as` with `copy_ok_env`: the
two regions are in the opposite order. -/
def overlap_copy_as : addrspace where
  page_table := some (List.replicate 256 none)
  as_regions_head :=
    [{ vbase := 4194304, vtop := 4198400, memsize := 4096,
       readable := 1, writeable := 0, executable := 1 },
     { vbase := 4194304, vtop := 4202496, memsize := 8192,
       readable := 1, writeable := 1, executable := 0 }]
  loading_flag := 0

/-- The address space `text_mapped_as` after
`as_define_region(as, 0x00400000, 0x2000, 1, 1, 0)`: the page of `0x00400100`
keeps its entry `0x00050200`, built for the read-only region. -/
def overlap_mapped_as : addrspace where
  page_table := text_mapped_as.page_table
  as_regions_head := overlap_as.as_regions_head
  loading_flag := 0

/-- Outcomes for `vm_fault` in which `alloc_kpages` returns the frame at
`0x80050000`, the `kmalloc` of a level-two array succeeds and the `kmalloc` of a
level-three array fails. -/
def fault_nolevel3_env : fault_env where
  alloc_kpages := 2147811328
  kmalloc_level_two := true
  kmalloc_level_three := false

/-- The address space `text_as` after a fault whose level-three `kmalloc`
failed: the level-two array for first-level index 0 is installed and empty. -/
def text_level_two_as : addrspace where
  page_table := some ((List.replicate 256 none).set 0 (some (List.replicate 64 none)))
  as_regions_head := text_as.as_regions_head
  loading_flag := 0

end VirtualMemory

/-! # Lemmas -/

namespace FileSyscalls

/-! ## Machine integers -/

theorem to_int64_of_lt {n : Nat} (h : n < 9223372036854775808) : to_int64 n = (n : Int) := by
  unfold to_int64
  have h1 : n % 18446744073709551616 = n := Nat.mod_eq_of_lt (by omega)
  rw [h1]
  simp [h]

theorem to_int64_add_uint64 {pos : Nat} {b : Int} (h0 : 0 ≤ b + pos)
    (h1 : b + pos < 9223372036854775808) :
    to_int64 (add_uint64 pos b) = b + pos := by
  unfold to_int64 add_uint64 to_uint64
  omega

theorem to_uint64_of_nonneg {i : Int} (h0 : 0 ≤ i) (h1 : i < 18446744073709551616) :
    to_uint64 i = i.toNat := by
  unfold to_uint64
  omega

theorem to_int64_lt (n : Nat) : to_int64 n < 9223372036854775808 := by
  unfold to_int64
  split <;> omega

theorem ssize_sub_eq {a b : Nat} (hb : b ≤ a) (ha : a < 2147483648) :
    ssize_sub a b = (a : Int) - (b : Int) := by
  unfold ssize_sub to_int32
  split <;> omega

/-! ## The descriptor array -/

theorem array_load_eq {arr : List (Option Nat)} {i : Int} (h0 : 0 ≤ i) :
    array_load arr i = arr[i.toNat]? := by
  simp [array_load, h0]

theorem array_load_some {arr : List (Option Nat)} {i : Int} {p : Option Nat}
    (h : array_load arr i = some p) :
    0 ≤ i ∧ i.toNat < arr.length ∧ arr[i.toNat]? = some p := by
  unfold array_load at h
  split at h
  · rename_i h0
    refine ⟨h0, ?_, h⟩
    rcases List.getElem?_eq_some.mp h with ⟨hl, _⟩
    exact hl
  · cases h

theorem array_load_of_lt {arr : List (Option Nat)} {i : Int} (h0 : 0 ≤ i)
    (hl : i.toNat < arr.length) : ∃ p, array_load arr i = some p := by
  rw [array_load_eq h0]
  exact ⟨arr[i.toNat], List.getElem?_eq_getElem hl⟩

theorem array_store_eq {arr : List (Option Nat)} {i : Int} (v : Option Nat) (h0 : 0 ≤ i)
    (hl : i.toNat < arr.length) : array_store arr i v = some (arr.set i.toNat v) := by
  simp [array_store, h0, hl]

theorem array_load_set_self {arr : List (Option Nat)} {i : Int} (v : Option Nat) (h0 : 0 ≤ i)
    (hl : i.toNat < arr.length) : array_load (arr.set i.toNat v) i = some v := by
  rw [array_load_eq h0, List.getElem?_set]
  simp [hl]

theorem array_load_set_ne {arr : List (Option Nat)} {i j : Int} (v : Option Nat) (h0 : 0 ≤ i)
    (hne : j ≠ i) : array_load (arr.set i.toNat v) j = array_load arr j := by
  unfold array_load
  split
  · rename_i hj
    rw [List.getElem?_set_ne]
    omega
  · rfl

theorem mem_of_array_load {arr : List (Option Nat)} {i : Int} {p : Option Nat}
    (h : array_load arr i = some p) : p ∈ arr := by
  rcases array_load_some h with ⟨_, _, h3⟩
  exact List.mem_iff_getElem?.mpr ⟨_, h3⟩

theorem two_le_count_of_getElem? {α : Type} [BEq α] [LawfulBEq α] (x : α) :
    ∀ (l : List α) (a b : Nat), a < b → l[a]? = some x → l[b]? = some x → 2 ≤ l.count x := by
  intro l
  induction l with
  | nil =>
    intro a b _ ha _
    simp at ha
  | cons y l ih =>
    intro a b hab ha hb
    cases b with
    | zero => omega
    | succ b =>
      rw [List.getElem?_cons_succ] at hb
      cases a with
      | zero =>
        rw [List.getElem?_cons_zero] at ha
        have hy : y = x := Option.some.inj ha
        have hmem : x ∈ l := List.mem_iff_getElem?.mpr ⟨b, hb⟩
        have h1 : 0 < l.count x := List.count_pos_iff.mpr hmem
        rw [List.count_cons, hy]
        simp only [beq_self_eq_true, if_true]
        omega
      | succ a =>
        rw [List.getElem?_cons_succ] at ha
        have h2 := ih a b (by omega) ha hb
        rw [List.count_cons]
        omega

theorem two_le_slot_count {arr : List (Option Nat)} {i j : Int} {x : Option Nat}
    (hij : i ≠ j) (hi : array_load arr i = some x) (hj : array_load arr j = some x) :
    2 ≤ arr.count x := by
  rcases array_load_some hi with ⟨hi0, _, hi2⟩
  rcases array_load_some hj with ⟨hj0, _, hj2⟩
  rcases Nat.lt_or_gt_of_ne (show i.toNat ≠ j.toNat by omega) with h | h
  · exact two_le_count_of_getElem? x arr _ _ h hi2 hj2
  · exact two_le_count_of_getElem? x arr _ _ h hj2 hi2

theorem count_set_some {arr : List (Option Nat)} {i : Nat} {q : Option Nat} (v : Option Nat)
    (x : Nat) (hget : arr[i]? = some q) :
    (arr.set i v).count (some x) =
      arr.count (some x) - (if q = some x then 1 else 0) + (if v = some x then 1 else 0) := by
  rcases List.getElem?_eq_some.mp hget with ⟨hl, hq⟩
  rw [List.count_set v (some x) arr i hl, hq]
  simp

theorem count_pos_of_array_load {arr : List (Option Nat)} {i : Int} {q : Option Nat}
    (h : array_load arr i = some q) : 0 < arr.count q :=
  List.count_pos_iff.mpr (mem_of_array_load h)

/-! ## The open-file list -/

theorem node_file_nil (n : Nat) : node_file [] n = none := rfl

theorem node_file_cons (e : Nat × open_file) (reg : List (Nat × open_file)) (n : Nat) :
    node_file (e :: reg) n = if e.1 = n then some e.2 else node_file reg n := by
  unfold node_file
  by_cases h : e.1 = n
  · simp [List.find?_cons, h]
  · simp [List.find?_cons, h]

theorem node_file_eq_none_iff (reg : List (Nat × open_file)) (n : Nat) :
    node_file reg n = none ↔ n ∉ node_ids reg := by
  induction reg with
  | nil => simp [node_file_nil, node_ids]
  | cons e reg ih =>
    rw [node_file_cons]
    by_cases h : e.1 = n
    · subst h
      simp [node_ids]
    · have h2 : ¬ n = e.1 := fun h3 => h h3.symm
      simp only [h, if_false, ih, node_ids, List.map_cons, List.mem_cons, h2, false_or]

theorem node_file_of_mem_ids {reg : List (Nat × open_file)} {n : Nat}
    (h : n ∈ node_ids reg) : ∃ f, node_file reg n = some f := by
  cases hf : node_file reg n with
  | none => exact absurd h ((node_file_eq_none_iff reg n).mp hf)
  | some f => exact ⟨f, rfl⟩

theorem mem_ids_of_node_file {reg : List (Nat × open_file)} {n : Nat} {f : open_file}
    (h : node_file reg n = some f) : n ∈ node_ids reg := by
  by_contra hn
  rw [(node_file_eq_none_iff reg n).mpr hn] at h
  cases h

theorem mem_of_node_file {reg : List (Nat × open_file)} {n : Nat} {f : open_file}
    (h : node_file reg n = some f) : (n, f) ∈ reg := by
  induction reg with
  | nil => cases h
  | cons e reg ih =>
    rw [node_file_cons] at h
    by_cases he : e.1 = n
    · simp only [he, if_true, Option.some.injEq] at h
      have : e = (n, f) := by cases e; simp_all
      simp [this]
    · simp only [he, if_false] at h
      exact List.mem_cons_of_mem _ (ih h)

theorem node_file_of_mem {reg : List (Nat × open_file)} {n : Nat} {f : open_file}
    (hnd : (node_ids reg).Nodup) (h : (n, f) ∈ reg) : node_file reg n = some f := by
  induction reg with
  | nil => cases h
  | cons e reg ih =>
    rw [node_file_cons]
    simp only [node_ids, List.map_cons, List.nodup_cons] at hnd
    rcases List.mem_cons.mp h with h1 | h1
    · simp [← h1]
    · have hne : e.1 ≠ n := by
        intro he
        apply hnd.1
        rw [he]
        exact List.mem_map.mpr ⟨(n, f), h1, rfl⟩
      simp only [hne, if_false]
      exact ih hnd.2 h1

theorem node_ids_map_update (reg : List (Nat × open_file)) (node : Nat)
    (g : open_file → open_file) :
    node_ids (reg.map (fun e => if e.1 == node then (e.1, g e.2) else e)) = node_ids reg := by
  induction reg with
  | nil => rfl
  | cons e reg ih =>
    simp only [node_ids, List.map_cons] at ih ⊢
    rw [ih]
    by_cases h : e.1 = node <;> simp [h]

theorem node_file_map_update (reg : List (Nat × open_file)) (node : Nat)
    (g : open_file → open_file) (n : Nat) :
    node_file (reg.map (fun e => if e.1 == node then (e.1, g e.2) else e)) n =
      if n = node then (node_file reg n).map g else node_file reg n := by
  induction reg with
  | nil => simp [node_file_nil]
  | cons e reg ih =>
    rw [List.map_cons, node_file_cons, node_file_cons, ih]
    by_cases h1 : e.1 = node
    · by_cases h2 : n = node
      · simp [h1, h2]
      · have h3 : ¬ node = n := fun h => h2 h.symm
        simp [h1, h2, h3]
    · by_cases h2 : n = node
      · have h3 : ¬ e.1 = n := by rw [h2]; exact h1
        simp [h1, h2]
      · by_cases h3 : e.1 = n <;> simp [h1, h2, h3]

theorem node_file_filter (reg : List (Nat × open_file)) (node : Nat) (n : Nat) :
    node_file (reg.filter (fun e => !(e.1 == node))) n =
      if n = node then none else node_file reg n := by
  induction reg with
  | nil => simp [node_file_nil]
  | cons e reg ih =>
    by_cases h1 : e.1 = node
    · have : List.filter (fun e => !(e.1 == node)) (e :: reg)
          = List.filter (fun e => !(e.1 == node)) reg := by
        simp [List.filter_cons, h1]
      rw [this, ih, node_file_cons]
      by_cases h2 : n = node
      · simp [h2]
      · have h3 : ¬ e.1 = n := by rw [h1]; exact fun h => h2 h.symm
        simp [h2, h3]
    · have : List.filter (fun e => !(e.1 == node)) (e :: reg)
          = e :: List.filter (fun e => !(e.1 == node)) reg := by
        simp [List.filter_cons, h1]
      rw [this, node_file_cons, node_file_cons, ih]
      by_cases h2 : n = node
      · have h3 : ¬ e.1 = n := by rw [h2]; exact h1
        simp [h2, h3, h1]
      · simp [h2]

theorem modify_file_eq {reg : List (Nat × open_file)} {node : Nat} {f : open_file}
    (g : open_file → open_file) (h : node_file reg node = some f) :
    modify_file reg node g =
      some (reg.map (fun e => if e.1 == node then (e.1, g e.2) else e)) := by
  simp [modify_file, h]

theorem map_update_self {reg : List (Nat × open_file)} {node : Nat} {f : open_file}
    (hnd : (node_ids reg).Nodup) (hf : node_file reg node = some f)
    (g : open_file → open_file) (hg : g f = f) :
    reg.map (fun e => if e.1 == node then (e.1, g e.2) else e) = reg := by
  have key : ∀ e ∈ reg, (fun e : Nat × open_file => if e.1 == node then (e.1, g e.2) else e) e
      = id e := by
    intro e he
    by_cases h : e.1 = node
    · have hmem : (node, e.2) ∈ reg := by rw [← h]; exact he
      have h2 : node_file reg node = some e.2 := node_file_of_mem hnd hmem
      rw [hf] at h2
      have h3 : f = e.2 := Option.some.inj h2
      simp [h, ← h3, hg]
      rw [h3, ← h]
    · simp [h]
  rw [List.map_congr_left key, List.map_id]

theorem map_update_of_not_mem {reg : List (Nat × open_file)} {node : Nat}
    (h : node ∉ node_ids reg) (g : open_file → open_file) :
    reg.map (fun e => if e.1 == node then (e.1, g e.2) else e) = reg := by
  have key : ∀ e ∈ reg, (fun e : Nat × open_file => if e.1 == node then (e.1, g e.2) else e) e
      = id e := by
    intro e he
    have hne : e.1 ≠ node := by
      intro h1
      apply h
      rw [← h1]
      exact List.mem_map.mpr ⟨e, he, rfl⟩
    simp [hne]
  rw [List.map_congr_left key, List.map_id]

theorem map_update_append_fresh {reg : List (Nat × open_file)} {node : Nat}
    (h : node ∉ node_ids reg) (f : open_file) (g : open_file → open_file) :
    (reg ++ [(node, f)]).map (fun e => if e.1 == node then (e.1, g e.2) else e)
      = reg ++ [(node, g f)] := by
  rw [List.map_append, map_update_of_not_mem h g]
  simp

theorem node_file_append_fresh {reg : List (Nat × open_file)} {node : Nat}
    (h : node ∉ node_ids reg) (f : open_file) :
    node_file (reg ++ [(node, f)]) node = some f := by
  have h1 : node_file reg node = none := (node_file_eq_none_iff reg node).mpr h
  unfold node_file at h1 ⊢
  rw [List.find?_append]
  cases hfind : List.find? (fun e => e.1 == node) reg with
  | none => simp
  | some e => rw [hfind] at h1; cases h1

theorem modify_file_append_fresh {reg : List (Nat × open_file)} {node : Nat}
    (h : node ∉ node_ids reg) (f : open_file) (g : open_file → open_file) :
    modify_file (reg ++ [(node, f)]) node g = some (reg ++ [(node, g f)]) := by
  rw [modify_file_eq g (node_file_append_fresh h f), map_update_append_fresh h f g]

theorem mem_ids_filter {reg : List (Nat × open_file)} {m node : Nat}
    (h : node ∈ node_ids reg) (hne : node ≠ m) :
    node ∈ node_ids (reg.filter (fun e => !(e.1 == m))) := by
  rcases List.mem_map.mp h with ⟨e, he, he1⟩
  refine List.mem_map.mpr ⟨e, List.mem_filter.mpr ⟨he, ?_⟩, he1⟩
  have : e.1 ≠ m := by rw [he1]; exact hne
  simp [this]

theorem nodup_ids_filter {reg : List (Nat × open_file)} (m : Nat)
    (h : (node_ids reg).Nodup) : (node_ids (reg.filter (fun e => !(e.1 == m)))).Nodup :=
  List.Nodup.sublist (List.Sublist.map Prod.fst (List.filter_sublist reg)) h

/-! ## Descriptor table functions -/

theorem validate_fd_spec (K : kern_consts) (T : file_descriptor_table) (fd : Int)
    (hlen : T.OF_node_ptr_array.length = K.OPEN_MAX) :
    ∃ v, validate_fd K T fd = some v ∧ (v = 0 ∨ v = -1) ∧
      (v = 0 ↔ (0 ≤ fd ∧ fd < K.OPEN_MAX ∧
        ∃ node, array_load T.OF_node_ptr_array fd = some (some node))) := by
  unfold validate_fd
  by_cases hr : fd < 0 ∨ fd ≥ K.OPEN_MAX
  · refine ⟨-1, by simp [hr], Or.inr rfl, ?_⟩
    constructor
    · intro h; cases h
    · rintro ⟨h0, h1, _⟩
      omega
  · have h0 : 0 ≤ fd := by omega
    have h1 : fd < K.OPEN_MAX := by omega
    have hl : fd.toNat < T.OF_node_ptr_array.length := by omega
    rcases array_load_of_lt h0 hl with ⟨p, hp⟩
    cases p with
    | none =>
      refine ⟨-1, by simp [hr, hp], Or.inr rfl, ?_⟩
      constructor
      · intro h; cases h
      · rintro ⟨_, _, node, hn⟩
        rw [hp] at hn
        cases hn
    | some node =>
      refine ⟨0, by simp [hr, hp], Or.inl rfl, ?_⟩
      constructor
      · intro _
        exact ⟨h0, h1, node, hp⟩
      · intro _; rfl

theorem validate_fd_bound {K : kern_consts} {T : file_descriptor_table} {fd : Int} {node : Nat}
    (hlen : T.OF_node_ptr_array.length = K.OPEN_MAX)
    (h : array_load T.OF_node_ptr_array fd = some (some node)) :
    validate_fd K T fd = some 0 := by
  rcases array_load_some h with ⟨h0, hl, _⟩
  have hr : ¬ (fd < 0 ∨ fd ≥ K.OPEN_MAX) := by omega
  simp [validate_fd, hr, h]

theorem get_next_fd_loop_spec (K : kern_consts) (arr : List (Option Nat))
    (hlen : arr.length = K.OPEN_MAX) :
    ∀ (fuel : Nat) (i : Int), 0 ≤ i → 0 < fuel → K.OPEN_MAX + 1 ≤ fuel + i.toNat →
      ∃ n, get_next_fd_loop K arr fuel i = some n ∧
        ((n = -1 ∧ ∀ j : Int, i ≤ j → j < K.OPEN_MAX →
            ∃ m, array_load arr j = some (some m)) ∨
         (i ≤ n ∧ n < K.OPEN_MAX ∧ array_load arr n = some none ∧
            ∀ j : Int, i ≤ j → j < n → ∃ m, array_load arr j = some (some m))) := by
  intro fuel
  induction fuel with
  | zero =>
    intro i h0 hpos hf
    exact absurd hpos (lt_irrefl 0)
  | succ fuel ih =>
    intro i h0 _ hf
    unfold get_next_fd_loop
    by_cases hi : i < K.OPEN_MAX
    · have hl : i.toNat < arr.length := by omega
      rcases array_load_of_lt h0 hl with ⟨p, hp⟩
      cases p with
      | none =>
        refine ⟨i, by simp [hi, hp], Or.inr ⟨le_refl _, hi, hp, ?_⟩⟩
        intro j h1 h2
        omega
      | some m =>
        have h0' : 0 ≤ i + 1 := by omega
        have hf' : K.OPEN_MAX + 1 ≤ fuel + (i + 1).toNat := by omega
        rcases ih (i + 1) h0' (by omega) hf' with ⟨n, hn, hspec⟩
        refine ⟨n, by simp [hi, hp, hn], ?_⟩
        rcases hspec with ⟨h1, h2⟩ | ⟨h1, h2, h3, h4⟩
        · left
          refine ⟨h1, ?_⟩
          intro j hj1 hj2
          by_cases hji : j = i
          · exact ⟨m, by rw [hji]; exact hp⟩
          · exact h2 j (by omega) hj2
        · right
          refine ⟨by omega, h2, h3, ?_⟩
          intro j hj1 hj2
          by_cases hji : j = i
          · exact ⟨m, by rw [hji]; exact hp⟩
          · exact h4 j (by omega) hj2
    · refine ⟨-1, by simp [hi], Or.inl ⟨rfl, ?_⟩⟩
      intro j h1 h2
      omega

theorem get_next_fd_spec (K : kern_consts) (T : file_descriptor_table)
    (hlen : T.OF_node_ptr_array.length = K.OPEN_MAX) (h0 : -1 ≤ T.next) :
    ∃ n, get_next_fd K T = some (T.next, { T with next := n }) ∧
      ((n = -1 ∧ ∀ j : Int, T.next < j → j < K.OPEN_MAX →
          ∃ m, array_load T.OF_node_ptr_array j = some (some m)) ∨
       (T.next < n ∧ n < K.OPEN_MAX ∧ array_load T.OF_node_ptr_array n = some none ∧
          ∀ j : Int, T.next < j → j < n →
            ∃ m, array_load T.OF_node_ptr_array j = some (some m))) := by
  have h1 : 0 ≤ T.next + 1 := by omega
  have h2 : K.OPEN_MAX + 1 ≤ (K.OPEN_MAX + 1) + (T.next + 1).toNat := by omega
  rcases get_next_fd_loop_spec K T.OF_node_ptr_array hlen (K.OPEN_MAX + 1) (T.next + 1) h1
    (by omega) h2 with ⟨n, hn, hspec⟩
  refine ⟨n, by simp [get_next_fd, hn], ?_⟩
  rcases hspec with ⟨ha, hb⟩ | ⟨ha, hb, hc, hd⟩
  · left
    exact ⟨ha, fun j hj1 hj2 => hb j (by omega) hj2⟩
  · right
    exact ⟨by omega, hb, hc, fun j hj1 hj2 => hd j (by omega) hj2⟩

theorem close_fd_bound {s : kstate} {fd : Int} {node : Nat} {f : open_file}
    (hslot : array_load s.FD_table.OF_node_ptr_array fd = some (some node))
    (hf : node_file s.open_file_table node = some f) :
    close_fd s fd = some
      ({ open_file_table :=
           if f.reference_count - 1 = 0 then
             s.open_file_table.filter (fun e => !(e.1 == node))
           else
             s.open_file_table.map (fun e =>
               if e.1 == node then
                 (e.1, { e.2 with reference_count := e.2.reference_count - 1 })
               else e),
         FD_table := { OF_node_ptr_array := s.FD_table.OF_node_ptr_array.set fd.toNat none,
                       next := fd } },
       if f.reference_count - 1 = 0 then [vfs_call.vfs_close f.vnode] else []) := by
  rcases array_load_some hslot with ⟨h0, hl, _⟩
  unfold close_fd
  simp only [hslot, close_open_file, hf]
  by_cases hz : f.reference_count - 1 = 0
  · simp [hz, array_store_eq none h0 hl]
  · simp [hz, array_store_eq none h0 hl]

theorem get_open_file_bound {s : kstate} {fd : Int} {node : Nat} {f : open_file}
    (hslot : array_load s.FD_table.OF_node_ptr_array fd = some (some node))
    (hf : node_file s.open_file_table node = some f) :
    get_open_file s fd = some (some (node, f)) := by
  simp [get_open_file, hslot, hf]

theorem well_formed_live {K : kern_consts} {s : kstate} (hwf : well_formed K s) {fd : Int}
    {node : Nat} (hslot : array_load s.FD_table.OF_node_ptr_array fd = some (some node)) :
    ∃ f, node_file s.open_file_table node = some f :=
  node_file_of_mem_ids (hwf.2.2.2.1 (some node) (mem_of_array_load hslot) node rfl)

theorem FD_table_create_spec (K : kern_consts) (env : create_env) (r : sys_result Unit)
    (hne : env.kmalloc_stdout_node ≠ env.kmalloc_stderr_node)
    (h : FD_table_create K [] env = some r) :
    ∃ node1 node2, env.kmalloc_stdout_node = some node1 ∧ env.kmalloc_stderr_node = some node2 ∧
      node1 ≠ node2 ∧ 3 ≤ K.OPEN_MAX ∧
      r.st =
        { open_file_table :=
            [(node1, { vnode := some env.vfs_open_stdout.2, offset := 0, flags := K.O_WRONLY,
                       reference_count := 1 }),
             (node2, { vnode := some env.vfs_open_stderr.2, offset := 0, flags := K.O_WRONLY,
                       reference_count := 1 })],
          FD_table :=
            { OF_node_ptr_array :=
                ((List.replicate K.OPEN_MAX none).set 1 (some node1)).set 2 (some node2),
              next := 3 } } := by
  cases hkt : env.kmalloc_table with
  | false => simp [FD_table_create, hkt] at h
  | true =>
  cases hks : env.kmalloc_stdout with
  | false => simp [FD_table_create, hkt, hks, create_open_file] at h
  | true =>
  by_cases he1 : env.vfs_open_stdout.1 = 0
  swap
  · simp [FD_table_create, hkt, hks, create_open_file, he1] at h
  cases hn1 : env.kmalloc_stdout_node with
  | none => simp [FD_table_create, hkt, hks, create_open_file, he1, hn1, add_open_file] at h
  | some node1 =>
  by_cases h1 : 1 < K.OPEN_MAX
  swap
  · have hs : array_store (List.replicate K.OPEN_MAX none) 1 (some node1) = none := by
      simp [array_store, h1]
    simp [FD_table_create, hkt, hks, create_open_file, he1, hn1, add_open_file, hs] at h
  have hs1 : array_store (List.replicate K.OPEN_MAX none) 1 (some node1)
      = some ((List.replicate K.OPEN_MAX none).set 1 (some node1)) := by
    simp [array_store, h1]
  cases hke : env.kmalloc_stderr with
  | false =>
    simp [FD_table_create, hkt, hks, create_open_file, he1, hn1, add_open_file, hs1, hke,
      modify_file, node_file] at h
  | true =>
  by_cases he2 : env.vfs_open_stderr.1 = 0
  swap
  · simp [FD_table_create, hkt, hks, create_open_file, he1, hn1, add_open_file, hs1, hke,
      modify_file, node_file, he2] at h
  cases hn2 : env.kmalloc_stderr_node with
  | none =>
    simp [FD_table_create, hkt, hks, create_open_file, he1, hn1, add_open_file, hs1, hke,
      modify_file, node_file, he2, hn2] at h
  | some node2 =>
  have hne12 : node1 ≠ node2 := by
    intro h12
    apply hne
    rw [hn1, hn2, h12]
  by_cases h2 : 2 < K.OPEN_MAX
  swap
  · have hs : array_store ((List.replicate K.OPEN_MAX none).set 1 (some node1)) 2 (some node2)
        = none := by
      simp [array_store, h2]
    simp [FD_table_create, hkt, hks, create_open_file, he1, hn1, add_open_file, hs1, hke,
      modify_file, node_file, he2, hn2, hs] at h
  have hs2 : array_store ((List.replicate K.OPEN_MAX none).set 1 (some node1)) 2 (some node2)
      = some (((List.replicate K.OPEN_MAX none).set 1 (some node1)).set 2 (some node2)) := by
    simp [array_store, h2]
  simp [FD_table_create, hkt, hks, create_open_file, he1, hn1, add_open_file, hs1, hke,
    modify_file, node_file, he2, hn2, hs2, hne12] at h
  refine ⟨node1, node2, rfl, rfl, hne12, h2, ?_⟩
  rw [← h]

/-! ## What the system calls compute -/

theorem sys_close_bound {K : kern_consts} {s : kstate} {fd : Int} {node : Nat} {f : open_file}
    (hlen : s.FD_table.OF_node_ptr_array.length = K.OPEN_MAX)
    (hslot : array_load s.FD_table.OF_node_ptr_array fd = some (some node))
    (hf : node_file s.open_file_table node = some f)
    (hz : f.reference_count - 1 ≠ 0) :
    sys_close K s fd =
      some { ret := 0, errno := none,
             st :=
               { open_file_table := s.open_file_table.map (fun e =>
                   if e.1 == node then
                     (e.1, { e.2 with reference_count := e.2.reference_count - 1 })
                   else e),
                 FD_table :=
                   { OF_node_ptr_array := s.FD_table.OF_node_ptr_array.set fd.toNat none,
                     next := fd } },
             calls := [] } := by
  simp only [sys_close, validate_fd_bound hlen hslot, close_fd_bound hslot hf]
  simp [hz]

theorem close_one_of_two {K : kern_consts} {s : kstate} {c o : Int} {node : Nat}
    {f : open_file}
    (hlen : s.FD_table.OF_node_ptr_array.length = K.OPEN_MAX)
    (hc : array_load s.FD_table.OF_node_ptr_array c = some (some node))
    (ho : array_load s.FD_table.OF_node_ptr_array o = some (some node))
    (hco : o ≠ c)
    (hf : node_file s.open_file_table node = some f)
    (hcount : f.reference_count = 2) :
    ∃ r, sys_close K s c = some r ∧ r.ret = 0 ∧
      r.st.FD_table.OF_node_ptr_array.length = K.OPEN_MAX ∧
      array_load r.st.FD_table.OF_node_ptr_array c = some none ∧
      array_load r.st.FD_table.OF_node_ptr_array o = some (some node) ∧
      node_file r.st.open_file_table node = some { f with reference_count := 1 } := by
  rcases array_load_some hc with ⟨h0, hl, _⟩
  have hz : f.reference_count - 1 ≠ 0 := by omega
  refine ⟨_, sys_close_bound hlen hc hf hz, rfl, ?_, ?_, ?_, ?_⟩
  · show (s.FD_table.OF_node_ptr_array.set c.toNat none).length = K.OPEN_MAX
    rw [List.length_set]; exact hlen
  · exact array_load_set_self _ h0 hl
  · show array_load (s.FD_table.OF_node_ptr_array.set c.toNat none) o = _
    rw [array_load_set_ne _ h0 hco]; exact ho
  · show node_file (s.open_file_table.map _) node = _
    rw [node_file_map_update s.open_file_table node
      (fun f => { f with reference_count := f.reference_count - 1 }) node]
    simp [hf, hcount]

theorem sys_read_observed {K : kern_consts} {s s' : kstate} {fd fd' : Int} {node node' : Nat}
    {f : open_file} (buflen : Nat) (vop : uio_result)
    (hlen : s.FD_table.OF_node_ptr_array.length = K.OPEN_MAX)
    (hslot : array_load s.FD_table.OF_node_ptr_array fd = some (some node))
    (hf : node_file s.open_file_table node = some f)
    (hlen' : s'.FD_table.OF_node_ptr_array.length = K.OPEN_MAX)
    (hslot' : array_load s'.FD_table.OF_node_ptr_array fd' = some (some node'))
    (hf' : node_file s'.open_file_table node' = some f) :
    (sys_read K s' fd' buflen vop).map observed = (sys_read K s fd buflen vop).map observed := by
  simp only [sys_read, validate_fd_bound hlen hslot, get_open_file_bound hslot hf,
    validate_fd_bound hlen' hslot', get_open_file_bound hslot' hf', modify_file_eq _ hf,
    modify_file_eq _ hf']
  by_cases h1 : int_and f.flags K.O_ACCMODE ≠ K.O_RDONLY ∧ int_and f.flags K.O_ACCMODE ≠ K.O_RDWR
  · simp [h1, observed]
  · by_cases h2 : vop.err = 0
    · simp [h1, h2, observed]
    · simp [h1, h2, observed]

theorem sys_write_observed {K : kern_consts} {s s' : kstate} {fd fd' : Int} {node node' : Nat}
    {f : open_file} (nbytes : Nat) (vop : uio_result)
    (hlen : s.FD_table.OF_node_ptr_array.length = K.OPEN_MAX)
    (hslot : array_load s.FD_table.OF_node_ptr_array fd = some (some node))
    (hf : node_file s.open_file_table node = some f)
    (hlen' : s'.FD_table.OF_node_ptr_array.length = K.OPEN_MAX)
    (hslot' : array_load s'.FD_table.OF_node_ptr_array fd' = some (some node'))
    (hf' : node_file s'.open_file_table node' = some f) :
    (sys_write K s' fd' nbytes vop).map observed = (sys_write K s fd nbytes vop).map observed := by
  simp only [sys_write, validate_fd_bound hlen hslot, get_open_file_bound hslot hf,
    validate_fd_bound hlen' hslot', get_open_file_bound hslot' hf', modify_file_eq _ hf,
    modify_file_eq _ hf']
  by_cases h1 : int_and f.flags K.O_ACCMODE ≠ K.O_WRONLY ∧ int_and f.flags K.O_ACCMODE ≠ K.O_RDWR
  · simp [h1, observed]
  · by_cases h2 : vop.err = 0
    · simp [h1, h2, observed]
    · simp [h1, h2, observed]

theorem sys_write_store {K : kern_consts} {s : kstate} {fd : Int} {node : Nat} {f : open_file}
    (nbytes : Nat) {vop : uio_result}
    (hlen : s.FD_table.OF_node_ptr_array.length = K.OPEN_MAX)
    (hslot : array_load s.FD_table.OF_node_ptr_array fd = some (some node))
    (hf : node_file s.open_file_table node = some f)
    (hacc : int_and f.flags K.O_ACCMODE = K.O_WRONLY ∨ int_and f.flags K.O_ACCMODE = K.O_RDWR)
    (herr : vop.err = 0) :
    sys_write K s fd nbytes vop =
      some { ret := ssize_sub nbytes vop.uio_resid, errno := some 0,
             st :=
               { open_file_table := s.open_file_table.map (fun e =>
                   if e.1 == node then (e.1, { e.2 with offset := vop.uio_offset }) else e),
                 FD_table := s.FD_table },
             calls := [vfs_call.VOP_WRITE f.vnode f.offset nbytes] } := by
  have hchk : ¬ (int_and f.flags K.O_ACCMODE ≠ K.O_WRONLY ∧
      int_and f.flags K.O_ACCMODE ≠ K.O_RDWR) := by
    rintro ⟨h1, h2⟩
    rcases hacc with h | h
    · exact h1 h
    · exact h2 h
  simp only [sys_write, validate_fd_bound hlen hslot, get_open_file_bound hslot hf]
  simp only [hchk, herr, modify_file_eq _ hf]
  simp

theorem lseek_newpos_lt {K : kern_consts} {f : open_file} {pos : Nat} {whence st_size : Int}
    {newpos : Int} (h : lseek_newpos K f pos whence st_size = some newpos) :
    newpos < 9223372036854775808 := by
  unfold lseek_newpos at h
  split at h
  · cases h; exact to_int64_lt _
  · split at h
    · cases h; exact to_int64_lt _
    · split at h
      · cases h; exact to_int64_lt _
      · cases h

theorem sys_lseek_store {K : kern_consts} {s : kstate} {fd : Int} {p : Nat} {w : Int}
    {stat : Int × Int} {node : Nat} {f : open_file} {newpos : Int}
    (hlen : s.FD_table.OF_node_ptr_array.length = K.OPEN_MAX)
    (hslot : array_load s.FD_table.OF_node_ptr_array fd = some (some node))
    (hf : node_file s.open_file_table node = some f)
    (hstat : stat.1 = 0)
    (hnew : lseek_newpos K f p w stat.2 = some newpos) (h0 : 0 ≤ newpos) :
    sys_lseek K s fd p w true stat =
      some { ret := to_uint64 newpos, errno := none,
             st :=
               { open_file_table := s.open_file_table.map (fun e =>
                   if e.1 == node then (e.1, { e.2 with offset := newpos }) else e),
                 FD_table := s.FD_table },
             calls := [vfs_call.VOP_ISSEEKABLE f.vnode, vfs_call.VOP_STAT f.vnode] } := by
  have hn : ¬ newpos < 0 := by omega
  simp [sys_lseek, validate_fd_bound hlen hslot, get_open_file_bound hslot hf, hstat, hnew,
    hn, modify_file_eq _ hf]

theorem sys_dup2_unbound {K : kern_consts} {s : kstate} {oldfd newfd : Int} {node : Nat}
    {f : open_file}
    (hlen : s.FD_table.OF_node_ptr_array.length = K.OPEN_MAX)
    (hold : array_load s.FD_table.OF_node_ptr_array oldfd = some (some node))
    (hf : node_file s.open_file_table node = some f)
    (hnew : array_load s.FD_table.OF_node_ptr_array newfd = some none) :
    sys_dup2 K s oldfd newfd =
      some { ret := newfd, errno := none,
             st :=
               { open_file_table := s.open_file_table.map (fun e =>
                   if e.1 == node then
                     (e.1, { e.2 with reference_count := e.2.reference_count + 1 })
                   else e),
                 FD_table :=
                   { OF_node_ptr_array := s.FD_table.OF_node_ptr_array.set newfd.toNat (some node),
                     next := s.FD_table.next } },
             calls := [] } := by
  rcases array_load_some hnew with ⟨h0, hl, _⟩
  have hne : oldfd ≠ newfd := by
    intro h
    rw [h, hnew] at hold
    cases hold
  have hr : ¬ (newfd < 0 ∨ newfd ≥ K.OPEN_MAX) := by omega
  have hslot3 : array_load (s.FD_table.OF_node_ptr_array.set newfd.toNat (some node)) newfd
      = some (some node) := array_load_set_self _ h0 hl
  simp only [sys_dup2, validate_fd_bound hlen hold, hnew, hold, array_store_eq _ h0 hl,
    get_open_file, hslot3, hf, modify_file_eq _ hf]
  simp [hr, hne]

theorem sys_dup2_bound {K : kern_consts} {s : kstate} {oldfd newfd : Int} {node m : Nat}
    {f : open_file}
    (hwf : well_formed K s)
    (hold : array_load s.FD_table.OF_node_ptr_array oldfd = some (some node))
    (hf : node_file s.open_file_table node = some f)
    (hnew : array_load s.FD_table.OF_node_ptr_array newfd = some (some m))
    (hne : oldfd ≠ newfd) :
    ∃ r, sys_dup2 K s oldfd newfd = some r ∧ r.ret = newfd ∧
      r.st.FD_table.OF_node_ptr_array =
        (s.FD_table.OF_node_ptr_array.set newfd.toNat none).set newfd.toNat (some node) := by
  have hlen := hwf.1
  rcases well_formed_live hwf hnew with ⟨fm, hfm⟩
  rcases array_load_some hnew with ⟨h0, hl, _⟩
  have hr : ¬ (newfd < 0 ∨ newfd ≥ K.OPEN_MAX) := by omega
  have hclose := close_fd_bound hnew hfm
  have hlen1 : (s.FD_table.OF_node_ptr_array.set newfd.toNat none).length = K.OPEN_MAX := by
    rw [List.length_set]; exact hlen
  rcases get_next_fd_spec K
    { OF_node_ptr_array := s.FD_table.OF_node_ptr_array.set newfd.toNat none, next := newfd }
    hlen1 (show (-1 : Int) ≤ newfd by omega) with ⟨n, hn, _⟩
  have hold1 : array_load (s.FD_table.OF_node_ptr_array.set newfd.toNat none) oldfd
      = some (some node) := by
    rw [array_load_set_ne _ h0 hne]; exact hold
  have hl1 : newfd.toNat < (s.FD_table.OF_node_ptr_array.set newfd.toNat none).length := by
    rw [List.length_set]; exact hl
  have hstore := @array_store_eq (s.FD_table.OF_node_ptr_array.set newfd.toNat none) newfd
    (some node) h0 hl1
  have hslot3 := @array_load_set_self (s.FD_table.OF_node_ptr_array.set newfd.toNat none) newfd
    (some node) h0 hl1
  have hlive : ∃ f', node_file
      (if fm.reference_count - 1 = 0 then
         s.open_file_table.filter (fun e => !(e.1 == m))
       else
         s.open_file_table.map (fun e =>
           if e.1 == m then (e.1, { e.2 with reference_count := e.2.reference_count - 1 })
           else e)) node = some f' := by
    by_cases hz : fm.reference_count - 1 = 0
    · have hnm : node ≠ m := by
        intro h
        subst h
        have h2 := two_le_slot_count hne hold hnew
        have h3 := hwf.2.2.2.2 (node, fm) (mem_of_node_file hfm)
        simp only [slot_count] at h3
        omega
      refine ⟨f, ?_⟩
      simp only [hz, if_true]
      rw [node_file_filter]
      simp [hnm, hf]
    · simp only [hz, if_false]
      rw [node_file_map_update s.open_file_table m
        (fun f => { f with reference_count := f.reference_count - 1 }) node]
      by_cases hnm : node = m
      · subst hnm
        exact ⟨_, by simp only [if_true, hf]; rfl⟩
      · exact ⟨f, by simp [hnm, hf]⟩
  rcases hlive with ⟨f', hf'⟩
  refine ⟨{ ret := newfd, errno := none,
            st :=
              { open_file_table :=
                  (if fm.reference_count - 1 = 0 then
                     s.open_file_table.filter (fun e => !(e.1 == m))
                   else
                     s.open_file_table.map (fun e =>
                       if e.1 == m then
                         (e.1, { e.2 with reference_count := e.2.reference_count - 1 })
                       else e)).map (fun e =>
                    if e.1 == node then
                      (e.1, { e.2 with reference_count := e.2.reference_count + 1 })
                    else e),
                FD_table :=
                  { OF_node_ptr_array :=
                      (s.FD_table.OF_node_ptr_array.set newfd.toNat none).set newfd.toNat
                        (some node),
                    next := n } },
            calls := if fm.reference_count - 1 = 0 then [vfs_call.vfs_close fm.vnode] else [] },
    ?_, rfl, rfl⟩
  simp only [sys_dup2, validate_fd_bound hlen hold, hnew, hclose, hn, hold1, hstore,
    get_open_file, hslot3, hf', modify_file_eq _ hf']
  simp only [hr, hne, or_self, if_false, ne_eq, not_true_eq_false]

/-! ## Well-formedness is preserved -/

theorem well_formed_close {K : kern_consts} {s : kstate} {fd : Int} {m : Nat}
    {reg1 : List (Nat × open_file)} {calls : List vfs_call}
    (hwf : well_formed K s)
    (hslot : array_load s.FD_table.OF_node_ptr_array fd = some (some m))
    (hc : close_open_file s.open_file_table m = some (reg1, calls)) :
    well_formed K
      { open_file_table := reg1,
        FD_table := { OF_node_ptr_array := s.FD_table.OF_node_ptr_array.set fd.toNat none,
                      next := fd } } := by
  rcases hwf with ⟨hlen, _, hnd, hlive, hcnt⟩
  rcases array_load_some hslot with ⟨h0, hl, hget⟩
  have hpos := count_pos_of_array_load hslot
  have hcm : (s.FD_table.OF_node_ptr_array.set fd.toNat none).count (some m)
      = s.FD_table.OF_node_ptr_array.count (some m) - 1 := by
    rw [count_set_some none m hget]; simp
  have hcx : ∀ x, x ≠ m → (s.FD_table.OF_node_ptr_array.set fd.toNat none).count (some x)
      = s.FD_table.OF_node_ptr_array.count (some x) := by
    intro x hx
    rw [count_set_some none x hget]
    have : ¬ m = x := fun h => hx h.symm
    simp [this]
  have hmem : ∀ p ∈ s.FD_table.OF_node_ptr_array.set fd.toNat none, ∀ node ∈ p,
      some node ∈ s.FD_table.OF_node_ptr_array := by
    intro p hp node hnode
    rcases List.mem_or_eq_of_mem_set hp with h | h
    · rw [Option.mem_def] at hnode
      rw [← hnode]; exact h
    · rw [h] at hnode
      cases hnode
  unfold close_open_file at hc
  cases hfm : node_file s.open_file_table m with
  | none => rw [hfm] at hc; cases hc
  | some fm =>
    rw [hfm] at hc
    have hfmcnt := hcnt (m, fm) (mem_of_node_file hfm)
    simp only [slot_count] at hfmcnt
    have hfdlt : fd < (K.OPEN_MAX : Int) := by omega
    refine ⟨by simp only [List.length_set]; exact hlen, Or.inr ⟨h0, hfdlt⟩, ?_, ?_, ?_⟩
    · by_cases hz : fm.reference_count - 1 = 0
      · simp only [hz, if_true, Option.some.injEq, Prod.mk.injEq] at hc
        rw [← hc.1]
        exact nodup_ids_filter m hnd
      · simp only [hz, if_false, Option.some.injEq, Prod.mk.injEq] at hc
        rw [← hc.1]
        show (node_ids (s.open_file_table.map _)).Nodup
        rw [node_ids_map_update s.open_file_table m
          (fun f => { f with reference_count := f.reference_count - 1 })]
        exact hnd
    · intro p hp node hnode
      have hin := hmem p hp node hnode
      have hold := hlive (some node) hin node rfl
      by_cases hz : fm.reference_count - 1 = 0
      · simp only [hz, if_true, Option.some.injEq, Prod.mk.injEq] at hc
        rw [← hc.1]
        apply mem_ids_filter hold
        intro hnm
        subst hnm
        have hp' : some node ∈ s.FD_table.OF_node_ptr_array.set fd.toNat none := by
          rw [Option.mem_def] at hnode
          rw [← hnode]; exact hp
        have := List.count_pos_iff.mpr hp'
        omega
      · simp only [hz, if_false, Option.some.injEq, Prod.mk.injEq] at hc
        rw [← hc.1]
        show node ∈ node_ids (s.open_file_table.map _)
        rw [node_ids_map_update s.open_file_table m
          (fun f => { f with reference_count := f.reference_count - 1 })]
        exact hold
    · intro e he
      simp only [slot_count]
      by_cases hz : fm.reference_count - 1 = 0
      · simp only [hz, if_true, Option.some.injEq, Prod.mk.injEq] at hc
        rw [← hc.1] at he
        rcases List.mem_filter.mp he with ⟨he1, he2⟩
        have hne : e.1 ≠ m := by simpa using he2
        rw [hcx e.1 hne]
        exact hcnt e he1
      · simp only [hz, if_false, Option.some.injEq, Prod.mk.injEq] at hc
        rw [← hc.1] at he
        rcases List.mem_map.mp he with ⟨e0, he0, hee⟩
        have h0cnt := hcnt e0 he0
        simp only [slot_count] at h0cnt
        by_cases hem : e0.1 = m
        · simp only [hem, beq_self_eq_true, if_true] at hee
          rw [← hee]
          show ((s.FD_table.OF_node_ptr_array.set fd.toNat none).count (some m) : Int)
            ≤ e0.2.reference_count - 1
          rw [hcm]
          rw [hem] at h0cnt
          omega
        · have hem' : (e0.1 == m) = false := by simpa using hem
          simp only [hem', Bool.false_eq_true, if_false] at hee
          rw [← hee, hcx e0.1 hem]
          exact h0cnt

theorem well_formed_hint {K : kern_consts} {s : kstate} {n : Int} (hwf : well_formed K s)
    (hn : n = -1 ∨ (0 ≤ n ∧ n < K.OPEN_MAX)) :
    well_formed K { s with FD_table := { s.FD_table with next := n } } :=
  ⟨hwf.1, hn, hwf.2.2.1, hwf.2.2.2.1, hwf.2.2.2.2⟩

theorem well_formed_bind {K : kern_consts} {s : kstate} {oldfd newfd : Int} {node : Nat}
    (hwf : well_formed K s)
    (hold : array_load s.FD_table.OF_node_ptr_array oldfd = some (some node))
    (hnew : array_load s.FD_table.OF_node_ptr_array newfd = some none) :
    well_formed K
      { open_file_table := s.open_file_table.map (fun e =>
          if e.1 == node then (e.1, { e.2 with reference_count := e.2.reference_count + 1 })
          else e),
        FD_table :=
          { OF_node_ptr_array := s.FD_table.OF_node_ptr_array.set newfd.toNat (some node),
            next := s.FD_table.next } } := by
  rcases hwf with ⟨hlen, hhint, hnd, hlive, hcnt⟩
  rcases array_load_some hnew with ⟨h0, hl, hget⟩
  have hcx : ∀ x, (s.FD_table.OF_node_ptr_array.set newfd.toNat (some node)).count (some x)
      = s.FD_table.OF_node_ptr_array.count (some x) + (if node = x then 1 else 0) := by
    intro x
    rw [count_set_some (some node) x hget]
    simp
  have hids := node_ids_map_update s.open_file_table node
    (fun f => { f with reference_count := f.reference_count + 1 })
  refine ⟨by simp only [List.length_set]; exact hlen, hhint, ?_, ?_, ?_⟩
  · show (node_ids (s.open_file_table.map _)).Nodup
    rw [hids]; exact hnd
  · intro p hp n hn
    show n ∈ node_ids (s.open_file_table.map _)
    rw [hids]
    rcases List.mem_or_eq_of_mem_set hp with h | h
    · exact hlive p h n hn
    · rw [h] at hn
      rw [Option.mem_def] at hn
      cases hn
      exact hlive (some node) (mem_of_array_load hold) node rfl
  · intro e he
    simp only [slot_count]
    rcases List.mem_map.mp he with ⟨e0, he0, hee⟩
    have h0cnt := hcnt e0 he0
    simp only [slot_count] at h0cnt
    by_cases hem : e0.1 = node
    · simp only [hem, beq_self_eq_true, if_true] at hee
      rw [← hee]
      show ((s.FD_table.OF_node_ptr_array.set newfd.toNat (some node)).count (some node) : Int)
        ≤ e0.2.reference_count + 1
      rw [hcx node]
      rw [hem] at h0cnt
      simp only [if_true]
      omega
    · have hem' : (e0.1 == node) = false := by simpa using hem
      simp only [hem', Bool.false_eq_true, if_false] at hee
      rw [← hee, hcx e0.1]
      have : ¬ node = e0.1 := fun h => hem h.symm
      simp only [this, if_false]
      exact h0cnt

theorem well_formed_open {K : kern_consts} {s : kstate} {h n : Int} {new : Nat} {f : open_file}
    (hwf : well_formed K s)
    (hh : 0 ≤ h ∧ h < K.OPEN_MAX)
    (hfresh : new ∉ node_ids s.open_file_table)
    (hf : 1 ≤ f.reference_count)
    (hn : n = -1 ∨ (0 ≤ n ∧ n < K.OPEN_MAX)) :
    well_formed K
      { open_file_table := s.open_file_table ++ [(new, f)],
        FD_table :=
          { OF_node_ptr_array := s.FD_table.OF_node_ptr_array.set h.toNat (some new),
            next := n } } := by
  rcases hwf with ⟨hlen, _, hnd, hlive, hcnt⟩
  have hl : h.toNat < s.FD_table.OF_node_ptr_array.length := by omega
  have hget : s.FD_table.OF_node_ptr_array[h.toNat]?
      = some (s.FD_table.OF_node_ptr_array[h.toNat]) := List.getElem?_eq_getElem hl
  have hcx : ∀ x, (s.FD_table.OF_node_ptr_array.set h.toNat (some new)).count (some x)
      ≤ s.FD_table.OF_node_ptr_array.count (some x) + (if new = x then 1 else 0) := by
    intro x
    rw [count_set_some (some new) x hget]
    simp only [Option.some.injEq]
    omega
  have hnone : s.FD_table.OF_node_ptr_array.count (some new) = 0 := by
    apply List.count_eq_zero_of_not_mem
    intro hmem
    exact hfresh (hlive (some new) hmem new rfl)
  have hids : node_ids (s.open_file_table ++ [(new, f)]) = node_ids s.open_file_table ++ [new] := by
    simp [node_ids]
  refine ⟨by simp only [List.length_set]; exact hlen, hn, ?_, ?_, ?_⟩
  · show (node_ids (s.open_file_table ++ [(new, f)])).Nodup
    rw [hids]
    apply List.Nodup.append hnd (List.nodup_singleton new)
    intro a ha hb
    rw [List.mem_singleton] at hb
    rw [hb] at ha
    exact hfresh ha
  · intro p hp x hx
    show x ∈ node_ids (s.open_file_table ++ [(new, f)])
    rw [hids]
    rcases List.mem_or_eq_of_mem_set hp with h1 | h1
    · exact List.mem_append_left _ (hlive p h1 x hx)
    · rw [h1] at hx
      rw [Option.mem_def] at hx
      cases hx
      exact List.mem_append_right _ (List.mem_singleton.mpr rfl)
  · intro e he
    simp only [slot_count]
    have hc := hcx e.1
    rcases List.mem_append.mp he with h1 | h1
    · have hne : ¬ new = e.1 := by
        intro hne
        apply hfresh
        rw [hne]
        exact List.mem_map.mpr ⟨e, h1, rfl⟩
      simp only [hne, if_false] at hc
      have := hcnt e h1
      simp only [slot_count] at this
      omega
    · rw [List.mem_singleton] at h1
      rw [h1] at hc ⊢
      simp only [if_true, hnone] at hc
      show ((s.FD_table.OF_node_ptr_array.set h.toNat (some new)).count (some new) : Int)
        ≤ f.reference_count
      omega

theorem sys_close_well_formed {K : kern_consts} {s : kstate} {fd : Int} {r : sys_result Int}
    (hwf : well_formed K s) (h : sys_close K s fd = some r) : well_formed K r.st := by
  have hlen := hwf.1
  rcases validate_fd_spec K s.FD_table fd hlen with ⟨v, hv, hv01, hviff⟩
  rcases hv01 with hv0 | hv1
  · subst hv0
    rcases hviff.mp rfl with ⟨_, _, m, hslot⟩
    rcases array_load_some hslot with ⟨h0, hl, _⟩
    cases hc : close_open_file s.open_file_table m with
    | none =>
      simp [sys_close, hv, close_fd, hslot, hc] at h
    | some rc =>
      obtain ⟨reg1, calls⟩ := rc
      simp [sys_close, hv, close_fd, hslot, hc, array_store_eq none h0 hl] at h
      rw [← h]
      exact well_formed_close hwf hslot hc
  · subst hv1
    simp [sys_close, hv] at h
    rw [← h]
    exact hwf

theorem sys_dup2_well_formed {K : kern_consts} {s : kstate} {oldfd newfd : Int}
    {r : sys_result Int}
    (hwf : well_formed K s) (h : sys_dup2 K s oldfd newfd = some r) : well_formed K r.st := by
  have hlen := hwf.1
  rcases validate_fd_spec K s.FD_table oldfd hlen with ⟨v, hv, hv01, hviff⟩
  rcases hv01 with hv0 | hv1
  · subst hv0
    rcases hviff.mp rfl with ⟨_, _, node, hold⟩
    rcases well_formed_live hwf hold with ⟨f, hf⟩
    by_cases hr : newfd < 0 ∨ newfd ≥ K.OPEN_MAX
    · simp [sys_dup2, hv, hr] at h
      rw [← h]
      exact hwf
    · by_cases heq : oldfd = newfd
      · subst heq
        simp [sys_dup2, hv, hr] at h
        rw [← h]
        exact hwf
      · have h0 : 0 ≤ newfd := by omega
        have hl : newfd.toNat < s.FD_table.OF_node_ptr_array.length := by omega
        rcases array_load_of_lt h0 hl with ⟨p, hp⟩
        cases p with
        | none =>
          rw [sys_dup2_unbound hlen hold hf hp] at h
          rw [← Option.some.inj h]
          exact well_formed_bind hwf hold hp
        | some m =>
          cases hc : close_open_file s.open_file_table m with
          | none =>
            simp [sys_dup2, hv, hr, heq, hp, close_fd, hc] at h
          | some rc =>
            obtain ⟨reg1, calls⟩ := rc
            have hwf1 := well_formed_close hwf hp hc
            rcases get_next_fd_spec K
              { OF_node_ptr_array := s.FD_table.OF_node_ptr_array.set newfd.toNat none,
                next := newfd }
              hwf1.1 (show (-1 : Int) ≤ newfd by omega) with ⟨n, hn, hnspec⟩
            have hnr : n = -1 ∨ (0 ≤ n ∧ n < K.OPEN_MAX) := by
              rcases hnspec with ⟨h1, _⟩ | ⟨h1, h2, _⟩
              · exact Or.inl h1
              · exact Or.inr ⟨by
                  have : newfd < n := h1
                  omega, h2⟩
            have hwf2 := well_formed_hint hwf1 hnr
            have hold1 : array_load (s.FD_table.OF_node_ptr_array.set newfd.toNat none) oldfd
                = some (some node) := by
              rw [array_load_set_ne _ h0 heq]; exact hold
            have hnew1 : array_load (s.FD_table.OF_node_ptr_array.set newfd.toNat none) newfd
                = some none := array_load_set_self _ h0 hl
            have hl1 : newfd.toNat
                < (s.FD_table.OF_node_ptr_array.set newfd.toNat none).length := by
              rw [List.length_set]; exact hl
            have hstore := @array_store_eq (s.FD_table.OF_node_ptr_array.set newfd.toNat none)
              newfd (some node) h0 hl1
            have hslot3 := @array_load_set_self
              (s.FD_table.OF_node_ptr_array.set newfd.toNat none) newfd (some node) h0 hl1
            rcases well_formed_live hwf2 hold1 with ⟨f', hf'⟩
            have hbind := well_formed_bind hwf2 hold1 hnew1
            simp only [sys_dup2, hv, hp, close_fd, hc, array_store_eq none h0 hl, hn, hold1,
              hstore, get_open_file, hslot3, hf', modify_file_eq _ hf'] at h
            simp only [hr, heq, or_self, if_false, ne_eq, not_true_eq_false,
              Option.some.injEq] at h
            rw [← h]
            exact hbind
  · subst hv1
    simp [sys_dup2, hv] at h
    rw [← h]
    exact hwf

theorem sys_open_well_formed {K : kern_consts} {s : kstate} {flags mode : Int} {env : open_env}
    {r : sys_result Int}
    (hwf : well_formed K s) (hfresh : fresh_node s.open_file_table env.kmalloc_node)
    (h : sys_open K s flags mode env = some r) : well_formed K r.st := by
  by_cases hcopy : env.copyinstr = 0
  swap
  · simp [sys_open, hcopy] at h
    rw [← h]; exact hwf
  by_cases hfull : s.FD_table.next = -1
  · simp [sys_open, hcopy, is_fd_table_full, hfull] at h
    rw [← h]; exact hwf
  have hfull' : is_fd_table_full s.FD_table = false := by
    simp [is_fd_table_full, hfull]
  have hrange : 0 ≤ s.FD_table.next ∧ s.FD_table.next < K.OPEN_MAX := by
    rcases hwf.2.1 with h1 | h1
    · exact absurd h1 hfull
    · exact h1
  have hl : s.FD_table.next.toNat < s.FD_table.OF_node_ptr_array.length := by
    have := hwf.1
    omega
  rcases get_next_fd_spec K s.FD_table hwf.1 (by omega) with ⟨n, hn, hnspec⟩
  have hnr : n = -1 ∨ (0 ≤ n ∧ n < K.OPEN_MAX) := by
    rcases hnspec with ⟨h1, _⟩ | ⟨h1, h2, _⟩
    · exact Or.inl h1
    · exact Or.inr ⟨by omega, h2⟩
  have hwf1 := well_formed_hint hwf hnr
  by_cases hvfs : env.vfs_open.1 = 0
  swap
  · simp [sys_open, hcopy, hfull', hn, hvfs] at h
    rw [← h]; exact hwf1
  cases hfile : env.kmalloc_file with
  | false => simp [sys_open, hcopy, hfull', hn, hvfs, create_open_file, hfile] at h
  | true =>
    cases hnode : env.kmalloc_node with
    | none =>
      simp [sys_open, hcopy, hfull', hn, hvfs, create_open_file, hfile, add_open_file, hnode] at h
      rw [← h]; exact hwf1
    | some node =>
      have hfr : node ∉ node_ids s.open_file_table := hfresh node hnode
      by_cases happ : int_and flags K.O_APPEND = K.O_APPEND
      · simp only [sys_open, hcopy, hfull', hn, hvfs, create_open_file, hfile, add_open_file,
          hnode, array_store_eq _ hrange.1 hl, modify_file_append_fresh hfr, happ] at h
        simp at h
        rw [← h]
        exact well_formed_open hwf hrange hfr (le_refl 1) hnr
      · simp only [sys_open, hcopy, hfull', hn, hvfs, create_open_file, hfile, add_open_file,
          hnode, array_store_eq _ hrange.1 hl, modify_file_append_fresh hfr, happ] at h
        simp at h
        rw [← h]
        exact well_formed_open hwf hrange hfr (le_refl 1) hnr

theorem FD_table_create_well_formed {K : kern_consts} {env : create_env} {r : sys_result Unit}
    (h4 : 3 < K.OPEN_MAX)
    (hne : env.kmalloc_stdout_node ≠ env.kmalloc_stderr_node)
    (h : FD_table_create K [] env = some r) : well_formed K r.st := by
  rcases FD_table_create_spec K env r hne h with ⟨node1, node2, _, _, hne12, _, hst⟩
  have hwf0 : well_formed K
      { open_file_table := [],
        FD_table := { OF_node_ptr_array := List.replicate K.OPEN_MAX none, next := -1 } } := by
    refine ⟨by simp, Or.inl rfl, by simp [node_ids], ?_, ?_⟩
    · intro p hp node hnode
      rw [(List.mem_replicate.mp hp).2] at hnode
      cases hnode
    · intro e he
      cases he
  have hwf1 := @well_formed_open K _ 1 (-1) node1
    { vnode := some env.vfs_open_stdout.2, offset := 0, flags := K.O_WRONLY,
      reference_count := 1 }
    hwf0 ⟨by decide, by omega⟩ (by simp [node_ids]) (le_refl 1) (Or.inl rfl)
  have hwf2 := @well_formed_open K _ 2 3 node2
    { vnode := some env.vfs_open_stderr.2, offset := 0, flags := K.O_WRONLY,
      reference_count := 1 }
    hwf1 ⟨by decide, by omega⟩
    (by
      simp only [node_ids, List.nil_append, List.map_cons, List.map_nil, List.mem_singleton]
      exact fun h => hne12 h.symm)
    (le_refl 1) (Or.inr ⟨by decide, by omega⟩)
  rw [hst]
  exact hwf2

/-- Every state reachable from `open_file_table_create` and `FD_table_create` by
`sys_open`, `sys_close` and `sys_dup2` is well formed, provided descriptor 3
exists (`3 < OPEN_MAX`).  In particular no system call of a reachable run
dereferences a dangling node or indexes outside the descriptor array. -/
theorem reachable_well_formed {K : kern_consts} (h4 : 3 < K.OPEN_MAX) {s : kstate}
    (h : reachable K s) : well_formed K s := by
  induction h with
  | create a b reg env r hreg hne hcreate =>
    have hnil : reg = [] := by
      unfold open_file_table_create at hreg
      split at hreg
      · exact (Option.some.inj hreg).symm
      · cases hreg
    rw [hnil] at hcreate
    exact FD_table_create_well_formed h4 hne hcreate
  | step_open s flags mode env r _ hfresh hopen ih => exact sys_open_well_formed ih hfresh hopen
  | step_close s fd r _ hclose ih => exact sys_close_well_formed ih hclose
  | step_dup2 s oldfd newfd r _ hdup ih => exact sys_dup2_well_formed ih hdup

/-! ## Facts about the concrete runs -/

set_option maxRecDepth 100000 in
theorem boot_state_well_formed : well_formed os161 boot_state := by decide

set_option maxRecDepth 100000 in
theorem clobbered_state_well_formed : well_formed os161 clobbered_state := by decide

set_option maxRecDepth 100000 in
theorem boot_state_reachable : reachable os161 boot_state :=
  reachable.create true true [] boot_env
    { ret := (), errno := none, st := boot_state,
      calls := [vfs_call.vfs_open 1 0, vfs_call.vfs_open 1 0] }
    (by decide) (by decide) (by decide)

set_option maxRecDepth 100000 in
theorem sentinel_state_reachable : reachable os161 sentinel_state :=
  reachable.step_dup2 dup_last_state 2 127
    { ret := 127, errno := none, st := sentinel_state, calls := [] }
    (reachable.step_dup2 boot_state 1 127
      { ret := 127, errno := none, st := dup_last_state, calls := [] }
      boot_state_reachable (by decide))
    (by decide)

/-! # The claims -/

set_option maxRecDepth 100000 in
/-- C1 fails on the code.  With the OS/161 constants, run `FD_table_create`,
then `sys_dup2(1, 3)` (slot 3 is unbound and is the hint, which `sys_dup2`
leaves at 3), then a successful `sys_open`: it returns the stale hint 3 and
overwrites slot 3 without closing it.  In the state reached the console open
file at node 1000 has reference count 2, but only one descriptor slot points
at it, so the reference-count invariant does not hold in every reachable
state. -/
theorem refcount_invariant_broken :
    (FD_table_create os161 [] boot_env).map (fun r => r.st) = some boot_state ∧
    (sys_dup2 os161 boot_state 1 3).map (fun r => (r.ret, r.st)) = some (3, dup_state) ∧
    (sys_open os161 dup_state 0 0 open_ok_env).map (fun r => (r.ret, r.st))
      = some (3, clobbered_state) ∧
    reachable os161 clobbered_state ∧
    node_file clobbered_state.open_file_table 1000 =
      some { vnode := some 100, offset := 0, flags := 1, reference_count := 2 } ∧
    slot_count clobbered_state.FD_table 1000 = 1 ∧
    ¬ refcount_exact clobbered_state ∧
    ¬ (∀ s, reachable os161 s → refcount_exact s) := by
  have hreach : reachable os161 clobbered_state :=
    reachable.step_open dup_state 0 0 open_ok_env
      { ret := 3, errno := some 0, st := clobbered_state, calls := [vfs_call.vfs_open 0 0] }
      (reachable.step_dup2 boot_state 1 3
        { ret := 3, errno := none, st := dup_state, calls := [] }
        boot_state_reachable (by decide))
      (by
        intro a ha
        cases ha
        decide)
      (by decide)
  have hbad : ¬ refcount_exact clobbered_state := by decide
  exact ⟨by decide, by decide, by decide, hreach, by decide, by decide, hbad,
    fun h => hbad (h _ hreach)⟩

/-- C3: duplication does not affect the original.  Let `fd` be bound to an
open file `f` with reference count 1 and let `new` be an in-range unbound
descriptor (so `new ≠ fd`).  Then `sys_dup2(fd, new)` returns `new`, and in the
state it leaves, closing either of the two descriptors with `sys_close`
succeeds, unbinds that descriptor and leaves the other one bound to the same
node, whose open file is in the list and equals `f` (reference count 1,
same vnode, offset and flags).  Hence the remaining descriptor passes
`validate_fd`, and `sys_read` and `sys_write` through it return the same value,
store the same `errno` and make the same VFS calls as they do through `fd`
before the `sys_dup2`, for every outcome of `VOP_READ` / `VOP_WRITE`. -/
theorem dup2_preserves_original (K : kern_consts) (s : kstate) (fd new : Int) (node : Nat)
    (f : open_file)
    (hlen : s.FD_table.OF_node_ptr_array.length = K.OPEN_MAX)
    (hfd : array_load s.FD_table.OF_node_ptr_array fd = some (some node))
    (hf : node_file s.open_file_table node = some f)
    (hcount : f.reference_count = 1)
    (hnew : array_load s.FD_table.OF_node_ptr_array new = some none) :
    ∃ r, sys_dup2 K s fd new = some r ∧ r.ret = new ∧
      (∃ r1, sys_close K r.st new = some r1 ∧ r1.ret = 0 ∧
        array_load r1.st.FD_table.OF_node_ptr_array new = some none ∧
        array_load r1.st.FD_table.OF_node_ptr_array fd = some (some node) ∧
        node_file r1.st.open_file_table node = some f ∧
        validate_fd K r1.st.FD_table fd = some 0 ∧
        (∀ n vop, (sys_read K r1.st fd n vop).map observed =
          (sys_read K s fd n vop).map observed) ∧
        (∀ n vop, (sys_write K r1.st fd n vop).map observed =
          (sys_write K s fd n vop).map observed)) ∧
      (∃ r2, sys_close K r.st fd = some r2 ∧ r2.ret = 0 ∧
        array_load r2.st.FD_table.OF_node_ptr_array fd = some none ∧
        array_load r2.st.FD_table.OF_node_ptr_array new = some (some node) ∧
        node_file r2.st.open_file_table node = some f ∧
        validate_fd K r2.st.FD_table new = some 0 ∧
        (∀ n vop, (sys_read K r2.st new n vop).map observed =
          (sys_read K s fd n vop).map observed) ∧
        (∀ n vop, (sys_write K r2.st new n vop).map observed =
          (sys_write K s fd n vop).map observed)) := by
  rcases array_load_some hnew with ⟨h0, hl, _⟩
  have hne : fd ≠ new := by
    intro h
    rw [h, hnew] at hfd
    cases hfd
  have hlen1 : (s.FD_table.OF_node_ptr_array.set new.toNat (some node)).length = K.OPEN_MAX := by
    rw [List.length_set]; exact hlen
  have hnew1 : array_load (s.FD_table.OF_node_ptr_array.set new.toNat (some node)) new
      = some (some node) := array_load_set_self _ h0 hl
  have hfd1 : array_load (s.FD_table.OF_node_ptr_array.set new.toNat (some node)) fd
      = some (some node) := by
    rw [array_load_set_ne _ h0 hne]; exact hfd
  have hf1 : node_file (s.open_file_table.map (fun e =>
      if e.1 == node then (e.1, { e.2 with reference_count := e.2.reference_count + 1 })
      else e)) node = some { f with reference_count := f.reference_count + 1 } := by
    rw [node_file_map_update s.open_file_table node
      (fun f => { f with reference_count := f.reference_count + 1 }) node]
    simp [hf]
  have hback : ({ ({ f with reference_count := f.reference_count + 1 } : open_file) with
      reference_count := 1 } : open_file) = f := by
    cases f
    simp_all
  refine ⟨_, sys_dup2_unbound hlen hfd hf hnew, rfl, ?_, ?_⟩
  · rcases close_one_of_two
        (s := { open_file_table := _, FD_table := { OF_node_ptr_array := _, next := _ } })
        hlen1 hnew1 hfd1 hne hf1 (by simp [hcount])
      with ⟨r1, h1, h2, h3, h4, h5, h6⟩
    rw [hback] at h6
    exact ⟨r1, h1, h2, h4, h5, h6, validate_fd_bound h3 h5,
      fun n vop => sys_read_observed n vop hlen hfd hf h3 h5 h6,
      fun n vop => sys_write_observed n vop hlen hfd hf h3 h5 h6⟩
  · rcases close_one_of_two
        (s := { open_file_table := _, FD_table := { OF_node_ptr_array := _, next := _ } })
        hlen1 hfd1 hnew1 (fun h => hne h.symm) hf1 (by simp [hcount])
      with ⟨r2, h1, h2, h3, h4, h5, h6⟩
    rw [hback] at h6
    exact ⟨r2, h1, h2, h4, h5, h6, validate_fd_bound h3 h5,
      fun n vop => sys_read_observed n vop hlen hfd hf h3 h5 h6,
      fun n vop => sys_write_observed n vop hlen hfd hf h3 h5 h6⟩

set_option maxRecDepth 100000 in
/-- Witness for C3 with the OS/161 constants in the state after
`FD_table_create`: after `dup2(1, 7)`, closing 1 leaves 7 bound to the console
open file with reference count 1, and closing 7 leaves 1 so. -/
theorem dup2_preserves_original_witness :
    ∃ r, sys_dup2 os161 boot_state 1 7 = some r ∧ r.ret = 7 ∧
      (∃ r1, sys_close os161 r.st 7 = some r1 ∧ r1.ret = 0 ∧
        node_file r1.st.open_file_table 1000 =
          some { vnode := some 100, offset := 0, flags := 1, reference_count := 1 } ∧
        validate_fd os161 r1.st.FD_table 1 = some 0) ∧
      (∃ r2, sys_close os161 r.st 1 = some r2 ∧ r2.ret = 0 ∧
        node_file r2.st.open_file_table 1000 =
          some { vnode := some 100, offset := 0, flags := 1, reference_count := 1 } ∧
        validate_fd os161 r2.st.FD_table 7 = some 0) :=
  match dup2_preserves_original os161 boot_state 1 7 1000
      { vnode := some 100, offset := 0, flags := 1, reference_count := 1 }
      (by decide) (by decide) (by decide) rfl (by decide) with
  | ⟨r, h1, h2, ⟨r1, a1, a2, _, _, a5, a6, _⟩, ⟨r2, b1, b2, _, _, b5, b6, _⟩⟩ =>
    ⟨r, h1, h2, ⟨r1, a1, a2, a5, a6⟩, ⟨r2, b1, b2, b5, b6⟩⟩

/-- C4: the success postcondition of `sys_open`.  When the path copy-in
succeeds, the table is not full, the open-file record and the list node are
allocated (the node at an address that is not the address of a live node) and
`vfs_open` succeeds, `sys_open` returns the descriptor that was the hint before
the call; afterwards that slot points at the new node, every other slot is as
before, and the open-file list is the old list followed by the new open file,
whose vnode is the one `vfs_open` gave, whose reference count is 1, whose flags
are the `flags` argument and whose offset is the `st_size` left by `VOP_STAT`
if `flags & O_APPEND == O_APPEND` and 0 otherwise. -/
theorem sys_open_success (K : kern_consts) (s : kstate) (flags mode : Int) (env : open_env)
    (node : Nat)
    (hwf : well_formed K s)
    (hnotfull : s.FD_table.next ≠ -1)
    (hcopy : env.copyinstr = 0)
    (hfile : env.kmalloc_file = true)
    (hvfs : env.vfs_open.1 = 0)
    (hnode : env.kmalloc_node = some node)
    (hfresh : node ∉ node_ids s.open_file_table) :
    ∃ r, sys_open K s flags mode env = some r ∧
      r.ret = s.FD_table.next ∧
      array_load r.st.FD_table.OF_node_ptr_array s.FD_table.next = some (some node) ∧
      (∀ i : Int, i ≠ s.FD_table.next →
        array_load r.st.FD_table.OF_node_ptr_array i =
          array_load s.FD_table.OF_node_ptr_array i) ∧
      r.st.open_file_table = s.open_file_table ++
        [(node, { vnode := some env.vfs_open.2,
                  offset := if int_and flags K.O_APPEND = K.O_APPEND then env.VOP_STAT.2 else 0,
                  flags := flags,
                  reference_count := 1 })] := by
  have hlen := hwf.1
  have hrange : 0 ≤ s.FD_table.next ∧ s.FD_table.next < K.OPEN_MAX := by
    rcases hwf.2.1 with h | h
    · exact absurd h hnotfull
    · exact h
  have hl : s.FD_table.next.toNat < s.FD_table.OF_node_ptr_array.length := by omega
  rcases get_next_fd_spec K s.FD_table hlen (by omega) with ⟨n, hn, _⟩
  have hfull : is_fd_table_full s.FD_table = false := by
    simp [is_fd_table_full, hnotfull]
  by_cases happ : int_and flags K.O_APPEND = K.O_APPEND
  · refine ⟨_, by
      simp only [sys_open, hcopy, hfull, hn, hvfs, create_open_file, hfile, add_open_file, hnode,
        array_store_eq _ hrange.1 hl, modify_file_append_fresh hfresh, happ]
      simp; rfl, rfl, ?_, ?_, ?_⟩
    · exact array_load_set_self _ hrange.1 hl
    · intro i hi
      exact array_load_set_ne _ hrange.1 hi
    · simp [happ]
  · refine ⟨_, by
      simp only [sys_open, hcopy, hfull, hn, hvfs, create_open_file, hfile, add_open_file, hnode,
        array_store_eq _ hrange.1 hl, modify_file_append_fresh hfresh, happ]
      simp; rfl, rfl, ?_, ?_, ?_⟩
    · exact array_load_set_self _ hrange.1 hl
    · intro i hi
      exact array_load_set_ne _ hrange.1 hi
    · simp [happ]

set_option maxRecDepth 100000 in
/-- Witness for C4 with the OS/161 constants: in the state after
`FD_table_create`, a successful open with `O_WRONLY | O_APPEND` of a file of
size 7 returns descriptor 3 and appends an open file with offset 7. -/
theorem sys_open_success_witness :
    ∃ r, sys_open os161 boot_state 33 0 open_ok_env = some r ∧
      r.ret = 3 ∧
      array_load r.st.FD_table.OF_node_ptr_array 3 = some (some 1002) ∧
      r.st.open_file_table = boot_state.open_file_table ++
        [(1002, { vnode := some 102, offset := 7, flags := 33, reference_count := 1 })] :=
  match sys_open_success os161 boot_state 33 0 open_ok_env 1002 boot_state_well_formed
      (by decide) rfl rfl rfl rfl (by decide) with
  | ⟨r, h1, h2, h3, _, h5⟩ => ⟨r, h1, h2, h3, h5⟩

set_option maxRecDepth 100000 in
/-- Counterexample to C5 as stated, with the OS/161 constants: in the reachable
state `sentinel_state` the hint is `-1`, yet `sys_open` with a path whose
copy-in fails returns -1 with the error of `copyinstr` (6, `EFAULT`), not with
`EMFILE` (28). -/
theorem sys_open_full_counterexample :
    reachable os161 sentinel_state ∧
    sentinel_state.FD_table.next = -1 ∧
    sys_open os161 sentinel_state 0 0 bad_path_env =
      some { ret := -1, errno := some 6, st := sentinel_state, calls := [] } ∧
    (6 : Int) ≠ os161.EMFILE :=
  ⟨sentinel_state_reachable, by decide, by decide, by decide⟩

/-- C5, amended: failures of `sys_open`.  If the path copy-in fails, `sys_open`
returns -1 with the error code of `copyinstr`, makes no VFS call and changes
nothing, whatever the hint is: the hint is not looked at.  After a successful
copy-in: if the hint is the sentinel `-1`, `sys_open` returns -1 with `EMFILE`,
makes no VFS call and changes nothing; if the table is not full and `vfs_open`
fails, `sys_open` returns -1 with the error code of `vfs_open`; every descriptor
slot and the open-file list are unchanged (so a NULL slot at the old hint stays
NULL), but the hint has moved off the descriptor that `get_next_fd` returned:
it is now `-1` or an index above that descriptor. -/
theorem sys_open_failure (K : kern_consts) (s : kstate) (flags mode : Int) (env : open_env) :
    (env.copyinstr ≠ 0 →
      sys_open K s flags mode env =
        some { ret := -1, errno := some env.copyinstr, st := s, calls := [] }) ∧
    (env.copyinstr = 0 → s.FD_table.next = -1 →
      sys_open K s flags mode env =
        some { ret := -1, errno := some K.EMFILE, st := s, calls := [] }) ∧
    (env.copyinstr = 0 → well_formed K s → s.FD_table.next ≠ -1 → env.vfs_open.1 ≠ 0 →
      ∃ r, sys_open K s flags mode env = some r ∧
        r.ret = -1 ∧ r.errno = some env.vfs_open.1 ∧
        r.st.FD_table.OF_node_ptr_array = s.FD_table.OF_node_ptr_array ∧
        r.st.open_file_table = s.open_file_table ∧
        (array_load s.FD_table.OF_node_ptr_array s.FD_table.next = some none →
          array_load r.st.FD_table.OF_node_ptr_array s.FD_table.next = some none) ∧
        (get_next_fd K s.FD_table).map Prod.fst = some s.FD_table.next ∧
        r.st.FD_table.next ≠ s.FD_table.next ∧
        (r.st.FD_table.next = -1 ∨
          (s.FD_table.next < r.st.FD_table.next ∧ r.st.FD_table.next < K.OPEN_MAX))) := by
  refine ⟨?_, ?_, ?_⟩
  · intro hbad
    simp [sys_open, hbad]
  · intro hcopy hfull
    simp [sys_open, hcopy, is_fd_table_full, hfull]
  · intro hcopy hwf hnotfull hvfs
    have hrange : 0 ≤ s.FD_table.next ∧ s.FD_table.next < K.OPEN_MAX := by
      rcases hwf.2.1 with h | h
      · exact absurd h hnotfull
      · exact h
    rcases get_next_fd_spec K s.FD_table hwf.1 (by omega) with ⟨n, hn, hspec⟩
    have hfull : is_fd_table_full s.FD_table = false := by
      simp [is_fd_table_full, hnotfull]
    refine ⟨{ ret := -1, errno := some env.vfs_open.1,
              st := { s with FD_table := { s.FD_table with next := n } },
              calls := [vfs_call.vfs_open flags mode] }, ?_, rfl, rfl, rfl, rfl, ?_, ?_, ?_, ?_⟩
    · simp [sys_open, hcopy, hfull, hn, hvfs]
    · exact fun h => h
    · rw [hn]; rfl
    · show n ≠ s.FD_table.next
      rcases hspec with ⟨h1, _⟩ | ⟨h1, _⟩ <;> omega
    · show n = -1 ∨ (s.FD_table.next < n ∧ n < K.OPEN_MAX)
      rcases hspec with ⟨h1, _⟩ | ⟨h1, h2, _⟩
      · exact Or.inl h1
      · exact Or.inr ⟨h1, h2⟩

set_option maxRecDepth 100000 in
/-- Witness for the amended C5 with the OS/161 constants: in the state after
`FD_table_create` (hint 3) an open whose copy-in fails with 6 returns -1 with 6
and changes nothing; in `sentinel_state` an open with a good path fails with
`EMFILE`; in the state after `FD_table_create` an open for which `vfs_open`
fails with 19 returns -1 with 19 and moves the hint from 3 to 4. -/
theorem sys_open_failure_witness :
    sys_open os161 boot_state 0 0 bad_path_env =
      some { ret := -1, errno := some 6, st := boot_state, calls := [] } ∧
    sys_open os161 sentinel_state 0 0 open_ok_env =
      some { ret := -1, errno := some 28, st := sentinel_state, calls := [] } ∧
    (∃ r, sys_open os161 boot_state 0 0 no_entry_env = some r ∧ r.ret = -1 ∧
      r.errno = some 19 ∧ r.st.open_file_table = boot_state.open_file_table ∧
      r.st.FD_table.next ≠ 3) :=
  ⟨(sys_open_failure os161 boot_state 0 0 bad_path_env).1 (by decide),
   (sys_open_failure os161 sentinel_state 0 0 open_ok_env).2.1 rfl (by decide),
   (match (sys_open_failure os161 boot_state 0 0 no_entry_env).2.2 rfl boot_state_well_formed
      (by decide) (by decide) with
    | ⟨r, h1, h2, h3, _, h5, _, _, h8, _⟩ => ⟨r, h1, h2, h3, h5, h8⟩)⟩

/-- C6: `sys_close` returns 0 exactly when `0 ≤ fd < OPEN_MAX` and slot `fd` is
bound.  On success slot `fd` is unbound afterwards, the hint equals `fd`, no
other slot changes, and the reference count of the open file the slot pointed
at is one less than before (the node leaves the list when that makes it zero,
and no other open file changes).  Otherwise it returns -1 with `EBADF` and the
state (descriptor table, hint, open-file list) is unchanged. -/
theorem sys_close_spec (K : kern_consts) (s : kstate) (fd : Int) (hwf : well_formed K s) :
    ∃ r, sys_close K s fd = some r ∧
      (r.ret = 0 ↔ (0 ≤ fd ∧ fd < K.OPEN_MAX ∧
        ∃ node, array_load s.FD_table.OF_node_ptr_array fd = some (some node))) ∧
      (r.ret = 0 →
        array_load r.st.FD_table.OF_node_ptr_array fd = some none ∧
        r.st.FD_table.next = fd ∧
        (∀ i : Int, i ≠ fd → array_load r.st.FD_table.OF_node_ptr_array i =
          array_load s.FD_table.OF_node_ptr_array i) ∧
        ∃ node f, array_load s.FD_table.OF_node_ptr_array fd = some (some node) ∧
          node_file s.open_file_table node = some f ∧
          node_file r.st.open_file_table node =
            (if f.reference_count - 1 = 0 then none
             else some { f with reference_count := f.reference_count - 1 }) ∧
          ∀ n, n ≠ node → node_file r.st.open_file_table n = node_file s.open_file_table n) ∧
      (r.ret ≠ 0 → r.ret = -1 ∧ r.errno = some K.EBADF ∧ r.st = s) := by
  rcases validate_fd_spec K s.FD_table fd hwf.1 with ⟨v, hv, hv01, hviff⟩
  rcases hv01 with h0 | h1
  · subst h0
    rcases hviff.mp rfl with ⟨hfd0, hfd1, node, hslot⟩
    rcases well_formed_live hwf hslot with ⟨f, hf⟩
    rcases array_load_some hslot with ⟨_, hl, _⟩
    refine ⟨_, by simp only [sys_close, hv, close_fd_bound hslot hf]; rfl, ?_, ?_, ?_⟩
    · simp only [true_iff]
      exact ⟨hfd0, hfd1, node, hslot⟩
    · intro _
      refine ⟨array_load_set_self none hfd0 hl, rfl, ?_, node, f, hslot, hf, ?_, ?_⟩
      · intro i hi
        exact array_load_set_ne none hfd0 hi
      · by_cases hz : f.reference_count - 1 = 0
        · simp only [hz, if_true]
          rw [node_file_filter]
          simp
        · simp only [hz, if_false]
          rw [node_file_map_update s.open_file_table node
            (fun f => { f with reference_count := f.reference_count - 1 }) node]
          simp [hf]
      · intro n hn
        by_cases hz : f.reference_count - 1 = 0
        · simp only [hz, if_true]
          rw [node_file_filter]
          simp [hn]
        · simp only [hz, if_false]
          rw [node_file_map_update s.open_file_table node
            (fun f => { f with reference_count := f.reference_count - 1 }) n]
          simp [hn]
    · intro h
      exact absurd rfl h
  · subst h1
    have hne : ¬ ((-1 : Int) = 0) := by decide
    refine ⟨{ ret := -1, errno := some K.EBADF, st := s, calls := [] },
      by simp only [sys_close, hv]; rfl, ?_, ?_, ?_⟩
    · constructor
      · intro h
        exact absurd h hne
      · intro h
        exact absurd (hviff.mpr h) hne
    · intro h
      exact absurd h hne
    · intro _
      exact ⟨rfl, rfl, rfl⟩

set_option maxRecDepth 100000 in
/-- Witness for C6 in the state right after `FD_table_create`: closing
descriptor 1 succeeds and moves the hint to 1; closing descriptor 0 does not
succeed. -/
theorem sys_close_spec_witness :
    well_formed os161 boot_state ∧
    (∃ r, sys_close os161 boot_state 1 = some r ∧ r.ret = 0 ∧ r.st.FD_table.next = 1) ∧
    (∃ r, sys_close os161 boot_state 0 = some r ∧ r.ret = -1 ∧ r.st = boot_state) :=
  ⟨boot_state_well_formed,
   (match sys_close_spec os161 boot_state 1 boot_state_well_formed with
    | ⟨r, h1, h2, h3, _⟩ =>
      have h0 : r.ret = 0 := h2.mpr ⟨by decide, by decide, 1000, by decide⟩
      ⟨r, h1, h0, (h3 h0).2.1⟩),
   (match sys_close_spec os161 boot_state 0 boot_state_well_formed with
    | ⟨r, h1, h2, _, h4⟩ =>
      have h0 : r.ret ≠ 0 := fun h => by
        rcases h2.mp h with ⟨_, _, node, hn⟩
        have hnone : array_load boot_state.FD_table.OF_node_ptr_array 0 = some none := by decide
        rw [hnone] at hn
        cases hn
      ⟨r, h1, (h4 h0).1, (h4 h0).2.2⟩)⟩

/-- C7: access-mode enforcement.  For a bound descriptor `fd` whose open file
has flags `f.flags`: if `f.flags & O_ACCMODE` is neither `O_WRONLY` nor `O_RDWR`
then `sys_write` returns -1 with `EBADF`, makes no VFS call (no `VOP_WRITE`)
and leaves the state, hence the offset, unchanged; if it is neither `O_RDONLY`
nor `O_RDWR` then `sys_read` does the same (no `VOP_READ`).  In particular a
write through a descriptor whose access mode is `O_RDONLY` fails with `EBADF`,
and so does a read through descriptors 1 and 2 of a table just built by
`FD_table_create` (their flags are `O_WRONLY`); these two instances use that
the access-mode constants are distinct values below the mask. -/
theorem access_mode_enforced (K : kern_consts) :
    (∀ (s : kstate) (fd : Int) (node : Nat) (f : open_file),
      s.FD_table.OF_node_ptr_array.length = K.OPEN_MAX →
      array_load s.FD_table.OF_node_ptr_array fd = some (some node) →
      node_file s.open_file_table node = some f →
      (int_and f.flags K.O_ACCMODE ≠ K.O_WRONLY → int_and f.flags K.O_ACCMODE ≠ K.O_RDWR →
        ∀ nbytes vop, sys_write K s fd nbytes vop =
          some { ret := -1, errno := some K.EBADF, st := s, calls := [] }) ∧
      (int_and f.flags K.O_ACCMODE ≠ K.O_RDONLY → int_and f.flags K.O_ACCMODE ≠ K.O_RDWR →
        ∀ buflen vop, sys_read K s fd buflen vop =
          some { ret := -1, errno := some K.EBADF, st := s, calls := [] }) ∧
      (K.O_RDONLY ≠ K.O_WRONLY → K.O_RDONLY ≠ K.O_RDWR →
        int_and f.flags K.O_ACCMODE = K.O_RDONLY →
        ∀ nbytes vop, sys_write K s fd nbytes vop =
          some { ret := -1, errno := some K.EBADF, st := s, calls := [] })) ∧
    (∀ (env : create_env) (r : sys_result Unit),
      env.kmalloc_stdout_node ≠ env.kmalloc_stderr_node →
      FD_table_create K [] env = some r →
      int_and K.O_WRONLY K.O_ACCMODE ≠ K.O_RDONLY → int_and K.O_WRONLY K.O_ACCMODE ≠ K.O_RDWR →
      ∀ buflen vop,
        sys_read K r.st 1 buflen vop =
          some { ret := -1, errno := some K.EBADF, st := r.st, calls := [] } ∧
        sys_read K r.st 2 buflen vop =
          some { ret := -1, errno := some K.EBADF, st := r.st, calls := [] }) := by
  have hwrite : ∀ (s : kstate) (fd : Int) (node : Nat) (f : open_file),
      s.FD_table.OF_node_ptr_array.length = K.OPEN_MAX →
      array_load s.FD_table.OF_node_ptr_array fd = some (some node) →
      node_file s.open_file_table node = some f →
      int_and f.flags K.O_ACCMODE ≠ K.O_WRONLY → int_and f.flags K.O_ACCMODE ≠ K.O_RDWR →
      ∀ nbytes vop, sys_write K s fd nbytes vop =
        some { ret := -1, errno := some K.EBADF, st := s, calls := [] } := by
    intro s fd node f hlen hslot hf h1 h2 nbytes vop
    simp [sys_write, validate_fd_bound hlen hslot, get_open_file_bound hslot hf, h1, h2]
  have hread : ∀ (s : kstate) (fd : Int) (node : Nat) (f : open_file),
      s.FD_table.OF_node_ptr_array.length = K.OPEN_MAX →
      array_load s.FD_table.OF_node_ptr_array fd = some (some node) →
      node_file s.open_file_table node = some f →
      int_and f.flags K.O_ACCMODE ≠ K.O_RDONLY → int_and f.flags K.O_ACCMODE ≠ K.O_RDWR →
      ∀ buflen vop, sys_read K s fd buflen vop =
        some { ret := -1, errno := some K.EBADF, st := s, calls := [] } := by
    intro s fd node f hlen hslot hf h1 h2 buflen vop
    simp [sys_read, validate_fd_bound hlen hslot, get_open_file_bound hslot hf, h1, h2]
  refine ⟨?_, ?_⟩
  · intro s fd node f hlen hslot hf
    refine ⟨hwrite s fd node f hlen hslot hf, hread s fd node f hlen hslot hf, ?_⟩
    intro hc1 hc2 hacc
    exact hwrite s fd node f hlen hslot hf (by rw [hacc]; exact hc1) (by rw [hacc]; exact hc2)
  · intro env r hne hcreate h1 h2 buflen vop
    rcases FD_table_create_spec K env r hne hcreate with ⟨node1, node2, _, _, hne12, h3, hst⟩
    have hlen : r.st.FD_table.OF_node_ptr_array.length = K.OPEN_MAX := by
      rw [hst]; simp
    have hslot1 : array_load r.st.FD_table.OF_node_ptr_array 1 = some (some node1) := by
      rw [hst]
      simp [array_load, List.getElem?_set]
      omega
    have hslot2 : array_load r.st.FD_table.OF_node_ptr_array 2 = some (some node2) := by
      rw [hst]
      simp [array_load, List.getElem?_set]
      omega
    have hf1 : node_file r.st.open_file_table node1 =
        some { vnode := some env.vfs_open_stdout.2, offset := 0, flags := K.O_WRONLY,
               reference_count := 1 } := by
      rw [hst]; simp [node_file]
    have hf2 : node_file r.st.open_file_table node2 =
        some { vnode := some env.vfs_open_stderr.2, offset := 0, flags := K.O_WRONLY,
               reference_count := 1 } := by
      rw [hst]; simp [node_file, hne12]
    exact ⟨hread r.st 1 node1 _ hlen hslot1 hf1 h1 h2 buflen vop,
           hread r.st 2 node2 _ hlen hslot2 hf2 h1 h2 buflen vop⟩

set_option maxRecDepth 100000 in
/-- Witness for C7 with the OS/161 constants: a write through a descriptor
opened `O_RDONLY` (descriptor 3 of `clobbered_state`) fails with `EBADF`, and so
do reads through descriptors 1 and 2 of the table built by `FD_table_create`. -/
theorem access_mode_enforced_witness :
    sys_write os161 clobbered_state 3 5 { err := 0, uio_resid := 0, uio_offset := 5 } =
      some { ret := -1, errno := some 30, st := clobbered_state, calls := [] } ∧
    sys_read os161 boot_state 1 16 { err := 0, uio_resid := 0, uio_offset := 16 } =
      some { ret := -1, errno := some 30, st := boot_state, calls := [] } ∧
    FD_table_create os161 [] boot_env =
      some { ret := (), errno := none, st := boot_state,
             calls := [vfs_call.vfs_open 1 0, vfs_call.vfs_open 1 0] } ∧
    sys_read os161 boot_state 1 16 { err := 0, uio_resid := 0, uio_offset := 16 } =
      some { ret := -1, errno := some 30, st := boot_state, calls := [] } ∧
    sys_read os161 boot_state 2 16 { err := 0, uio_resid := 0, uio_offset := 16 } =
      some { ret := -1, errno := some 30, st := boot_state, calls := [] } :=
  have hc : FD_table_create os161 [] boot_env =
      some { ret := (), errno := none, st := boot_state,
             calls := [vfs_call.vfs_open 1 0, vfs_call.vfs_open 1 0] } := by decide
  ⟨((access_mode_enforced os161).1 clobbered_state 3 1002
      { vnode := some 102, offset := 0, flags := 0, reference_count := 1 }
      (by decide) (by decide) (by decide)).2.2 (by decide) (by decide) (by decide) 5
      { err := 0, uio_resid := 0, uio_offset := 5 },
   ((access_mode_enforced os161).1 boot_state 1 1000
      { vnode := some 100, offset := 0, flags := 1, reference_count := 1 }
      (by decide) (by decide) (by decide)).2.1 (by decide) (by decide) 16
      { err := 0, uio_resid := 0, uio_offset := 16 },
   hc,
   (access_mode_enforced os161).2 boot_env _ (by decide) hc (by decide) (by decide) 16
    { err := 0, uio_resid := 0, uio_offset := 16 }⟩

/-- C8: a successful write advances the offset.  For a bound descriptor whose
access mode is `O_WRONLY` or `O_RDWR`, when `VOP_WRITE` succeeds `sys_write`
makes exactly that one VFS call at the current offset, returns `nbytes` minus
the residual it left (the C expression `nbytes - uio.uio_resid` as `ssize_t`,
which is the plain difference when the residual is at most `nbytes < 2^31`) and
stores the `uio_offset` it left as the offset of the open file.  Hence, when
`VOP_WRITE` leaves residual 0 and advances the uio offset by `nbytes`, the
write returns `nbytes` and an immediately following
`sys_lseek(fd, 0, SEEK_CUR)` on the (seekable) file returns the offset held
before the write plus `nbytes`; offsets are non-negative `off_t` values. -/
theorem sys_write_advances_offset (K : kern_consts) (s : kstate) (fd : Int) (nbytes : Nat)
    (vop : uio_result) (stat : Int × Int) (node : Nat) (f : open_file)
    (hlen : s.FD_table.OF_node_ptr_array.length = K.OPEN_MAX)
    (hslot : array_load s.FD_table.OF_node_ptr_array fd = some (some node))
    (hf : node_file s.open_file_table node = some f)
    (hacc : int_and f.flags K.O_ACCMODE = K.O_WRONLY ∨ int_and f.flags K.O_ACCMODE = K.O_RDWR)
    (herr : vop.err = 0) :
    ∃ r, sys_write K s fd nbytes vop = some r ∧
      r.calls = [vfs_call.VOP_WRITE f.vnode f.offset nbytes] ∧
      r.ret = ssize_sub nbytes vop.uio_resid ∧
      (vop.uio_resid ≤ nbytes → nbytes < 2147483648 →
        r.ret = (nbytes : Int) - (vop.uio_resid : Int)) ∧
      node_file r.st.open_file_table node = some { f with offset := vop.uio_offset } ∧
      (vop.uio_resid = 0 → vop.uio_offset = f.offset + nbytes → nbytes < 2147483648 →
        0 ≤ f.offset → f.offset + nbytes < 9223372036854775808 →
        stat.1 = 0 → K.SEEK_CUR ≠ K.SEEK_SET →
        r.ret = (nbytes : Int) ∧
        ∃ r2, sys_lseek K r.st fd 0 K.SEEK_CUR true stat = some r2 ∧
          (r2.ret : Int) = f.offset + nbytes) := by
  have hnode : node_file (s.open_file_table.map (fun e =>
      if e.1 == node then (e.1, { e.2 with offset := vop.uio_offset }) else e)) node
      = some { f with offset := vop.uio_offset } := by
    rw [node_file_map_update s.open_file_table node (fun f => { f with offset := vop.uio_offset })
      node]
    simp [hf]
  refine ⟨_, sys_write_store nbytes hlen hslot hf hacc herr, rfl, rfl, ?_, hnode, ?_⟩
  · intro h1 h2
    exact ssize_sub_eq h1 h2
  · intro hres hoff hn h0 h1 hstat hcs
    refine ⟨?_, ?_⟩
    · show ssize_sub nbytes vop.uio_resid = (nbytes : Int)
      rw [ssize_sub_eq (by omega) hn, hres]
      simp
    · have hnew : lseek_newpos K { f with offset := vop.uio_offset } 0 K.SEEK_CUR stat.2
          = some (f.offset + nbytes) := by
        have hv : to_int64 (add_uint64 0 (f.offset + nbytes)) = f.offset + nbytes := by
          have := @to_int64_add_uint64 0 (f.offset + nbytes) (by simpa using (by omega))
            (by simpa using h1)
          simpa using this
        simp [lseek_newpos, hcs, hoff, hv]
      have h0' : (0 : Int) ≤ f.offset + nbytes := by omega
      refine ⟨_, sys_lseek_store (s := { open_file_table := _, FD_table := s.FD_table })
        hlen hslot hnode hstat hnew h0', ?_⟩
      show ((to_uint64 (f.offset + nbytes) : Nat) : Int) = f.offset + nbytes
      rw [to_uint64_of_nonneg h0' (by omega)]
      omega

set_option maxRecDepth 100000 in
/-- Witness for C8 with the OS/161 constants, on descriptor 3 of `open_state`
(opened `O_WRONLY`, offset 0): a write of 5 bytes that `VOP_WRITE` completes
returns 5, and `lseek(3, 0, SEEK_CUR)` then returns 5. -/
theorem sys_write_advances_offset_witness :
    ∃ r, sys_write os161 open_state 3 5 { err := 0, uio_resid := 0, uio_offset := 5 } = some r ∧
      r.ret = 5 ∧
      ∃ r2, sys_lseek os161 r.st 3 0 1 true (0, 5) = some r2 ∧ (r2.ret : Int) = 5 :=
  match sys_write_advances_offset os161 open_state 3 5
      { err := 0, uio_resid := 0, uio_offset := 5 } (0, 5) 1002
      { vnode := some 102, offset := 0, flags := 1, reference_count := 1 }
      (by decide) (by decide) (by decide) (Or.inl (by decide)) rfl with
  | ⟨r, h1, _, _, _, _, h6⟩ =>
    have h := h6 rfl (by decide) (by decide) (by decide) (by decide) rfl (by decide)
    ⟨r, h1, h.1, h.2⟩

/-- C9: the result of `sys_lseek` on a bound descriptor with a seekable vnode
and a successful `VOP_STAT`.  The new position is `pos` for `SEEK_SET`,
`offset + pos` for `SEEK_CUR` and `size + pos` for `SEEK_END`, computed in
64-bit arithmetic (`to_int64`, `add_uint64`), which is the plain value whenever
that lies in `[0, 2^63)`.  When the new position is non-negative as an `off_t`
it is returned and stored as the offset of the open file; the descriptor
table, the other fields of the open file, the other open files and the order
of the list are unchanged.  In particular `sys_lseek(fd, 0, SEEK_CUR)` on an
open file whose offset is a non-negative `off_t` returns that offset and leaves
the whole state unchanged.  The three `SEEK_*` constants are distinct. -/
theorem sys_lseek_result (K : kern_consts) (s : kstate) (fd : Int) (pos : Nat) (whence : Int)
    (stat : Int × Int) (node : Nat) (f : open_file)
    (hwf : well_formed K s)
    (hslot : array_load s.FD_table.OF_node_ptr_array fd = some (some node))
    (hf : node_file s.open_file_table node = some f)
    (hstat : stat.1 = 0)
    (hSC : K.SEEK_SET ≠ K.SEEK_CUR) (hSE : K.SEEK_SET ≠ K.SEEK_END)
    (hCE : K.SEEK_CUR ≠ K.SEEK_END) :
    (lseek_newpos K f pos K.SEEK_SET stat.2 = some (to_int64 pos) ∧
     lseek_newpos K f pos K.SEEK_CUR stat.2 = some (to_int64 (add_uint64 pos f.offset)) ∧
     lseek_newpos K f pos K.SEEK_END stat.2 = some (to_int64 (add_uint64 pos stat.2))) ∧
    ((pos < 9223372036854775808 → to_int64 pos = (pos : Int)) ∧
     (0 ≤ f.offset + pos → f.offset + pos < 9223372036854775808 →
        to_int64 (add_uint64 pos f.offset) = f.offset + pos) ∧
     (0 ≤ stat.2 + pos → stat.2 + pos < 9223372036854775808 →
        to_int64 (add_uint64 pos stat.2) = stat.2 + pos)) ∧
    (∀ newpos, lseek_newpos K f pos whence stat.2 = some newpos → 0 ≤ newpos →
      ∃ r, sys_lseek K s fd pos whence true stat = some r ∧
        (r.ret : Int) = newpos ∧
        r.st.FD_table = s.FD_table ∧
        node_file r.st.open_file_table node = some { f with offset := newpos } ∧
        (∀ n, n ≠ node → node_file r.st.open_file_table n = node_file s.open_file_table n) ∧
        node_ids r.st.open_file_table = node_ids s.open_file_table) ∧
    (0 ≤ f.offset → f.offset < 9223372036854775808 →
      ∃ r, sys_lseek K s fd 0 K.SEEK_CUR true stat = some r ∧
        (r.ret : Int) = f.offset ∧ r.st = s) := by
  have hlen := hwf.1
  have hnd := hwf.2.2.1
  have hCS : ¬ K.SEEK_CUR = K.SEEK_SET := fun h => hSC h.symm
  have hES : ¬ K.SEEK_END = K.SEEK_SET := fun h => hSE h.symm
  have hEC : ¬ K.SEEK_END = K.SEEK_CUR := fun h => hCE h.symm
  have hcur : ∀ p : Nat, lseek_newpos K f p K.SEEK_CUR stat.2
      = some (to_int64 (add_uint64 p f.offset)) := by
    intro p
    simp [lseek_newpos, hCS]
  have hgen : ∀ (p : Nat) (w : Int) (newpos : Int),
      lseek_newpos K f p w stat.2 = some newpos → 0 ≤ newpos → _ :=
    fun p w newpos hnew h0 => sys_lseek_store hlen hslot hf hstat hnew h0
  refine ⟨⟨?_, hcur pos, ?_⟩, ⟨?_, ?_, ?_⟩, ?_, ?_⟩
  · simp [lseek_newpos]
  · simp [lseek_newpos, hES, hEC]
  · exact fun h => to_int64_of_lt h
  · exact fun h0 h1 => to_int64_add_uint64 h0 h1
  · exact fun h0 h1 => to_int64_add_uint64 h0 h1
  · intro newpos hnew h0
    refine ⟨_, hgen pos whence newpos hnew h0, ?_, rfl, ?_, ?_, ?_⟩
    · have hlt := lseek_newpos_lt hnew
      show ((to_uint64 newpos : Nat) : Int) = newpos
      rw [to_uint64_of_nonneg h0 (by omega)]
      omega
    · show node_file (s.open_file_table.map _) node = _
      rw [node_file_map_update s.open_file_table node (fun f => { f with offset := newpos }) node]
      simp [hf]
    · intro n hn
      show node_file (s.open_file_table.map _) n = _
      rw [node_file_map_update s.open_file_table node (fun f => { f with offset := newpos }) n]
      simp [hn]
    · exact node_ids_map_update s.open_file_table node (fun f => { f with offset := newpos })
  · intro h0 h1
    have hval : to_int64 (add_uint64 0 f.offset) = f.offset := by
      have := @to_int64_add_uint64 0 f.offset (by simpa using h0) (by simpa using h1)
      simpa using this
    have hnew : lseek_newpos K f 0 K.SEEK_CUR stat.2 = some f.offset := by
      rw [hcur 0, hval]
    refine ⟨_, hgen 0 K.SEEK_CUR f.offset hnew h0, ?_, ?_⟩
    · show ((to_uint64 f.offset : Nat) : Int) = f.offset
      rw [to_uint64_of_nonneg h0 (by omega)]
      omega
    · show ({ s with open_file_table := _ } : kstate) = s
      rw [map_update_self hnd hf (fun g => { g with offset := f.offset }) rfl]

set_option maxRecDepth 100000 in
/-- Witness for C9 with the OS/161 constants, on descriptor 3 of
`clobbered_state` (offset 0): `lseek(3, 5, SEEK_SET)` returns 5 and stores it,
and `lseek(3, 0, SEEK_CUR)` returns 0 and leaves the state as it is. -/
theorem sys_lseek_result_witness :
    well_formed os161 clobbered_state ∧
    (∃ r, sys_lseek os161 clobbered_state 3 5 0 true (0, 9) = some r ∧ (r.ret : Int) = 5 ∧
      node_file r.st.open_file_table 1002 =
        some { vnode := some 102, offset := 5, flags := 0, reference_count := 1 }) ∧
    (∃ r, sys_lseek os161 clobbered_state 3 0 1 true (0, 9) = some r ∧ (r.ret : Int) = 0 ∧
      r.st = clobbered_state) :=
  have h := sys_lseek_result os161 clobbered_state 3 5 0 (0, 9) 1002
    { vnode := some 102, offset := 0, flags := 0, reference_count := 1 }
    clobbered_state_well_formed (by decide) (by decide) rfl (by decide) (by decide) (by decide)
  ⟨clobbered_state_well_formed,
   (match h.2.2.1 5 (by decide) (by decide) with
    | ⟨r, h1, h2, _, h4, _⟩ => ⟨r, h1, h2, h4⟩),
   h.2.2.2 (by decide) (by decide)⟩

/-- C10: failures of `sys_lseek` are atomic.  It returns `(uint64_t) -1` with
`EBADF` for an out-of-range or unbound descriptor; for a bound descriptor it
returns `(uint64_t) -1` with `ESPIPE` when the vnode is not seekable, and, when
the vnode is seekable, with `EINVAL` for a `whence` that is none of `SEEK_SET`,
`SEEK_CUR`, `SEEK_END` and (after a successful `VOP_STAT`) for a negative new
position.  In each case the state, the offset included, is unchanged. -/
theorem sys_lseek_failures (K : kern_consts) (s : kstate) (fd : Int) (pos : Nat) (whence : Int)
    (isseekable : Bool) (stat : Int × Int)
    (hlen : s.FD_table.OF_node_ptr_array.length = K.OPEN_MAX) :
    to_uint64 (-1) = 18446744073709551615 ∧
    ((fd < 0 ∨ fd ≥ K.OPEN_MAX ∨ array_load s.FD_table.OF_node_ptr_array fd = some none) →
      sys_lseek K s fd pos whence isseekable stat =
        some { ret := to_uint64 (-1), errno := some K.EBADF, st := s, calls := [] }) ∧
    (∀ node f, array_load s.FD_table.OF_node_ptr_array fd = some (some node) →
      node_file s.open_file_table node = some f →
      (isseekable = false →
        sys_lseek K s fd pos whence isseekable stat =
          some { ret := to_uint64 (-1), errno := some K.ESPIPE, st := s,
                 calls := [vfs_call.VOP_ISSEEKABLE f.vnode] }) ∧
      (isseekable = true → whence ≠ K.SEEK_SET → whence ≠ K.SEEK_CUR → whence ≠ K.SEEK_END →
        sys_lseek K s fd pos whence isseekable stat =
          some { ret := to_uint64 (-1), errno := some K.EINVAL, st := s,
                 calls := [vfs_call.VOP_ISSEEKABLE f.vnode, vfs_call.VOP_STAT f.vnode] }) ∧
      (isseekable = true → stat.1 = 0 →
        ∀ newpos, lseek_newpos K f pos whence stat.2 = some newpos → newpos < 0 →
        sys_lseek K s fd pos whence isseekable stat =
          some { ret := to_uint64 (-1), errno := some K.EINVAL, st := s,
                 calls := [vfs_call.VOP_ISSEEKABLE f.vnode, vfs_call.VOP_STAT f.vnode] })) := by
  refine ⟨by decide, ?_, ?_⟩
  · intro hbad
    rcases validate_fd_spec K s.FD_table fd hlen with ⟨v, hv, hv01, hviff⟩
    have hv1 : v = -1 := by
      rcases hv01 with h0 | h1
      · exfalso
        rcases hviff.mp h0 with ⟨h0', h1', node, hn⟩
        rcases hbad with hb | hb | hb
        · omega
        · omega
        · rw [hb] at hn
          cases hn
      · exact h1
    subst hv1
    simp [sys_lseek, hv]
  · intro node f hslot hf
    refine ⟨?_, ?_, ?_⟩
    · intro hs
      simp [sys_lseek, validate_fd_bound hlen hslot, get_open_file_bound hslot hf, hs]
    · intro hs h1 h2 h3
      by_cases hst : stat.1 = 0
      · simp [sys_lseek, validate_fd_bound hlen hslot, get_open_file_bound hslot hf, hs, hst,
          lseek_newpos, h1, h2, h3]
      · simp [sys_lseek, validate_fd_bound hlen hslot, get_open_file_bound hslot hf, hs, hst]
    · intro hs hst newpos hnew hneg
      simp [sys_lseek, validate_fd_bound hlen hslot, get_open_file_bound hslot hf, hs, hst,
        hnew, hneg]

set_option maxRecDepth 100000 in
/-- Witness for C10 with the OS/161 constants in the state after
`FD_table_create`: `lseek(0, 0, SEEK_SET)` on the unbound descriptor 0 gives
`EBADF`; on descriptor 1 a non-seekable vnode gives `ESPIPE`, `whence = 7`
gives `EINVAL`, and `SEEK_SET` to `2^63` (negative as `off_t`) gives `EINVAL`;
the state is `boot_state` each time. -/
theorem sys_lseek_failures_witness :
    sys_lseek os161 boot_state 0 0 0 true (0, 0) =
      some { ret := 18446744073709551615, errno := some 30, st := boot_state, calls := [] } ∧
    sys_lseek os161 boot_state 1 0 0 false (0, 0) =
      some { ret := 18446744073709551615, errno := some 33, st := boot_state,
             calls := [vfs_call.VOP_ISSEEKABLE (some 100)] } ∧
    sys_lseek os161 boot_state 1 0 7 true (0, 0) =
      some { ret := 18446744073709551615, errno := some 8, st := boot_state,
             calls := [vfs_call.VOP_ISSEEKABLE (some 100), vfs_call.VOP_STAT (some 100)] } ∧
    sys_lseek os161 boot_state 1 9223372036854775808 0 true (0, 0) =
      some { ret := 18446744073709551615, errno := some 8, st := boot_state,
             calls := [vfs_call.VOP_ISSEEKABLE (some 100), vfs_call.VOP_STAT (some 100)] } :=
  ⟨(sys_lseek_failures os161 boot_state 0 0 0 true (0, 0) (by decide)).2.1
      (Or.inr (Or.inr (by decide))),
   ((sys_lseek_failures os161 boot_state 1 0 0 false (0, 0) (by decide)).2.2 1000
      { vnode := some 100, offset := 0, flags := 1, reference_count := 1 }
      (by decide) (by decide)).1 rfl,
   ((sys_lseek_failures os161 boot_state 1 0 7 true (0, 0) (by decide)).2.2 1000
      { vnode := some 100, offset := 0, flags := 1, reference_count := 1 }
      (by decide) (by decide)).2.1 rfl (by decide) (by decide) (by decide),
   ((sys_lseek_failures os161 boot_state 1 9223372036854775808 0 true (0, 0) (by decide)).2.2 1000
      { vnode := some 100, offset := 0, flags := 1, reference_count := 1 }
      (by decide) (by decide)).2.2 rfl rfl (-9223372036854775808) (by decide) (by decide)⟩

/-! # Lemmas for the fresh table and the registry invariant -/

theorem FD_table_create_shape (K : kern_consts) (reg : List (Nat × open_file))
    (env : create_env) (r : sys_result Unit)
    (hfresh1 : fresh_node reg env.kmalloc_stdout_node)
    (hfresh2 : fresh_node reg env.kmalloc_stderr_node)
    (hne : env.kmalloc_stdout_node ≠ env.kmalloc_stderr_node)
    (h : FD_table_create K reg env = some r) :
    ∃ node1 node2, env.kmalloc_stdout_node = some node1 ∧ env.kmalloc_stderr_node = some node2 ∧
      node1 ≠ node2 ∧ node1 ∉ node_ids reg ∧ node2 ∉ node_ids reg ∧ 2 < K.OPEN_MAX ∧
      r.st =
        { open_file_table :=
            reg ++
              [(node1, { vnode := some env.vfs_open_stdout.2, offset := 0, flags := K.O_WRONLY,
                         reference_count := 1 }),
               (node2, { vnode := some env.vfs_open_stderr.2, offset := 0, flags := K.O_WRONLY,
                         reference_count := 1 })],
          FD_table :=
            { OF_node_ptr_array :=
                ((List.replicate K.OPEN_MAX none).set 1 (some node1)).set 2 (some node2),
              next := 3 } } := by
  cases hkt : env.kmalloc_table with
  | false => simp [FD_table_create, hkt] at h
  | true =>
  cases hks : env.kmalloc_stdout with
  | false => simp [FD_table_create, hkt, hks, create_open_file] at h
  | true =>
  by_cases he1 : env.vfs_open_stdout.1 = 0
  swap
  · simp [FD_table_create, hkt, hks, create_open_file, he1] at h
  cases hn1 : env.kmalloc_stdout_node with
  | none => simp [FD_table_create, hkt, hks, create_open_file, he1, hn1, add_open_file] at h
  | some node1 =>
  have hf1 : node1 ∉ node_ids reg := hfresh1 node1 hn1
  by_cases h1 : 1 < K.OPEN_MAX
  swap
  · have hs : array_store (List.replicate K.OPEN_MAX none) 1 (some node1) = none := by
      simp [array_store, h1]
    simp [FD_table_create, hkt, hks, create_open_file, he1, hn1, add_open_file, hs] at h
  have hs1 : array_store (List.replicate K.OPEN_MAX none) 1 (some node1)
      = some ((List.replicate K.OPEN_MAX none).set 1 (some node1)) := by
    simp [array_store, h1]
  cases hke : env.kmalloc_stderr with
  | false =>
    simp only [FD_table_create, hkt, hks, create_open_file, he1, hn1, add_open_file, hs1, hke,
      modify_file_append_fresh hf1] at h
    simp at h
  | true =>
  by_cases he2 : env.vfs_open_stderr.1 = 0
  swap
  · simp only [FD_table_create, hkt, hks, create_open_file, he1, hn1, add_open_file, hs1, hke,
      modify_file_append_fresh hf1] at h
    simp [he2] at h
  cases hn2 : env.kmalloc_stderr_node with
  | none =>
    simp only [FD_table_create, hkt, hks, create_open_file, he1, hn1, add_open_file, hs1, hke,
      modify_file_append_fresh hf1, hn2] at h
    simp [he2] at h
  | some node2 =>
  have hne12 : node1 ≠ node2 := by
    intro h12
    apply hne
    rw [hn1, hn2, h12]
  have hf2 : node2 ∉ node_ids reg := hfresh2 node2 hn2
  have hf2' : ∀ f : open_file, node2 ∉ node_ids (reg ++ [(node1, f)]) := by
    intro f
    simp only [node_ids, List.map_append, List.map_cons, List.map_nil, List.mem_append,
      List.mem_singleton, not_or]
    exact ⟨hf2, fun h => hne12 h.symm⟩
  by_cases h2 : 2 < K.OPEN_MAX
  swap
  · have hs : array_store ((List.replicate K.OPEN_MAX none).set 1 (some node1)) 2 (some node2)
        = none := by
      simp [array_store, h2]
    simp only [FD_table_create, hkt, hks, create_open_file, he1, hn1, add_open_file, hs1, hke,
      modify_file_append_fresh hf1, hn2, hs] at h
    simp [he2] at h
  have hs2 : array_store ((List.replicate K.OPEN_MAX none).set 1 (some node1)) 2 (some node2)
      = some (((List.replicate K.OPEN_MAX none).set 1 (some node1)).set 2 (some node2)) := by
    simp [array_store, h2]
  simp only [FD_table_create, hkt, hks, create_open_file, he1, hn1, add_open_file, hs1, hke,
    modify_file_append_fresh hf1, hn2, hs2, modify_file_append_fresh (hf2' _)] at h
  simp [he2] at h
  refine ⟨node1, node2, rfl, rfl, hne12, hf1, hf2, h2, ?_⟩
  rw [← h]

theorem node_file_append_left {reg : List (Nat × open_file)} {n : Nat} {f : open_file}
    (l2 : List (Nat × open_file)) (h : node_file reg n = some f) :
    node_file (reg ++ l2) n = some f := by
  induction reg with
  | nil => cases h
  | cons e reg ih =>
    rw [List.cons_append, node_file_cons]
    rw [node_file_cons] at h
    by_cases he : e.1 = n
    · simpa [he] using h
    · simp only [he, if_false] at h ⊢
      exact ih h

theorem get_next_fd_fst {K : kern_consts} {T T1 : file_descriptor_table} {fd : Int}
    (h : get_next_fd K T = some (fd, T1)) : fd = T.next ∧
      T1.OF_node_ptr_array = T.OF_node_ptr_array := by
  simp only [get_next_fd] at h
  split at h
  · cases h
  · simp only [Option.some.injEq, Prod.mk.injEq] at h
    exact ⟨h.1.symm, by rw [← h.2]⟩

theorem sys_open_ret {K : kern_consts} {s : kstate} {flags mode : Int} {env : open_env}
    {r : sys_result Int} (h : sys_open K s flags mode env = some r) (hret : r.ret ≠ -1) :
    r.ret = s.FD_table.next := by
  unfold sys_open at h
  split at h
  · rw [← Option.some.inj h] at hret; exact absurd rfl hret
  split at h
  · rw [← Option.some.inj h] at hret; exact absurd rfl hret
  split at h
  · cases h
  rename_i fd T1 hg
  have hfd := (get_next_fd_fst hg).1
  split at h
  · rw [← Option.some.inj h] at hret; exact absurd rfl hret
  split at h
  · cases h
  split at h
  · rw [← Option.some.inj h] at hret; exact absurd rfl hret
  split at h
  · cases h
  split at h
  · cases h
  split at h
  · split at h
    · cases h
    · rw [← Option.some.inj h]; exact hfd
  · rw [← Option.some.inj h]; exact hfd

theorem sys_open_total {K : kern_consts} {s : kstate} (flags mode : Int) {env : open_env}
    {node : Nat}
    (hlen : s.FD_table.OF_node_ptr_array.length = K.OPEN_MAX)
    (hrange : 0 ≤ s.FD_table.next ∧ s.FD_table.next < K.OPEN_MAX)
    (hcopy : env.copyinstr = 0) (hfile : env.kmalloc_file = true) (hvfs : env.vfs_open.1 = 0)
    (hnode : env.kmalloc_node = some node)
    (hfresh : node ∉ node_ids s.open_file_table) :
    ∃ r, sys_open K s flags mode env = some r ∧ r.ret = s.FD_table.next := by
  have hl : s.FD_table.next.toNat < s.FD_table.OF_node_ptr_array.length := by omega
  rcases get_next_fd_spec K s.FD_table hlen (by omega) with ⟨n, hn, _⟩
  have hnotfull : s.FD_table.next ≠ -1 := by omega
  have hfull : is_fd_table_full s.FD_table = false := by
    simp [is_fd_table_full, hnotfull]
  by_cases happ : int_and flags K.O_APPEND = K.O_APPEND
  · refine ⟨_, by
      simp only [sys_open, hcopy, hfull, hn, hvfs, create_open_file, hfile, add_open_file, hnode,
        array_store_eq _ hrange.1 hl, modify_file_append_fresh hfresh, happ]
      simp; rfl, rfl⟩
  · refine ⟨_, by
      simp only [sys_open, hcopy, hfull, hn, hvfs, create_open_file, hfile, add_open_file, hnode,
        array_store_eq _ hrange.1 hl, modify_file_append_fresh hfresh, happ]
      simp; rfl, rfl⟩

/-- C11: the fresh descriptor table.  After `FD_table_create` succeeds (the two
node addresses being fresh and distinct, as the allocator guarantees), slots 1
and 2 point at two distinct nodes whose open files have reference count 1,
offset 0 and flags `O_WRONLY`; slot 0 and every slot from 3 to `OPEN_MAX - 1`
are unbound; the hint `next` is 3.  So every `sys_open` that returns a
descriptor in that state returns 3, and when descriptor 3 exists
(`3 < OPEN_MAX`) a `sys_open` whose path copy-in, allocations and `vfs_open`
succeed does return 3. -/
theorem FD_table_create_fresh (K : kern_consts) (reg : List (Nat × open_file))
    (env : create_env) (r : sys_result Unit)
    (hfresh1 : fresh_node reg env.kmalloc_stdout_node)
    (hfresh2 : fresh_node reg env.kmalloc_stderr_node)
    (hne : env.kmalloc_stdout_node ≠ env.kmalloc_stderr_node)
    (h : FD_table_create K reg env = some r) :
    ∃ node1 node2 f1 f2,
      node1 ≠ node2 ∧
      array_load r.st.FD_table.OF_node_ptr_array 1 = some (some node1) ∧
      array_load r.st.FD_table.OF_node_ptr_array 2 = some (some node2) ∧
      node_file r.st.open_file_table node1 = some f1 ∧
      node_file r.st.open_file_table node2 = some f2 ∧
      f1.reference_count = 1 ∧ f1.offset = 0 ∧ f1.flags = K.O_WRONLY ∧
      f2.reference_count = 1 ∧ f2.offset = 0 ∧ f2.flags = K.O_WRONLY ∧
      array_load r.st.FD_table.OF_node_ptr_array 0 = some none ∧
      (∀ i : Int, 3 ≤ i → i < K.OPEN_MAX →
        array_load r.st.FD_table.OF_node_ptr_array i = some none) ∧
      r.st.FD_table.next = 3 ∧
      (∀ flags mode oenv r', sys_open K r.st flags mode oenv = some r' → r'.ret ≠ -1 →
        r'.ret = 3) ∧
      (3 < K.OPEN_MAX → ∀ flags mode oenv node, oenv.copyinstr = 0 →
        oenv.kmalloc_file = true → oenv.vfs_open.1 = 0 → oenv.kmalloc_node = some node →
        node ∉ node_ids r.st.open_file_table →
        ∃ r', sys_open K r.st flags mode oenv = some r' ∧ r'.ret = 3) := by
  rcases FD_table_create_shape K reg env r hfresh1 hfresh2 hne h
    with ⟨node1, node2, _, _, hne12, hf1, hf2, h2, hst⟩
  have hlen : r.st.FD_table.OF_node_ptr_array.length = K.OPEN_MAX := by
    rw [hst]; simp
  have hnext : r.st.FD_table.next = 3 := by rw [hst]
  have hn1 : node_file (reg ++
      [(node1, ({ vnode := some env.vfs_open_stdout.2, offset := 0, flags := K.O_WRONLY,
                  reference_count := 1 } : open_file))]) node1 = some _ :=
    node_file_append_fresh hf1 _
  have hf2' : node2 ∉ node_ids (reg ++
      [(node1, ({ vnode := some env.vfs_open_stdout.2, offset := 0, flags := K.O_WRONLY,
                  reference_count := 1 } : open_file))]) := by
    simp only [node_ids, List.map_append, List.map_cons, List.map_nil, List.mem_append,
      List.mem_singleton, not_or]
    exact ⟨hf2, fun h => hne12 h.symm⟩
  refine ⟨node1, node2,
    { vnode := some env.vfs_open_stdout.2, offset := 0, flags := K.O_WRONLY,
      reference_count := 1 },
    { vnode := some env.vfs_open_stderr.2, offset := 0, flags := K.O_WRONLY,
      reference_count := 1 },
    hne12, ?_, ?_, ?_, ?_, rfl, rfl, rfl, rfl, rfl, rfl, ?_, ?_, hnext, ?_, ?_⟩
  · rw [hst]
    have h1 : 1 < K.OPEN_MAX := by omega
    simp [array_load, List.getElem?_set, h1]
  · rw [hst]
    simp [array_load, List.getElem?_set, h2]
  · rw [hst]
    have := node_file_append_left
      [(node2, ({ vnode := some env.vfs_open_stderr.2, offset := 0, flags := K.O_WRONLY,
                  reference_count := 1 } : open_file))] hn1
    simpa using this
  · rw [hst]
    have := node_file_append_fresh hf2'
      ({ vnode := some env.vfs_open_stderr.2, offset := 0, flags := K.O_WRONLY,
         reference_count := 1 } : open_file)
    simpa using this
  · rw [hst]
    have h0 : 0 < K.OPEN_MAX := by omega
    simp [array_load, List.getElem?_set, h0]
  · intro i h3 hi
    rw [hst]
    have h0 : 0 ≤ i := by omega
    have hi1 : ¬ 1 = i.toNat := by omega
    have hi2 : ¬ 2 = i.toNat := by omega
    have hi3 : i.toNat < K.OPEN_MAX := by omega
    simp [array_load, List.getElem?_set, h0, hi1, hi2, hi3]
  · intro flags mode oenv r' hopen hret
    rw [sys_open_ret hopen hret, hnext]
  · intro h3 flags mode oenv node hcopy hfile hvfs hnode hfresh
    have := sys_open_total flags mode hlen (by rw [hnext]; omega) hcopy hfile hvfs hnode hfresh
    rw [hnext] at this
    exact this

set_option maxRecDepth 100000 in
/-- Witness for C11 with the OS/161 constants and an empty open-file list:
`FD_table_create` under `boot_env` yields `boot_state`, whose slots 1 and 2
hold the nodes 1000 and 1001 and whose hint is 3. -/
theorem FD_table_create_fresh_witness :
    FD_table_create os161 [] boot_env =
      some { ret := (), errno := none, st := boot_state,
             calls := [vfs_call.vfs_open 1 0, vfs_call.vfs_open 1 0] } ∧
    ∃ node1 node2 : Nat, node1 ≠ node2 ∧
      array_load boot_state.FD_table.OF_node_ptr_array 1 = some (some node1) ∧
      array_load boot_state.FD_table.OF_node_ptr_array 2 = some (some node2) ∧
      boot_state.FD_table.next = 3 :=
  have hc : FD_table_create os161 [] boot_env =
      some { ret := (), errno := none, st := boot_state,
             calls := [vfs_call.vfs_open 1 0, vfs_call.vfs_open 1 0] } := by decide
  ⟨hc,
   match FD_table_create_fresh os161 [] boot_env _
      (by intro a _; simp [node_ids]) (by intro a _; simp [node_ids]) (by decide) hc with
   | ⟨n1, n2, _, _, h1, h2, h3, _, _, _, _, _, _, _, _, _, _, h14, _⟩ =>
     ⟨n1, n2, h1, h2, h3, h14⟩⟩

/-- C12: `get_next_fd` on a table whose hint is `h` with `0 ≤ h < OPEN_MAX`
returns `h` and changes no slot.  The new hint `n` is either an index with
`h < n < OPEN_MAX` whose slot is unbound, and then it is the smallest such
index (every slot strictly between `h` and `n` is bound), or it is the
sentinel `-1`, and then every slot above `h` is bound. -/
theorem get_next_fd_post (K : kern_consts) (T : file_descriptor_table)
    (hlen : T.OF_node_ptr_array.length = K.OPEN_MAX)
    (hh : 0 ≤ T.next ∧ T.next < K.OPEN_MAX) :
    ∃ n, get_next_fd K T =
        some (T.next, { OF_node_ptr_array := T.OF_node_ptr_array, next := n }) ∧
      ((n = -1 ∧
          ∀ i : Int, T.next < i → i < K.OPEN_MAX →
            array_load T.OF_node_ptr_array i ≠ some none) ∨
       (T.next < n ∧ n < K.OPEN_MAX ∧ array_load T.OF_node_ptr_array n = some none ∧
          ∀ i : Int, T.next < i → i < K.OPEN_MAX →
            array_load T.OF_node_ptr_array i = some none → n ≤ i)) := by
  rcases get_next_fd_spec K T hlen (by omega) with ⟨n, hn, hspec⟩
  refine ⟨n, hn, ?_⟩
  rcases hspec with ⟨h1, h2⟩ | ⟨h1, h2, h3, h4⟩
  · left
    refine ⟨h1, ?_⟩
    intro i hi1 hi2 hnone
    rcases h2 i hi1 hi2 with ⟨m, hm⟩
    rw [hm] at hnone
    cases hnone
  · right
    refine ⟨h1, h2, h3, ?_⟩
    intro i hi1 _ hnone
    by_contra hlt
    rcases h4 i hi1 (by omega) with ⟨m, hm⟩
    rw [hm] at hnone
    cases hnone

set_option maxRecDepth 100000 in
/-- Witness for C12 with the OS/161 constants: in the table of `boot_state`
(hint 3) `get_next_fd` returns 3 and the new hint is an unbound index above 3
or the sentinel. -/
theorem get_next_fd_post_witness :
    ∃ n, get_next_fd os161 boot_state.FD_table =
        some (3, { OF_node_ptr_array := boot_state.FD_table.OF_node_ptr_array, next := n }) ∧
      (n = -1 ∨ (3 < n ∧ n < 128)) :=
  match get_next_fd_post os161 boot_state.FD_table (by decide) (by decide) with
  | ⟨n, h1, h2⟩ =>
    ⟨n, h1, h2.elim (fun h => Or.inl h.1) (fun h => Or.inr ⟨h.1, h.2.1⟩)⟩

theorem close_open_file_spec {reg reg1 : List (Nat × open_file)} {m : Nat} {f : open_file}
    {calls : List vfs_call}
    (hf : node_file reg m = some f)
    (hc : close_open_file reg m = some (reg1, calls)) :
    (f.reference_count - 1 = 0 → reg1 = reg.filter (fun e => !(e.1 == m))) ∧
    (f.reference_count - 1 ≠ 0 → reg1 = reg.map (fun e =>
      if e.1 == m then (e.1, { e.2 with reference_count := e.2.reference_count - 1 })
      else e)) := by
  unfold close_open_file at hc
  rw [hf] at hc
  constructor
  · intro hz
    simp only [hz, if_true, Option.some.injEq, Prod.mk.injEq] at hc
    exact hc.1.symm
  · intro hz
    simp only [hz, if_false, Option.some.injEq, Prod.mk.injEq] at hc
    exact hc.1.symm

theorem close_open_file_live {reg reg1 : List (Nat × open_file)} {m : Nat}
    {calls : List vfs_call} (hc : close_open_file reg m = some (reg1, calls)) :
    ∃ f, node_file reg m = some f := by
  unfold close_open_file at hc
  cases hf : node_file reg m with
  | none => rw [hf] at hc; cases hc
  | some f => exact ⟨f, rfl⟩

theorem close_open_file_unlink {reg reg1 : List (Nat × open_file)} {m : Nat} {f : open_file}
    {calls : List vfs_call}
    (hf : node_file reg m = some f)
    (hc : close_open_file reg m = some (reg1, calls)) :
    (m ∉ node_ids reg1 ↔ f.reference_count - 1 = 0) ∧
    (∀ n, n ≠ m → node_file reg1 n = node_file reg n) := by
  have hspec := close_open_file_spec hf hc
  by_cases hz : f.reference_count - 1 = 0
  · rw [hspec.1 hz]
    refine ⟨⟨fun _ => hz, fun _ => ?_⟩, ?_⟩
    · rw [← node_file_eq_none_iff, node_file_filter]
      simp
    · intro n hn
      rw [node_file_filter]
      simp [hn]
  · rw [hspec.2 hz]
    refine ⟨⟨fun h => ?_, fun h => absurd h hz⟩, ?_⟩
    · exfalso
      apply h
      rw [node_ids_map_update reg m
        (fun f => { f with reference_count := f.reference_count - 1 })]
      exact mem_ids_of_node_file hf
    · intro n hn
      rw [node_file_map_update reg m
        (fun f => { f with reference_count := f.reference_count - 1 }) n]
      simp [hn]

theorem close_open_file_registry_ok {reg reg1 : List (Nat × open_file)} {m : Nat}
    {calls : List vfs_call}
    (hnd : (node_ids reg).Nodup)
    (hok : ∀ e ∈ reg, 0 < e.2.reference_count ∧ e.2.vnode ≠ none)
    (hc : close_open_file reg m = some (reg1, calls)) :
    ∀ e ∈ reg1, 0 < e.2.reference_count ∧ e.2.vnode ≠ none := by
  rcases close_open_file_live hc with ⟨f, hf⟩
  have hspec := close_open_file_spec hf hc
  intro e he
  by_cases hz : f.reference_count - 1 = 0
  · rw [hspec.1 hz] at he
    exact hok e (List.mem_filter.mp he).1
  · rw [hspec.2 hz] at he
    rcases List.mem_map.mp he with ⟨e0, he0, hee⟩
    by_cases hem : e0.1 = m
    · have hmem : (m, e0.2) ∈ reg := by rw [← hem]; exact he0
      have h2 := node_file_of_mem hnd hmem
      rw [hf] at h2
      have h3 : f = e0.2 := Option.some.inj h2
      simp only [hem, beq_self_eq_true, if_true] at hee
      rw [← hee]
      have := hok e0 he0
      refine ⟨?_, this.2⟩
      show 0 < e0.2.reference_count - 1
      rw [← h3] at this ⊢
      omega
    · have hem' : (e0.1 == m) = false := by simpa using hem
      simp only [hem', Bool.false_eq_true, if_false] at hee
      rw [← hee]
      exact hok e0 he0

theorem bump_registry_ok {reg : List (Nat × open_file)} (node : Nat)
    (hok : ∀ e ∈ reg, 0 < e.2.reference_count ∧ e.2.vnode ≠ none) :
    ∀ e ∈ reg.map (fun e =>
        if e.1 == node then (e.1, { e.2 with reference_count := e.2.reference_count + 1 })
        else e),
      0 < e.2.reference_count ∧ e.2.vnode ≠ none := by
  intro e he
  rcases List.mem_map.mp he with ⟨e0, he0, hee⟩
  have := hok e0 he0
  by_cases hem : e0.1 = node
  · simp only [hem, beq_self_eq_true, if_true] at hee
    rw [← hee]
    refine ⟨?_, this.2⟩
    show 0 < e0.2.reference_count + 1
    omega
  · have hem' : (e0.1 == node) = false := by simpa using hem
    simp only [hem', Bool.false_eq_true, if_false] at hee
    rw [← hee]
    exact this

theorem sys_close_registry {K : kern_consts} {s : kstate} {fd : Int} {r : sys_result Int}
    (hwf : well_formed K s) (h : sys_close K s fd = some r) :
    r.st.open_file_table = s.open_file_table ∨
    ∃ m calls, close_open_file s.open_file_table m = some (r.st.open_file_table, calls) := by
  have hlen := hwf.1
  rcases validate_fd_spec K s.FD_table fd hlen with ⟨v, hv, hv01, hviff⟩
  rcases hv01 with hv0 | hv1
  · subst hv0
    rcases hviff.mp rfl with ⟨_, _, m, hslot⟩
    rcases array_load_some hslot with ⟨h0, hl, _⟩
    cases hc : close_open_file s.open_file_table m with
    | none =>
      simp [sys_close, hv, close_fd, hslot, hc] at h
    | some rc =>
      obtain ⟨reg1, calls⟩ := rc
      simp [sys_close, hv, close_fd, hslot, hc, array_store_eq none h0 hl] at h
      right
      refine ⟨m, calls, ?_⟩
      rw [← h]
      exact hc
  · subst hv1
    simp [sys_close, hv] at h
    left
    rw [← h]

theorem sys_dup2_registry {K : kern_consts} {s : kstate} {oldfd newfd : Int}
    {r : sys_result Int}
    (hwf : well_formed K s) (h : sys_dup2 K s oldfd newfd = some r) :
    r.st.open_file_table = s.open_file_table ∨
    (∃ node, r.st.open_file_table = s.open_file_table.map (fun e =>
      if e.1 == node then (e.1, { e.2 with reference_count := e.2.reference_count + 1 })
      else e)) ∨
    (∃ node m reg1 calls, close_open_file s.open_file_table m = some (reg1, calls) ∧
      r.st.open_file_table = reg1.map (fun e =>
        if e.1 == node then (e.1, { e.2 with reference_count := e.2.reference_count + 1 })
        else e)) := by
  have hlen := hwf.1
  rcases validate_fd_spec K s.FD_table oldfd hlen with ⟨v, hv, hv01, hviff⟩
  rcases hv01 with hv0 | hv1
  · subst hv0
    rcases hviff.mp rfl with ⟨_, _, node, hold⟩
    rcases well_formed_live hwf hold with ⟨f, hf⟩
    by_cases hr : newfd < 0 ∨ newfd ≥ K.OPEN_MAX
    · simp [sys_dup2, hv, hr] at h
      left; rw [← h]
    · by_cases heq : oldfd = newfd
      · subst heq
        simp [sys_dup2, hv, hr] at h
        left; rw [← h]
      · have h0 : 0 ≤ newfd := by omega
        have hl : newfd.toNat < s.FD_table.OF_node_ptr_array.length := by omega
        rcases array_load_of_lt h0 hl with ⟨p, hp⟩
        cases p with
        | none =>
          rw [sys_dup2_unbound hlen hold hf hp] at h
          right; left
          refine ⟨node, ?_⟩
          rw [← Option.some.inj h]
        | some m =>
          cases hc : close_open_file s.open_file_table m with
          | none =>
            simp [sys_dup2, hv, hr, heq, hp, close_fd, hc] at h
          | some rc =>
            obtain ⟨reg1, calls⟩ := rc
            have hwf1 := well_formed_close hwf hp hc
            rcases get_next_fd_spec K
              { OF_node_ptr_array := s.FD_table.OF_node_ptr_array.set newfd.toNat none,
                next := newfd }
              hwf1.1 (show (-1 : Int) ≤ newfd by omega) with ⟨n, hn, hnspec⟩
            have hnr : n = -1 ∨ (0 ≤ n ∧ n < K.OPEN_MAX) := by
              rcases hnspec with ⟨h1, _⟩ | ⟨h1, h2, _⟩
              · exact Or.inl h1
              · exact Or.inr ⟨by
                  have : newfd < n := h1
                  omega, h2⟩
            have hwf2 := well_formed_hint hwf1 hnr
            have hold1 : array_load (s.FD_table.OF_node_ptr_array.set newfd.toNat none) oldfd
                = some (some node) := by
              rw [array_load_set_ne _ h0 heq]; exact hold
            have hl1 : newfd.toNat
                < (s.FD_table.OF_node_ptr_array.set newfd.toNat none).length := by
              rw [List.length_set]; exact hl
            have hstore := @array_store_eq (s.FD_table.OF_node_ptr_array.set newfd.toNat none)
              newfd (some node) h0 hl1
            have hslot3 := @array_load_set_self
              (s.FD_table.OF_node_ptr_array.set newfd.toNat none) newfd (some node) h0 hl1
            rcases well_formed_live hwf2 hold1 with ⟨f', hf'⟩
            simp only [sys_dup2, hv, hp, close_fd, hc, array_store_eq none h0 hl, hn, hold1,
              hstore, get_open_file, hslot3, hf', modify_file_eq _ hf'] at h
            simp only [hr, heq, or_self, if_false, ne_eq, not_true_eq_false,
              Option.some.injEq] at h
            right; right
            refine ⟨node, m, reg1, calls, hc, ?_⟩
            rw [← h]
  · subst hv1
    simp [sys_dup2, hv] at h
    left; rw [← h]

theorem sys_open_registry {K : kern_consts} {s : kstate} {flags mode : Int} {env : open_env}
    {r : sys_result Int}
    (hwf : well_formed K s) (hfresh : fresh_node s.open_file_table env.kmalloc_node)
    (h : sys_open K s flags mode env = some r) :
    r.st.open_file_table = s.open_file_table ∨
    ∃ node f, node ∉ node_ids s.open_file_table ∧ f.reference_count = 1 ∧ f.vnode ≠ none ∧
      r.st.open_file_table = s.open_file_table ++ [(node, f)] := by
  by_cases hcopy : env.copyinstr = 0
  swap
  · simp [sys_open, hcopy] at h
    left; rw [← h]
  by_cases hfull : s.FD_table.next = -1
  · simp [sys_open, hcopy, is_fd_table_full, hfull] at h
    left; rw [← h]
  have hfull' : is_fd_table_full s.FD_table = false := by
    simp [is_fd_table_full, hfull]
  have hrange : 0 ≤ s.FD_table.next ∧ s.FD_table.next < K.OPEN_MAX := by
    rcases hwf.2.1 with h1 | h1
    · exact absurd h1 hfull
    · exact h1
  have hl : s.FD_table.next.toNat < s.FD_table.OF_node_ptr_array.length := by
    have := hwf.1
    omega
  rcases get_next_fd_spec K s.FD_table hwf.1 (by omega) with ⟨n, hn, _⟩
  by_cases hvfs : env.vfs_open.1 = 0
  swap
  · simp [sys_open, hcopy, hfull', hn, hvfs] at h
    left; rw [← h]
  cases hfile : env.kmalloc_file with
  | false => simp [sys_open, hcopy, hfull', hn, hvfs, create_open_file, hfile] at h
  | true =>
    cases hnode : env.kmalloc_node with
    | none =>
      simp [sys_open, hcopy, hfull', hn, hvfs, create_open_file, hfile, add_open_file, hnode] at h
      left; rw [← h]
    | some node =>
      have hfr : node ∉ node_ids s.open_file_table := hfresh node hnode
      right
      by_cases happ : int_and flags K.O_APPEND = K.O_APPEND
      · simp only [sys_open, hcopy, hfull', hn, hvfs, create_open_file, hfile, add_open_file,
          hnode, array_store_eq _ hrange.1 hl, modify_file_append_fresh hfr, happ] at h
        simp at h
        refine ⟨node, _, hfr, ?_, ?_, by rw [← h]⟩
        · rfl
        · simp
      · simp only [sys_open, hcopy, hfull', hn, hvfs, create_open_file, hfile, add_open_file,
          hnode, array_store_eq _ hrange.1 hl, modify_file_append_fresh hfr, happ] at h
        simp at h
        refine ⟨node, _, hfr, ?_, ?_, by rw [← h]⟩
        · rfl
        · simp

theorem reachable_registry_ok {K : kern_consts} (h4 : 3 < K.OPEN_MAX) {s : kstate}
    (h : reachable K s) : registry_ok s := by
  induction h with
  | create a b reg env r hreg hne hcreate =>
    have hnil : reg = [] := by
      unfold open_file_table_create at hreg
      split at hreg
      · exact (Option.some.inj hreg).symm
      · cases hreg
    rw [hnil] at hcreate
    rcases FD_table_create_spec K env r hne hcreate with ⟨node1, node2, _, _, _, _, hst⟩
    rw [hst]
    intro e he
    simp only [List.mem_cons, List.mem_singleton, List.not_mem_nil, or_false] at he
    rcases he with he | he <;> rw [he] <;> simp
  | step_open s flags mode env r hprev hfresh hopen ih =>
    rcases sys_open_registry (reachable_well_formed h4 hprev) hfresh hopen with h1 | h1
    · unfold registry_ok
      rw [h1]; exact ih
    · rcases h1 with ⟨node, f, _, hcnt, hv, hreg⟩
      unfold registry_ok
      rw [hreg]
      intro e he
      rcases List.mem_append.mp he with he | he
      · exact ih e he
      · rw [List.mem_singleton] at he
        rw [he]
        exact ⟨by show 0 < f.reference_count; omega, hv⟩
  | step_close s fd r hprev hclose ih =>
    have hwf := reachable_well_formed h4 hprev
    rcases sys_close_registry hwf hclose with h1 | ⟨m, calls, hc⟩
    · unfold registry_ok
      rw [h1]; exact ih
    · exact close_open_file_registry_ok hwf.2.2.1 ih hc
  | step_dup2 s oldfd newfd r hprev hdup ih =>
    have hwf := reachable_well_formed h4 hprev
    rcases sys_dup2_registry hwf hdup with h1 | ⟨node, h1⟩ | ⟨node, m, reg1, calls, hc, h1⟩
    · unfold registry_ok
      rw [h1]; exact ih
    · unfold registry_ok
      rw [h1]
      exact bump_registry_ok node ih
    · unfold registry_ok
      rw [h1]
      exact bump_registry_ok node (close_open_file_registry_ok hwf.2.2.1 ih hc)

theorem close_open_file_leaves {reg reg1 : List (Nat × open_file)} {m : Nat}
    {calls : List vfs_call} (hc : close_open_file reg m = some (reg1, calls))
    {node : Nat} {f : open_file} (hnf : node_file reg node = some f)
    (hout : node ∉ node_ids reg1) : f.reference_count - 1 = 0 := by
  rcases close_open_file_live hc with ⟨fm, hfm⟩
  have hu := close_open_file_unlink hfm hc
  by_cases hnm : node = m
  · subst hnm
    rw [hnf] at hfm
    rw [Option.some.inj hfm]
    exact hu.1.mp hout
  · exfalso
    apply hout
    have := hu.2 node hnm
    rw [hnf] at this
    exact mem_ids_of_node_file this

end FileSyscalls

/-! # Lemmas and claims of the virtual memory -/

namespace VirtualMemory

/-! ## Indices of the page table -/

theorem and_mask_shift (a k n : Nat) :
    (a &&& ((2 ^ n - 1) <<< k)) >>> k = (a >>> k) % 2 ^ n := by
  apply Nat.eq_of_testBit_eq
  intro i
  simp only [Nat.testBit_shiftRight, Nat.testBit_and, Nat.testBit_shiftLeft,
    Nat.testBit_two_pow_sub_one, Nat.testBit_mod_two_pow]
  have h1 : k + i ≥ k := by omega
  have h2 : k + i - k = i := by omega
  simp [h1, h2, Bool.and_comm]

theorem lookup_index_one (a : Nat) : a >>> 24 = a / 16777216 := by
  rw [Nat.shiftRight_eq_div_pow]

theorem lookup_index_two (a : Nat) :
    shl32 a 8 >>> 26 = a / 262144 % 64 := by
  unfold shl32
  rw [Nat.shiftLeft_eq, Nat.shiftRight_eq_div_pow]
  omega

theorem lookup_index_three (a : Nat) :
    shl32 a 14 >>> 26 = a / 4096 % 64 := by
  unfold shl32
  rw [Nat.shiftLeft_eq, Nat.shiftRight_eq_div_pow]
  omega

theorem insert_index_one {a : Nat} (h : a < 4294967296) :
    (a &&& 4278190080) >>> 24 = a / 16777216 := by
  have h1 := and_mask_shift a 24 8
  have h2 : (2 ^ 8 - 1) <<< 24 = 4278190080 := by decide
  rw [h2] at h1
  rw [h1, Nat.shiftRight_eq_div_pow]
  omega

theorem insert_index_two (a : Nat) :
    (a &&& 16515072) >>> 18 = a / 262144 % 64 := by
  have h1 := and_mask_shift a 18 6
  have h2 : (2 ^ 6 - 1) <<< 18 = 16515072 := by decide
  rw [h2] at h1
  rw [h1, Nat.shiftRight_eq_div_pow]
  norm_num

theorem insert_index_three (a : Nat) :
    (a &&& 258048) >>> 12 = a / 4096 % 64 := by
  have h1 := and_mask_shift a 12 6
  have h2 : (2 ^ 6 - 1) <<< 12 = 258048 := by decide
  rw [h2] at h1
  rw [h1, Nat.shiftRight_eq_div_pow]
  norm_num

theorem page_table_lookup_eq_walk (as : addrspace) (a : Nat) :
    page_table_lookup as a =
      page_table_walk as (a / 16777216) (a / 262144 % 64) (a / 4096 % 64) := by
  unfold page_table_lookup
  rw [lookup_index_one, lookup_index_two, lookup_index_three]

theorem insert_eq_store (K : vm_consts) (hK : split_8_6_6 K) (as : addrspace) (e : Nat)
    {a : Nat} (h : a < 4294967296) (k2 k3 : Bool) :
    insert_into_page_table K as e a k2 k3 =
      page_table_store K.ENOMEM as e (a / 16777216) (a / 262144 % 64) (a / 4096 % 64) k2 k3 := by
  rcases hK with ⟨h1, h2, h3, h4, h5, h6⟩
  unfold insert_into_page_table
  rw [h1, h2, h3, h4, h5, h6, insert_index_one h, insert_index_two, insert_index_three]

/-! ## Store and walk -/

/-- Inversion of `page_table_store`: the three ways it can return. -/
theorem page_table_store_inv (X : Int) (as : addrspace) (e i j k : Nat) (k2 k3 : Bool)
    (r : Int) (as1 : addrspace) (h : page_table_store X as e i j k k2 k3 = some (r, as1)) :
    ∃ pt l2p, as.page_table = some pt ∧ pt[i]? = some l2p ∧
      ((l2p = none ∧ k2 = false ∧ r = X ∧ as1 = as) ∨
       ∃ l2, (l2p = some l2 ∨
              (l2p = none ∧ k2 = true ∧ l2 = List.replicate VADDR_LEVEL_TWO_SIZE none)) ∧
         ∃ l3p, l2[j]? = some l3p ∧
           ((l3p = none ∧ k3 = false ∧ r = X ∧
               as1 = { as with page_table := some (pt.set i (some l2)) }) ∨
            ∃ l3, (l3p = some l3 ∨
                   (l3p = none ∧ k3 = true ∧ l3 = List.replicate VADDR_LEVEL_THREE_SIZE 0)) ∧
              k < l3.length ∧ r = 0 ∧
              as1 = { as with page_table := some (pt.set i (some (l2.set j (some (l3.set k e))))) })) := by
  unfold page_table_store at h
  cases hpt : as.page_table with
  | none => simp [hpt] at h
  | some pt =>
    simp only [hpt] at h
    cases h1 : pt[i]? with
    | none => simp [h1] at h
    | some l2p =>
      simp only [h1] at h
      refine ⟨pt, l2p, rfl, h1, ?_⟩
      have key : ∀ l2 : List (Option (List Nat)),
          (match l2[j]? with
            | none => none
            | some l3_ptr =>
              match (match l3_ptr with
                | some l3 => some l3
                | none =>
                  if k3 = true then some (List.replicate VADDR_LEVEL_THREE_SIZE 0)
                  else none) with
              | none => some (X, { as with page_table := some (pt.set i (some l2)) })
              | some l3 =>
                if k < l3.length then
                  some (0, { as with page_table := some (pt.set i (some (l2.set j (some (l3.set k e))))) })
                else none) = some (r, as1) →
          ∃ l3p, l2[j]? = some l3p ∧
           ((l3p = none ∧ k3 = false ∧ r = X ∧
               as1 = { as with page_table := some (pt.set i (some l2)) }) ∨
            ∃ l3, (l3p = some l3 ∨
                   (l3p = none ∧ k3 = true ∧ l3 = List.replicate VADDR_LEVEL_THREE_SIZE 0)) ∧
              k < l3.length ∧ r = 0 ∧
              as1 = { as with page_table := some (pt.set i (some (l2.set j (some (l3.set k e))))) }) := by
        intro l2 h
        cases h2 : l2[j]? with
        | none => simp [h2] at h
        | some l3p =>
          simp only [h2] at h
          refine ⟨l3p, rfl, ?_⟩
          cases l3p with
          | none =>
            cases k3 with
            | false =>
              simp at h
              obtain ⟨rfl, rfl⟩ := h
              left
              simp
            | true =>
              simp only [if_true] at h
              split at h
              · rename_i hk
                simp at h
                obtain ⟨rfl, rfl⟩ := h
                right
                exact ⟨_, Or.inr ⟨rfl, rfl, rfl⟩, hk, rfl, rfl⟩
              · simp at h
          | some l3 =>
            simp only at h
            split at h
            · rename_i hk
              simp at h
              obtain ⟨rfl, rfl⟩ := h
              right
              exact ⟨_, Or.inl rfl, hk, rfl, rfl⟩
            · simp at h
      cases l2p with
      | none =>
        cases k2 with
        | false =>
          simp at h
          obtain ⟨rfl, rfl⟩ := h
          left
          simp
        | true =>
          simp only [if_true] at h
          right
          exact ⟨_, Or.inr ⟨rfl, rfl, rfl⟩, key _ h⟩
      | some l2 =>
        simp only at h
        right
        exact ⟨_, Or.inl rfl, key _ h⟩

theorem page_table_store_frame (X : Int) (as : addrspace) (e i j k : Nat) (k2 k3 : Bool)
    (r : Int) (as1 : addrspace) (h : page_table_store X as e i j k k2 k3 = some (r, as1)) :
    as1.as_regions_head = as.as_regions_head ∧ as1.loading_flag = as.loading_flag ∧
      (r = 0 ∨ r = X) := by
  obtain ⟨pt, l2p, hpt, h1, h⟩ := page_table_store_inv X as e i j k k2 k3 r as1 h
  rcases h with ⟨_, _, rfl, rfl⟩ | ⟨l2, _, l3p, _, h⟩
  · simp
  · rcases h with ⟨_, _, rfl, rfl⟩ | ⟨l3, _, _, rfl, rfl⟩ <;> simp

theorem lt_length_of_getElem? {α : Type} {l : List α} {i : Nat} {x : α}
    (h : l[i]? = some x) : i < l.length := by
  rcases Nat.lt_or_ge i l.length with hlt | hge
  · exact hlt
  · rw [List.getElem?_eq_none hge] at h
    cases h

theorem page_table_store_walk_same (X : Int) (as : addrspace) (e i j k : Nat) (k2 k3 : Bool)
    (as1 : addrspace) (hX : X ≠ 0)
    (h : page_table_store X as e i j k k2 k3 = some (0, as1)) :
    page_table_walk as1 i j k = some e := by
  obtain ⟨pt, l2p, hpt, h1, h⟩ := page_table_store_inv X as e i j k k2 k3 0 as1 h
  have hi := lt_length_of_getElem? h1
  rcases h with ⟨_, _, hr, _⟩ | ⟨l2, _, l3p, h2, h⟩
  · exact absurd hr.symm hX
  · have hj := lt_length_of_getElem? h2
    rcases h with ⟨_, _, hr, _⟩ | ⟨l3, _, hk, _, rfl⟩
    · exact absurd hr.symm hX
    · simp only [page_table_walk, List.getElem?_set, hi, hj, hk, if_true]
      split
      · rename_i he
        rw [he]
      · rfl

theorem page_table_store_walk_other (X : Int) (as : addrspace) (e i j k : Nat) (k2 k3 : Bool)
    (r : Int) (as1 : addrspace) (h : page_table_store X as e i j k k2 k3 = some (r, as1))
    (i1 j1 k1 : Nat) (hj1 : j1 < 64) (hk1 : k1 < 64) (hne : ¬ (i1 = i ∧ j1 = j ∧ k1 = k)) :
    page_table_walk as1 i1 j1 k1 = page_table_walk as i1 j1 k1 := by
  obtain ⟨pt, l2p, hpt, h1, h⟩ := page_table_store_inv X as e i j k k2 k3 r as1 h
  have hi := lt_length_of_getElem? h1
  have hrep2 : (List.replicate VADDR_LEVEL_TWO_SIZE (none : Option (List Nat)))[j1]?
      = some none := by
    rw [List.getElem?_replicate, if_pos]
    exact hj1
  have hrep3 : (List.replicate VADDR_LEVEL_THREE_SIZE (0 : Nat))[k1]? = some 0 := by
    rw [List.getElem?_replicate, if_pos]
    exact hk1
  rcases h with ⟨_, _, _, rfl⟩ | ⟨l2, hl2, l3p, h2, h⟩
  · rfl
  · have hj := lt_length_of_getElem? h2
    by_cases hi1 : i1 = i
    · subst hi1
      rcases h with ⟨_, _, _, rfl⟩ | ⟨l3, hl3, hk, _, rfl⟩
      · rcases hl2 with rfl | ⟨rfl, _, rfl⟩
        · simp [page_table_walk, hpt, List.getElem?_set, hi, h1]
        · simp [page_table_walk, hpt, List.getElem?_set, hi, h1, hrep2]
      · by_cases hj1e : j1 = j
        · subst hj1e
          have hk1e : k1 ≠ k := fun hh => hne ⟨rfl, rfl, hh⟩
          have hk1e2 : ¬ k = k1 := fun hh => hk1e hh.symm
          rcases hl2 with rfl | ⟨rfl, _, rfl⟩
          · rcases hl3 with rfl | ⟨rfl, _, rfl⟩
            · simp [page_table_walk, hpt, List.getElem?_set, hi, h1, hj, h2, hk1e2]
            · simp [page_table_walk, hpt, List.getElem?_set, hi, h1, hj, h2, hk1e2, hrep3]
          · rcases hl3 with rfl | ⟨rfl, _, rfl⟩
            · simp [hrep2] at h2
            · have hj1s : j1 < VADDR_LEVEL_TWO_SIZE := hj1
              simp [page_table_walk, hpt, List.getElem?_set, hi, h1, hj1s, hk1e2, hrep3]
        · have hj1e2 : ¬ j = j1 := fun hh => hj1e hh.symm
          rcases hl2 with rfl | ⟨rfl, _, rfl⟩
          · simp [page_table_walk, hpt, List.getElem?_set, hi, h1, hj1e2]
          · simp [page_table_walk, hpt, List.getElem?_set, hi, h1, hj1e2, hrep2]
    · have hi2 : ¬ i = i1 := fun hh => hi1 hh.symm
      rcases h with ⟨_, _, _, rfl⟩ | ⟨l3, hl3, hk, _, rfl⟩
      · simp [page_table_walk, hpt, List.getElem?_set, hi2]
      · simp [page_table_walk, hpt, List.getElem?_set, hi2]

theorem page_table_store_fail_walk (X : Int) (as : addrspace) (e i j k : Nat) (k2 k3 : Bool)
    (r : Int) (as1 : addrspace) (h : page_table_store X as e i j k k2 k3 = some (r, as1))
    (hr : r ≠ 0) (i1 j1 k1 : Nat) (hj1 : j1 < 64) :
    page_table_walk as1 i1 j1 k1 = page_table_walk as i1 j1 k1 := by
  obtain ⟨pt, l2p, hpt, h1, h⟩ := page_table_store_inv X as e i j k k2 k3 r as1 h
  have hi := lt_length_of_getElem? h1
  have hrep2 : (List.replicate VADDR_LEVEL_TWO_SIZE (none : Option (List Nat)))[j1]?
      = some none := by
    rw [List.getElem?_replicate, if_pos]
    exact hj1
  rcases h with ⟨_, _, _, rfl⟩ | ⟨l2, hl2, l3p, h2, h⟩
  · rfl
  · rcases h with ⟨_, _, _, rfl⟩ | ⟨l3, hl3, hk, hr0, _⟩
    · by_cases hi1 : i1 = i
      · subst hi1
        rcases hl2 with rfl | ⟨rfl, _, rfl⟩
        · simp [page_table_walk, hpt, List.getElem?_set, hi, h1]
        · simp [page_table_walk, hpt, List.getElem?_set, hi, h1, hrep2]
      · have hi2 : ¬ i = i1 := fun hh => hi1 hh.symm
        simp [page_table_walk, hpt, List.getElem?_set, hi2]
    · exact absurd hr0 hr

/-! ## The paths of `vm_fault` -/

theorem addr_to_region_walk_none (l : List as_region) (a : Nat) :
    addr_to_region_walk l a = none ↔ ∀ rg ∈ l, ¬ (rg.vbase ≤ a ∧ a < rg.vtop) := by
  induction l with
  | nil => simp [addr_to_region_walk]
  | cons x xs ih =>
    simp only [addr_to_region_walk, List.mem_cons, forall_eq_or_imp]
    split
    · rename_i hx
      simp [hx]
    · rename_i hx
      rw [ih]
      simp [hx]

theorem addr_to_region_walk_some (l : List as_region) (a : Nat) (rg : as_region)
    (h : addr_to_region_walk l a = some rg) : rg ∈ l ∧ rg.vbase ≤ a ∧ a < rg.vtop := by
  induction l with
  | nil => simp [addr_to_region_walk] at h
  | cons x xs ih =>
    simp only [addr_to_region_walk] at h
    split at h
    · rename_i hx
      cases h
      exact ⟨List.mem_cons_self _ _, hx⟩
    · have := ih h
      exact ⟨List.mem_cons_of_mem _ this.1, this.2⟩

theorem vm_fault_valid (K : vm_consts) (a : addrspace) (m : phys_mem) (ft : Int)
    (addr : Nat) (env : fault_env) (pte : Nat)
    (hft : ft = K.VM_FAULT_READ ∨ ft = K.VM_FAULT_WRITE) (hro : ft ≠ K.VM_FAULT_READONLY)
    (hl : page_table_lookup a addr = some pte) (hv : pte &&& K.TLBLO_VALID ≠ 0) :
    vm_fault K true (some a) m ft addr env =
      if ft = K.VM_FAULT_WRITE ∧ pte &&& K.TLBLO_DIRTY = 0 ∧ a.loading_flag = 0 then
        some { ret := K.EFAULT, as := some a, mem := m, tlb := [] }
      else
        some { ret := 0, as := some a, mem := m,
               tlb := [load_into_tlb K addr (pte ||| a.loading_flag)] } := by
  unfold vm_fault
  simp only [hro, if_false, hft, not_true_eq_false, Bool.not_true, Bool.false_eq_true, hl, hv,
    ne_eq, not_false_eq_true, if_true]

theorem vm_fault_no_region (K : vm_consts) (a : addrspace) (m : phys_mem) (ft : Int)
    (addr : Nat) (env : fault_env) (pte : Nat)
    (hft : ft = K.VM_FAULT_READ ∨ ft = K.VM_FAULT_WRITE) (hro : ft ≠ K.VM_FAULT_READONLY)
    (hl : page_table_lookup a addr = some pte) (hv : pte &&& K.TLBLO_VALID = 0)
    (hrg : addr_to_region a addr = none) :
    vm_fault K true (some a) m ft addr env =
      some { ret := K.EFAULT, as := some a, mem := m, tlb := [] } := by
  unfold vm_fault
  simp only [hro, if_false, hft, not_true_eq_false, Bool.not_true, Bool.false_eq_true, hl, hv,
    ne_eq, not_false_eq_true, if_true, hrg]

theorem vm_fault_first_touch (K : vm_consts) (a : addrspace) (m : phys_mem) (ft : Int)
    (addr : Nat) (env : fault_env) (pte : Nat) (rg : as_region)
    (hft : ft = K.VM_FAULT_READ ∨ ft = K.VM_FAULT_WRITE) (hro : ft ≠ K.VM_FAULT_READONLY)
    (hl : page_table_lookup a addr = some pte) (hv : pte &&& K.TLBLO_VALID = 0)
    (hrg : addr_to_region a addr = some rg)
    (hw : ¬ (ft = K.VM_FAULT_WRITE ∧ rg.writeable = 0 ∧ a.loading_flag = 0))
    (hpage : env.alloc_kpages ≠ 0) :
    vm_fault K true (some a) m ft addr env =
      match insert_into_page_table K a (init_pte K rg (K.KVADDR_TO_PADDR env.alloc_kpages))
          addr env.kmalloc_level_two env.kmalloc_level_three with
      | none => none
      | some (ret, a1) =>
        if ret ≠ 0 then
          some { ret := ret, as := some a1,
                 mem := free_kpages env.alloc_kpages
                   { bytes := bzero env.alloc_kpages 4096 m.bytes,
                     held := env.alloc_kpages :: m.held },
                 tlb := [] }
        else
          some { ret := 0, as := some a1,
                 mem := { bytes := bzero env.alloc_kpages 4096 m.bytes,
                          held := env.alloc_kpages :: m.held },
                 tlb := [load_into_tlb K addr
                   (init_pte K rg (K.KVADDR_TO_PADDR env.alloc_kpages) ||| a1.loading_flag)] } := by
  unfold vm_fault
  simp only [hro, if_false, hft, not_true_eq_false, Bool.not_true, Bool.false_eq_true, hl, hv,
    ne_eq, not_false_eq_true, if_true, hrg, hw, hpage]

theorem page_table_store_defined (X : Int) (as : addrspace) (e i j k : Nat) (k2 k3 : Bool)
    (hpt : as.page_table ≠ none) (v : Nat) (hw : page_table_walk as i j k = some v)
    (hj : j < 64) (hk : k < 64) :
    ∃ r as1, page_table_store X as e i j k k2 k3 = some (r, as1) ∧
      (k2 = true → k3 = true → r = 0) := by
  have hrep2 : (List.replicate VADDR_LEVEL_TWO_SIZE (none : Option (List Nat)))[j]?
      = some none := by
    rw [List.getElem?_replicate, if_pos]
    exact hj
  have hk3 : k < (List.replicate VADDR_LEVEL_THREE_SIZE 0).length := by
    rw [List.length_replicate]
    exact hk
  unfold page_table_walk at hw
  unfold page_table_store
  cases hp : as.page_table with
  | none => exact absurd hp hpt
  | some pt =>
    simp only [hp] at hw ⊢
    cases h1 : pt[i]? with
    | none => simp [h1] at hw
    | some l2p =>
      simp only [h1] at hw ⊢
      cases l2p with
      | none =>
        cases k2 with
        | false => exact ⟨_, _, rfl, fun hh => absurd hh (by decide)⟩
        | true =>
          simp only [if_true, hrep2]
          cases k3 with
          | false => exact ⟨_, _, rfl, fun _ hh => absurd hh (by decide)⟩
          | true =>
            simp only [if_true, hk3]
            exact ⟨_, _, rfl, fun _ _ => rfl⟩
      | some l2 =>
        simp only at hw ⊢
        cases h2 : l2[j]? with
        | none => simp [h2] at hw
        | some l3p =>
          simp only [h2] at hw ⊢
          cases l3p with
          | none =>
            cases k3 with
            | false => exact ⟨_, _, rfl, fun _ hh => absurd hh (by decide)⟩
            | true =>
              simp only [if_true, hk3]
              exact ⟨_, _, rfl, fun _ _ => rfl⟩
          | some l3 =>
            simp only at hw ⊢
            cases h3 : l3[k]? with
            | none => simp [h3] at hw
            | some x =>
              have hk4 := lt_length_of_getElem? h3
              simp only [hk4, if_true]
              exact ⟨_, _, rfl, fun _ _ => rfl⟩

theorem insert_defined (K : vm_consts) (hK : split_8_6_6 K) (as : addrspace) (e : Nat)
    {a : Nat} (ha : a < 4294967296) (k2 k3 : Bool)
    (hpt : as.page_table ≠ none) (v : Nat) (hw : page_table_lookup as a = some v) :
    ∃ r as1, insert_into_page_table K as e a k2 k3 = some (r, as1) ∧
      (k2 = true → k3 = true → r = 0) := by
  rw [insert_eq_store K hK as e ha]
  rw [page_table_lookup_eq_walk] at hw
  apply page_table_store_defined K.ENOMEM as e _ _ _ k2 k3 hpt v hw
  · omega
  · omega

theorem insert_lookup_same (K : vm_consts) (hK : split_8_6_6 K) (hE : K.ENOMEM ≠ 0)
    (as as1 : addrspace) (e : Nat) {a : Nat} (ha : a < 4294967296) (k2 k3 : Bool)
    (h : insert_into_page_table K as e a k2 k3 = some (0, as1)) :
    page_table_lookup as1 a = some e := by
  rw [insert_eq_store K hK as e ha] at h
  rw [page_table_lookup_eq_walk]
  exact page_table_store_walk_same K.ENOMEM as e _ _ _ k2 k3 as1 hE h

theorem insert_frame (K : vm_consts) (as : addrspace) (e a : Nat) (k2 k3 : Bool)
    (r : Int) (as1 : addrspace) (h : insert_into_page_table K as e a k2 k3 = some (r, as1)) :
    as1.as_regions_head = as.as_regions_head ∧ as1.loading_flag = as.loading_flag ∧
      (r = 0 ∨ r = K.ENOMEM) := by
  unfold insert_into_page_table at h
  exact page_table_store_frame K.ENOMEM as e _ _ _ k2 k3 r as1 h

/-! ## Bits of an entry -/

theorem or_and_self_right (x v : Nat) : (x ||| v) &&& v = v := by
  apply Nat.eq_of_testBit_eq
  intro i
  simp only [Nat.testBit_and, Nat.testBit_or]
  cases x.testBit i <;> cases v.testBit i <;> rfl

theorem and_and_eq_zero (p P D : Nat) (h : P &&& D = 0) : (p &&& P) &&& D = 0 := by
  rw [Nat.and_assoc, h, Nat.and_zero]

theorem or_and_eq_zero (x y D : Nat) (hx : x &&& D = 0) (hy : y &&& D = 0) :
    (x ||| y) &&& D = 0 := by
  rw [Nat.and_comm, Nat.and_or_distrib_left, Nat.and_comm D x, Nat.and_comm D y, hx, hy]
  rfl

theorem or_and_of_left_zero (x v D : Nat) (hx : x &&& D = 0) : (x ||| v) &&& D = v &&& D := by
  rw [Nat.and_comm, Nat.and_or_distrib_left, Nat.and_comm D x, Nat.and_comm D v, hx,
    Nat.zero_or]

theorem init_pte_dirty (K : vm_consts) (hT : tlb_bits K) (rg : as_region) (p : Nat)
    (hw : rg.writeable = 0) : init_pte K rg p &&& K.TLBLO_DIRTY = 0 := by
  rcases hT with ⟨_, _, _, hpd, hvd⟩
  unfold init_pte
  simp only [hw, ne_eq, not_true_eq_false, if_false, or_false]
  split
  · exact or_and_eq_zero _ _ _ (and_and_eq_zero _ _ _ hpd) hvd
  · exact and_and_eq_zero _ _ _ hpd

theorem init_pte_valid (K : vm_consts) (hT : tlb_bits K) (rg : as_region) (p : Nat) :
    (rg.readable ≠ 0 ∨ rg.writeable ≠ 0 ∨ rg.executable ≠ 0 →
      init_pte K rg p &&& K.TLBLO_VALID = K.TLBLO_VALID) ∧
    (¬ (rg.readable ≠ 0 ∨ rg.writeable ≠ 0 ∨ rg.executable ≠ 0) →
      init_pte K rg p &&& K.TLBLO_VALID = 0) := by
  rcases hT with ⟨_, _, hpv, _, _⟩
  unfold init_pte
  constructor
  · intro h
    rw [if_pos h]
    exact or_and_self_right _ _
  · intro h
    rw [if_neg h]
    have hw : ¬ rg.writeable ≠ 0 := fun hh => h (Or.inr (Or.inl hh))
    rw [if_neg hw]
    exact and_and_eq_zero _ _ _ hpv

theorem vm_fault_first_touch_inv (K : vm_consts) (hC : codes_ok K) (a : addrspace)
    (m : phys_mem) (ft : Int) (addr : Nat) (env : fault_env) (pte : Nat) (rg : as_region)
    (res : fault_result)
    (hft : ft = K.VM_FAULT_READ ∨ ft = K.VM_FAULT_WRITE)
    (hl : page_table_lookup a addr = some pte) (hv : pte &&& K.TLBLO_VALID = 0)
    (hrg : addr_to_region a addr = some rg)
    (hres : vm_fault K true (some a) m ft addr env = some res) (hret : res.ret = 0) :
    ¬ (ft = K.VM_FAULT_WRITE ∧ rg.writeable = 0 ∧ a.loading_flag = 0) ∧
    env.alloc_kpages ≠ 0 ∧
    ∃ a1, insert_into_page_table K a (init_pte K rg (K.KVADDR_TO_PADDR env.alloc_kpages))
        addr env.kmalloc_level_two env.kmalloc_level_three = some (0, a1) ∧
      res.as = some a1 ∧
      res.mem.held = env.alloc_kpages :: m.held ∧
      res.mem.bytes = bzero env.alloc_kpages 4096 m.bytes ∧
      res.tlb = [load_into_tlb K addr
        (init_pte K rg (K.KVADDR_TO_PADDR env.alloc_kpages) ||| a1.loading_flag)] := by
  rcases hC with ⟨c1, c2, _, c4, _, c6⟩
  have hro : ft ≠ K.VM_FAULT_READONLY := by
    rcases hft with rfl | rfl
    · exact c1
    · exact c2
  by_cases hw : ft = K.VM_FAULT_WRITE ∧ rg.writeable = 0 ∧ a.loading_flag = 0
  · exfalso
    unfold vm_fault at hres
    obtain ⟨rfl, hw2, hw3⟩ := hw
    simp only [c2, if_false, or_true, not_true_eq_false, Bool.not_true, Bool.false_eq_true, hl,
      hv, ne_eq, not_false_eq_true, if_true, hrg, hw2, hw3, and_self,
      Option.some.injEq] at hres
    rw [← hres] at hret
    exact c4 hret
  · by_cases hpage : env.alloc_kpages = 0
    · exfalso
      unfold vm_fault at hres
      simp only [hro, if_false, hft, not_true_eq_false, Bool.not_true, Bool.false_eq_true, hl,
        hv, ne_eq, not_false_eq_true, if_true, hrg, hw, hpage, Option.some.injEq] at hres
      rw [← hres] at hret
      exact c6 hret
    · refine ⟨hw, hpage, ?_⟩
      rw [vm_fault_first_touch K a m ft addr env pte rg hft hro hl hv hrg hw hpage] at hres
      cases hins : insert_into_page_table K a
          (init_pte K rg (K.KVADDR_TO_PADDR env.alloc_kpages)) addr
          env.kmalloc_level_two env.kmalloc_level_three with
      | none =>
        rw [hins] at hres
        cases hres
      | some p =>
        obtain ⟨r, a1⟩ := p
        rw [hins] at hres
        simp only at hres
        by_cases hr : r = 0
        · subst hr
          simp only [ne_eq, not_true_eq_false, if_false, Option.some.injEq] at hres
          refine ⟨a1, rfl, ?_⟩
          rw [← hres]
          exact ⟨rfl, rfl, rfl, rfl⟩
        · exfalso
          simp only [ne_eq, hr, not_false_eq_true, if_true, Option.some.injEq] at hres
          rw [← hres] at hret
          exact hr hret

/-! ## C14: first touch of a read-only region -/

theorem bzero_inside (p n : Nat) (bytes : Nat → Nat) (b : Nat) (h1 : p ≤ b) (h2 : b < p + n) :
    bzero p n bytes b = 0 := by
  simp [bzero, h1, h2]

theorem bzero_outside (p n : Nat) (bytes : Nat → Nat) (b : Nat) (h : ¬ (p ≤ b ∧ b < p + n)) :
    bzero p n bytes b = bytes b := by
  simp only [bzero, h, if_false]

set_option maxRecDepth 100000 in
/-- Counterexample to C15 as stated, with the MIPS constants: for a region
without any permission `init_pte` gives the frame address alone, which is not
the frame address with `TLBLO_VALID`; and a first-touch read fault in such a
region returns 0 and stores an entry whose `TLBLO_VALID` bit is clear. -/
theorem init_pte_valid_counterexample :
    init_pte mips { vbase := 4194304, vtop := 4198400, memsize := 4096,
                    readable := 0, writeable := 0, executable := 0 } 327680 = 327680 ∧
    327680 ≠ 327680 ||| mips.TLBLO_VALID ∧
    (vm_fault mips true (some noperm_as) sevens mips.VM_FAULT_READ 4194560 fault_ok_env).map
        (fun res => (res.ret, res.as)) = some (0, some noperm_mapped_as) ∧
    page_table_lookup noperm_as 4194560 = some 0 ∧
    page_table_lookup noperm_mapped_as 4194560 = some 327680 ∧
    327680 &&& mips.TLBLO_VALID = 0 := by
  decide

/-- C15 (amended). With the 8/6/6 split, flag bits outside the frame field and
nonzero error codes: for every region and every page-aligned frame address `p`,
`init_pte` gives `p` OR (`TLBLO_VALID` if and only if the region has at least one
of its three permissions) OR (`TLBLO_DIRTY` if and only if the region is
writable); and after a successful first-touch `vm_fault` the entry found for the
faulting page is the one `init_pte` built for the region and the new frame, with
`TLBLO_VALID` set if and only if the region has at least one permission. -/
theorem init_pte_format (K : vm_consts) (hK : split_8_6_6 K) (hT : tlb_bits K)
    (hC : codes_ok K) :
    (∀ (rg : as_region) (p : Nat), p &&& K.TLBLO_PPAGE = p →
      init_pte K rg p =
        (p ||| (if rg.readable ≠ 0 ∨ rg.writeable ≠ 0 ∨ rg.executable ≠ 0
                then K.TLBLO_VALID else 0))
          ||| (if rg.writeable ≠ 0 then K.TLBLO_DIRTY else 0)) ∧
    (∀ (a : addrspace) (m : phys_mem) (ft : Int) (addr : Nat) (env : fault_env)
        (rg : as_region) (pte : Nat) (res : fault_result),
      addr < 4294967296 → (ft = K.VM_FAULT_READ ∨ ft = K.VM_FAULT_WRITE) →
      page_table_lookup a addr = some pte → pte &&& K.TLBLO_VALID = 0 →
      addr_to_region a addr = some rg →
      vm_fault K true (some a) m ft addr env = some res → res.ret = 0 →
      ∃ a1, res.as = some a1 ∧
        page_table_lookup a1 addr =
          some (init_pte K rg (K.KVADDR_TO_PADDR env.alloc_kpages)) ∧
        (init_pte K rg (K.KVADDR_TO_PADDR env.alloc_kpages) &&& K.TLBLO_VALID = K.TLBLO_VALID ↔
          (rg.readable ≠ 0 ∨ rg.writeable ≠ 0 ∨ rg.executable ≠ 0))) := by
  constructor
  · intro rg p hp
    simp only [init_pte, hp]
    by_cases hw : rg.writeable ≠ 0
    · have hperm : rg.readable ≠ 0 ∨ rg.writeable ≠ 0 ∨ rg.executable ≠ 0 := Or.inr (Or.inl hw)
      rw [if_pos hw, if_pos hperm, if_pos hperm, if_pos hw, Nat.or_assoc, Nat.or_assoc,
        Nat.or_comm K.TLBLO_DIRTY]
    · rw [if_neg hw, if_neg hw]
      split <;> simp
  · intro a m ft addr env rg pte res haddr hft hl hv hrg hres hret
    obtain ⟨_, _, a1, hins, has, _⟩ :=
      vm_fault_first_touch_inv K hC a m ft addr env pte rg res hft hl hv hrg hres hret
    refine ⟨a1, has, insert_lookup_same K hK hC.2.2.2.2.2 a a1 _ haddr _ _ hins, ?_⟩
    have hv2 := init_pte_valid K hT rg (K.KVADDR_TO_PADDR env.alloc_kpages)
    constructor
    · intro h
      by_contra hn
      rw [hv2.2 hn] at h
      exact hT.1 h.symm
    · exact hv2.1

set_option maxRecDepth 100000 in
/-- Witness for C15 with the MIPS constants: the entry built for the readable
and executable region of `text_as` and the frame at `0x00050000` is
`0x00050000 | TLBLO_VALID`, and that entry is found after the first read fault
at `0x00400100`. -/
theorem init_pte_format_witness :
    init_pte mips { vbase := 4194304, vtop := 4198400, memsize := 4096,
                    readable := 1, writeable := 0, executable := 1 } 327680 =
      (327680 ||| mips.TLBLO_VALID) ||| 0 ∧
    ∃ a1, some text_mapped_as = some a1 ∧ page_table_lookup a1 4194560 = some 328192 :=
  have h := init_pte_format mips (by decide) (by decide) (by decide)
  ⟨h.1 { vbase := 4194304, vtop := 4198400, memsize := 4096,
         readable := 1, writeable := 0, executable := 1 } 327680 (by decide),
   match h.2 text_as sevens mips.VM_FAULT_READ 4194560 fault_ok_env
       { vbase := 4194304, vtop := 4198400, memsize := 4096,
         readable := 1, writeable := 0, executable := 1 } 0
       { ret := 0, as := some text_mapped_as,
         mem := { bytes := bzero 2147811328 4096 sevens.bytes, held := [2147811328] },
         tlb := [(4194304, 328192)] }
       (by decide) (by decide) (by decide) (by decide) (by decide) rfl rfl with
   | ⟨a1, h1, h2, _⟩ => ⟨a1, h1, h2⟩⟩

/-! ## C16: rejections -/

theorem page_table_lookup_as_create (a : addrspace) (h : as_create true true = some a)
    (addr : Nat) (haddr : addr < 4294967296) : page_table_lookup a addr = some 0 := by
  simp only [as_create, Bool.not_true, Bool.false_eq_true, if_false, Option.some.injEq] at h
  subst h
  rw [page_table_lookup_eq_walk]
  have hi : addr / 16777216 < VADDR_LEVEL_ONE_SIZE := by
    show addr / 16777216 < 256
    omega
  simp only [page_table_walk, List.getElem?_replicate, hi, if_true]

/-- C16. When the three fault types are distinct: a `VM_FAULT_READONLY` fault
returns `EFAULT`, and a fault of a type other than read, write and read-only
returns `EINVAL`, whatever the address and the state; a read or write fault with
a current address space, at an address whose page-table entry has `TLBLO_VALID`
clear and which no region contains, returns `EFAULT`; and every read or write
fault at a 32-bit address in an address space just returned by `as_create`
returns `EFAULT`.  In all four cases nothing is changed and nothing is loaded
into the TLB. -/
theorem vm_fault_rejections (K : vm_consts) (hC : codes_ok K) (m : phys_mem)
    (env : fault_env) :
    (∀ (curproc : Bool) (as : Option addrspace) (addr : Nat),
      vm_fault K curproc as m K.VM_FAULT_READONLY addr env =
        some { ret := K.EFAULT, as := as, mem := m, tlb := [] }) ∧
    (∀ (curproc : Bool) (as : Option addrspace) (ft : Int) (addr : Nat),
      ft ≠ K.VM_FAULT_READ → ft ≠ K.VM_FAULT_WRITE → ft ≠ K.VM_FAULT_READONLY →
      vm_fault K curproc as m ft addr env =
        some { ret := K.EINVAL, as := as, mem := m, tlb := [] }) ∧
    (∀ (a : addrspace) (ft : Int) (addr pte : Nat),
      (ft = K.VM_FAULT_READ ∨ ft = K.VM_FAULT_WRITE) →
      page_table_lookup a addr = some pte → pte &&& K.TLBLO_VALID = 0 →
      (∀ rg ∈ a.as_regions_head, ¬ (rg.vbase ≤ addr ∧ addr < rg.vtop)) →
      vm_fault K true (some a) m ft addr env =
        some { ret := K.EFAULT, as := some a, mem := m, tlb := [] }) ∧
    (∀ (a : addrspace) (ft : Int) (addr : Nat),
      as_create true true = some a → (ft = K.VM_FAULT_READ ∨ ft = K.VM_FAULT_WRITE) →
      addr < 4294967296 →
      vm_fault K true (some a) m ft addr env =
        some { ret := K.EFAULT, as := some a, mem := m, tlb := [] }) := by
  have hro : ∀ ft, (ft = K.VM_FAULT_READ ∨ ft = K.VM_FAULT_WRITE) → ft ≠ K.VM_FAULT_READONLY := by
    intro ft hft
    rcases hft with rfl | rfl
    · exact hC.1
    · exact hC.2.1
  refine ⟨?_, ?_, ?_, ?_⟩
  · intro curproc as addr
    simp [vm_fault]
  · intro curproc as ft addr h1 h2 h3
    simp [vm_fault, h1, h2, h3]
  · intro a ft addr pte hft hl hv hrg
    apply vm_fault_no_region K a m ft addr env pte hft (hro ft hft) hl hv
    exact (addr_to_region_walk_none _ _).2 hrg
  · intro a ft addr hc hft haddr
    apply vm_fault_no_region K a m ft addr env 0 hft (hro ft hft)
      (page_table_lookup_as_create a hc addr haddr) (Nat.zero_and _)
    simp only [as_create, Bool.not_true, Bool.false_eq_true, if_false, Option.some.injEq] at hc
    subst hc
    rfl

set_option maxRecDepth 100000 in
/-- Witness for C16 with the MIPS constants: a fault of type 7 at `0x00400100`
returns `EINVAL`; a write fault at `0x00500000`, outside the region of
`text_as`, returns `EFAULT`; a read fault in the address space `fresh_as`, which
is what `as_create` returns, returns `EFAULT`. -/
theorem vm_fault_rejections_witness :
    vm_fault mips true (some text_as) sevens 7 4194560 fault_ok_env =
      some { ret := mips.EINVAL, as := some text_as, mem := sevens, tlb := [] } ∧
    vm_fault mips true (some text_as) sevens mips.VM_FAULT_WRITE 5242880 fault_ok_env =
      some { ret := mips.EFAULT, as := some text_as, mem := sevens, tlb := [] } ∧
    vm_fault mips true (some fresh_as) sevens mips.VM_FAULT_READ 4194560 fault_ok_env =
      some { ret := mips.EFAULT, as := some fresh_as, mem := sevens, tlb := [] } :=
  have h := vm_fault_rejections mips (by decide) sevens fault_ok_env
  ⟨h.2.1 true (some text_as) 7 4194560 (by decide) (by decide) (by decide),
   h.2.2.1 text_as mips.VM_FAULT_WRITE 5242880 0 (by decide) (by decide) (by decide)
     (by decide),
   h.2.2.2 fresh_as mips.VM_FAULT_READ 4194560 (by decide) (by decide) (by decide)⟩

/-! ## C17: fault on an existing mapping -/

/-- C17. When the fault types are distinct and `EFAULT` is not 0: for every read
or write fault at an address whose page-table entry `pte` has `TLBLO_VALID` set,
`vm_fault` returns; it returns `EFAULT` if and only if the fault is a write,
`pte` lacks `TLBLO_DIRTY` and the loading flag is 0, and then loads nothing into
the TLB; otherwise it returns 0 and loads exactly
`(address & TLBHI_VPAGE, pte | loading_flag)`; in both cases the address space
(so the page table) and kernel memory (so the frames held) are unchanged. -/
theorem vm_fault_existing_mapping (K : vm_consts) (hC : codes_ok K) (a : addrspace)
    (m : phys_mem) (ft : Int) (addr : Nat) (env : fault_env) (pte : Nat)
    (hft : ft = K.VM_FAULT_READ ∨ ft = K.VM_FAULT_WRITE)
    (hl : page_table_lookup a addr = some pte) (hv : pte &&& K.TLBLO_VALID ≠ 0) :
    ∃ res, vm_fault K true (some a) m ft addr env = some res ∧
      (res.ret = K.EFAULT ↔
        (ft = K.VM_FAULT_WRITE ∧ pte &&& K.TLBLO_DIRTY = 0 ∧ a.loading_flag = 0)) ∧
      (res.ret = K.EFAULT → res.tlb = []) ∧
      (res.ret ≠ K.EFAULT →
        res.ret = 0 ∧ res.tlb = [(addr &&& K.TLBHI_VPAGE, pte ||| a.loading_flag)]) ∧
      res.as = some a ∧ res.mem = m := by
  have hro : ft ≠ K.VM_FAULT_READONLY := by
    rcases hft with rfl | rfl
    · exact hC.1
    · exact hC.2.1
  have hE : K.EFAULT ≠ 0 := hC.2.2.2.1
  rw [vm_fault_valid K a m ft addr env pte hft hro hl hv]
  by_cases hw : ft = K.VM_FAULT_WRITE ∧ pte &&& K.TLBLO_DIRTY = 0 ∧ a.loading_flag = 0
  · rw [if_pos hw]
    refine ⟨_, rfl, ?_, ?_, ?_, rfl, rfl⟩
    · exact ⟨fun _ => hw, fun _ => rfl⟩
    · intro _
      rfl
    · intro h
      exact absurd rfl h
  · rw [if_neg hw]
    refine ⟨_, rfl, ?_, ?_, ?_, rfl, rfl⟩
    · constructor
      · intro h
        exact absurd h.symm hE
      · intro h
        exact absurd h hw
    · intro h
      exact absurd h.symm hE
    · intro _
      exact ⟨rfl, rfl⟩

set_option maxRecDepth 100000 in
/-- Witness for C17 with the MIPS constants: in `text_mapped_as` the page of
`0x00400100` has the entry `0x00050200`, which has `TLBLO_VALID`; a read fault
there returns. -/
theorem vm_fault_existing_mapping_witness :
    ∃ res, vm_fault mips true (some text_mapped_as) sevens mips.VM_FAULT_READ 4194560
        fault_ok_env = some res ∧
      (res.ret ≠ mips.EFAULT → res.ret = 0 ∧ res.tlb = [(4194304, 328192)]) ∧
      res.as = some text_mapped_as :=
  match vm_fault_existing_mapping mips (by decide) text_mapped_as sevens mips.VM_FAULT_READ
      4194560 fault_ok_env 328192 (by decide) (by decide) (by decide) with
  | ⟨res, h1, _, _, h4, h5, _⟩ => ⟨res, h1, h4, h5⟩

/-! ## C18: the loading flag -/

theorem page_table_lookup_congr (a b : addrspace) (h : a.page_table = b.page_table)
    (addr : Nat) : page_table_lookup a addr = page_table_lookup b addr := by
  simp only [page_table_lookup, page_table_walk, h]

theorem addr_to_region_congr (a b : addrspace) (h : a.as_regions_head = b.as_regions_head)
    (addr : Nat) : addr_to_region a addr = addr_to_region b addr := by
  simp only [addr_to_region, h]

/-- Every fault that returns 0 has a current address space and loads one TLB
entry, for the page of the address, whose low word is some entry OR the loading
flag. -/
theorem vm_fault_success_tlb (K : vm_consts) (hC : codes_ok K) (curproc : Bool)
    (as : Option addrspace) (m : phys_mem) (ft : Int) (addr : Nat) (env : fault_env)
    (res : fault_result)
    (hres : vm_fault K curproc as m ft addr env = some res) (hret : res.ret = 0) :
    ∃ a a1 x, as = some a ∧ res.as = some a1 ∧ a1.loading_flag = a.loading_flag ∧
      a1.as_regions_head = a.as_regions_head ∧
      res.tlb = [(addr &&& K.TLBHI_VPAGE, x ||| a.loading_flag)] := by
  have hEF : K.EFAULT ≠ 0 := hC.2.2.2.1
  have hEI : K.EINVAL ≠ 0 := hC.2.2.2.2.1
  by_cases h1 : ft = K.VM_FAULT_READONLY
  · exfalso
    simp only [vm_fault, h1, if_true, Option.some.injEq] at hres
    rw [← hres] at hret
    exact hEF hret
  by_cases h2 : ft = K.VM_FAULT_READ ∨ ft = K.VM_FAULT_WRITE
  swap
  · exfalso
    simp only [vm_fault, h1, if_false, h2, not_false_eq_true, if_true,
      Option.some.injEq] at hres
    rw [← hres] at hret
    exact hEI hret
  cases curproc with
  | false =>
    exfalso
    simp only [vm_fault, h1, if_false, h2, not_true_eq_false, Bool.not_false, if_true,
      Option.some.injEq] at hres
    rw [← hres] at hret
    exact hEF hret
  | true =>
    cases as with
    | none =>
      exfalso
      simp only [vm_fault, h1, if_false, h2, not_true_eq_false, Bool.not_true,
        Bool.false_eq_true, Option.some.injEq] at hres
      rw [← hres] at hret
      exact hEF hret
    | some a =>
      cases hl : page_table_lookup a addr with
      | none =>
        exfalso
        simp only [vm_fault, h1, if_false, h2, not_true_eq_false, Bool.not_true,
          Bool.false_eq_true, hl] at hres
        cases hres
      | some pte =>
        by_cases hv : pte &&& K.TLBLO_VALID ≠ 0
        · rw [vm_fault_valid K a m ft addr env pte h2 h1 hl hv] at hres
          split at hres
          · exfalso
            simp only [Option.some.injEq] at hres
            rw [← hres] at hret
            exact hEF hret
          · simp only [Option.some.injEq] at hres
            refine ⟨a, a, pte, rfl, ?_, rfl, rfl, ?_⟩
            · rw [← hres]
            · rw [← hres]
              rfl
        · have hv0 : pte &&& K.TLBLO_VALID = 0 := by
            by_contra hh
            exact hv hh
          cases hrg : addr_to_region a addr with
          | none =>
            exfalso
            rw [vm_fault_no_region K a m ft addr env pte h2 h1 hl hv0 hrg] at hres
            simp only [Option.some.injEq] at hres
            rw [← hres] at hret
            exact hEF hret
          | some rg =>
            obtain ⟨_, _, a1, hins, has, _, _, htlb⟩ :=
              vm_fault_first_touch_inv K hC a m ft addr env pte rg res h2 hl hv0 hrg hres hret
            obtain ⟨hregs, hfl, _⟩ := insert_frame K a _ addr _ _ 0 a1 hins
            refine ⟨a, a1, init_pte K rg (K.KVADDR_TO_PADDR env.alloc_kpages), rfl, has, hfl,
              hregs, ?_⟩
            rw [htlb, hfl]
            rfl

/-- C19. If the masks and shifts of `insert_into_page_table` select the 8/6/6
split and `ENOMEM` is not 0, then for every address space, 32-bit address `a`
and entry `e`: the shift-based indices of `page_table_lookup` agree with the
mask-based indices of `insert_into_page_table`, are the 8/6/6-bit fields of `a`
and are below 256, 64 and 64; and if `insert_into_page_table(as, e, a)` returns
0, then afterwards `page_table_lookup` gives `e` at every address of the page
of `a` and is unchanged at every address of another page. -/
theorem insert_lookup_round_trip (K : vm_consts) (hK : split_8_6_6 K) (hE : K.ENOMEM ≠ 0)
    (as as1 : addrspace) (e a : Nat) (k2 k3 : Bool) (ha : a < 4294967296)
    (h : insert_into_page_table K as e a k2 k3 = some (0, as1)) :
    (a >>> 24 = (a &&& K.VADDR_LEVEL_ONE) >>> K.VADDR_LEVEL_ONE_SHIFT ∧
      a >>> 24 = a / 2 ^ 24 % 2 ^ 8 ∧ a >>> 24 < 256) ∧
    (shl32 a 8 >>> 26 = (a &&& K.VADDR_LEVEL_TWO) >>> K.VADDR_LEVEL_TWO_SHIFT ∧
      shl32 a 8 >>> 26 = a / 2 ^ 18 % 2 ^ 6 ∧ shl32 a 8 >>> 26 < 64) ∧
    (shl32 a 14 >>> 26 = (a &&& K.VADDR_LEVEL_THREE) >>> K.VADDR_LEVEL_THREE_SHIFT ∧
      shl32 a 14 >>> 26 = a / 2 ^ 12 % 2 ^ 6 ∧ shl32 a 14 >>> 26 < 64) ∧
    (∀ b, b < 4294967296 → b >>> 12 = a >>> 12 → page_table_lookup as1 b = some e) ∧
    (∀ c, c < 4294967296 → c >>> 12 ≠ a >>> 12 →
      page_table_lookup as1 c = page_table_lookup as c) := by
  have hK1 := hK
  rcases hK1 with ⟨h1, h2, h3, h4, h5, h6⟩
  rw [insert_eq_store K hK as e ha] at h
  refine ⟨⟨?_, ?_, ?_⟩, ⟨?_, ?_, ?_⟩, ⟨?_, ?_, ?_⟩, ?_, ?_⟩
  · rw [h1, h2, insert_index_one ha, lookup_index_one]
  · rw [lookup_index_one]
    omega
  · rw [lookup_index_one]
    omega
  · rw [h3, h4, insert_index_two, lookup_index_two]
  · rw [lookup_index_two]
    norm_num
  · rw [lookup_index_two]
    omega
  · rw [h5, h6, insert_index_three, lookup_index_three]
  · rw [lookup_index_three]
    norm_num
  · rw [lookup_index_three]
    omega
  · intro b hb hba
    rw [Nat.shiftRight_eq_div_pow, Nat.shiftRight_eq_div_pow] at hba
    rw [page_table_lookup_eq_walk]
    have e1 : b / 16777216 = a / 16777216 := by omega
    have e2 : b / 262144 % 64 = a / 262144 % 64 := by omega
    have e3 : b / 4096 % 64 = a / 4096 % 64 := by omega
    rw [e1, e2, e3]
    exact page_table_store_walk_same K.ENOMEM as e _ _ _ k2 k3 as1 hE h
  · intro c hc hca
    rw [Nat.shiftRight_eq_div_pow, Nat.shiftRight_eq_div_pow] at hca
    rw [page_table_lookup_eq_walk, page_table_lookup_eq_walk]
    apply page_table_store_walk_other K.ENOMEM as e _ _ _ k2 k3 0 as1 h
    · omega
    · omega
    · omega

set_option maxRecDepth 100000 in
/-- Witness for C19 with the MIPS constants: storing `0x00050200` for address
`0x00400100` in `text_as` gives `text_mapped_as`; the entry is found at
`0x00400fff` and the next page still has none. -/
theorem insert_lookup_round_trip_witness :
    insert_into_page_table mips text_as 328192 4194560 true true = some (0, text_mapped_as) ∧
    page_table_lookup text_mapped_as 4198399 = some 328192 ∧
    page_table_lookup text_mapped_as 4198400 = page_table_lookup text_as 4198400 :=
  have h := insert_lookup_round_trip mips (by decide) (by decide) text_as text_mapped_as
    328192 4194560 true true (by decide) (by decide)
  ⟨by decide, h.2.2.2.1 4198399 (by decide) (by decide),
    h.2.2.2.2 4198400 (by decide) (by decide)⟩

/-! ## C20: the copy of a page table -/

theorem copied_refl (K : vm_consts) (m : phys_mem) : copied K (fun _ _ => False) m m := by
  refine ⟨fun _ _ => rfl, ?_, ?_⟩
  · intro np e h
    exact h.elim
  · intro x
    simp

theorem copied_congr (K : vm_consts) (S T : Nat → Nat → Prop) (m m1 : phys_mem)
    (hST : ∀ np e, S np e ↔ T np e) (h : copied K S m m1) : copied K T m m1 := by
  obtain ⟨h1, h2, h3⟩ := h
  refine ⟨?_, ?_, ?_⟩
  · intro x hx
    exact h1 x (fun np e hs => hx np e ((hST np e).1 hs))
  · intro np e ht
    exact h2 np e ((hST np e).2 ht)
  · intro x
    rw [h3 x]
    constructor
    · rintro (h | ⟨e, he⟩)
      · exact Or.inl h
      · exact Or.inr ⟨e, (hST x e).1 he⟩
    · rintro (h | ⟨e, he⟩)
      · exact Or.inl h
      · exact Or.inr ⟨e, (hST x e).2 he⟩

theorem copied_single (K : vm_consts) (np e : Nat) (m : phys_mem)
    (hd : frames_disjoint K.PAGE_SIZE np (source_frame K e)) :
    copied K (fun x y => x = np ∧ y = e) m (copy_page K np e m) := by
  refine ⟨?_, ?_, ?_⟩
  · intro x hx
    have hx1 := hx np e ⟨rfl, rfl⟩
    simp only [copy_page, memmove, bzero, hx1, if_false]
  · rintro x y ⟨rfl, rfl⟩ off hoff
    unfold source_frame at hd ⊢
    have h1 : x ≤ x + off ∧ x + off < x + K.PAGE_SIZE := ⟨by omega, by omega⟩
    have h2 : ¬ (x ≤ K.PADDR_TO_KVADDR (y &&& K.PAGE_FRAME) + off ∧
        K.PADDR_TO_KVADDR (y &&& K.PAGE_FRAME) + off < x + K.PAGE_SIZE) := by
      unfold frames_disjoint at hd
      omega
    have h3 : x + off - x = off := by omega
    simp only [copy_page, memmove, bzero, h1, and_self, if_true, h3]
    rw [if_neg h2]
  · intro x
    simp only [copy_page, List.mem_cons]
    constructor
    · rintro (h | h)
      · exact Or.inr ⟨e, h, rfl⟩
      · exact Or.inl h
    · rintro (h | ⟨y, h, _⟩)
      · exact Or.inr h
      · exact Or.inl h

theorem copied_trans (K : vm_consts) (S T : Nat → Nat → Prop) (m m1 m2 : phys_mem)
    (hS : copied K S m m1) (hT : copied K T m1 m2)
    (hd : ∀ np e np1 e1, S np e → T np1 e1 →
      frames_disjoint K.PAGE_SIZE np np1 ∧ frames_disjoint K.PAGE_SIZE np (source_frame K e1)) :
    copied K (fun np e => S np e ∨ T np e) m m2 := by
  obtain ⟨s1, s2, s3⟩ := hS
  obtain ⟨t1, t2, t3⟩ := hT
  refine ⟨?_, ?_, ?_⟩
  · intro x hx
    rw [t1 x (fun np e h => hx np e (Or.inr h)), s1 x (fun np e h => hx np e (Or.inl h))]
  · rintro np e (h | h) off hoff
    · rw [t1, s2 np e h off hoff]
      intro np1 e1 h1
      have := (hd np e np1 e1 h h1).1
      unfold frames_disjoint at this
      omega
    · rw [t2 np e h off hoff, s1]
      intro np1 e1 h1
      have := (hd np1 e1 np e h1 h).2
      unfold frames_disjoint at this
      omega
  · intro x
    rw [t3 x, s3 x]
    constructor
    · rintro ((h | ⟨e, h⟩) | ⟨e, h⟩)
      · exact Or.inl h
      · exact Or.inr ⟨e, Or.inl h⟩
      · exact Or.inr ⟨e, Or.inr h⟩
    · rintro (h | ⟨e, h | h⟩)
      · exact Or.inl (Or.inl h)
      · exact Or.inl (Or.inr ⟨e, h⟩)
      · exact Or.inr ⟨e, h⟩

theorem copy_level_three_spec (K : vm_consts) (alloc : Nat → Nat) (old_l3 : List Nat)
    (hG : ∀ t e t1 e1, t < 64 → t1 < 64 → old_l3[t]? = some e → e ≠ 0 →
      old_l3[t1]? = some e1 → e1 ≠ 0 →
      frames_disjoint K.PAGE_SIZE (alloc t) (source_frame K e1) ∧
      (t ≠ t1 → frames_disjoint K.PAGE_SIZE (alloc t) (alloc t1))) :
    ∀ (n k : Nat) (m : phys_mem) (l3 : List Nat) (m1 : phys_mem),
      copy_level_three K alloc old_l3 n k m = some (l3, m1) → k + n ≤ 64 →
      l3.length = n ∧
      (∀ t, t < n → ∃ e, old_l3[k + t]? = some e ∧
        l3[t]? = some (if e = 0 then 0 else copy_pte K (alloc (k + t)) e) ∧
        (e ≠ 0 → alloc (k + t) ≠ 0)) ∧
      copied K (level_three_jobs alloc old_l3 k n) m m1 := by
  intro n
  induction n with
  | zero =>
    intro k m l3 m1 h _
    simp only [copy_level_three, Option.some.injEq, Prod.mk.injEq] at h
    obtain ⟨rfl, rfl⟩ := h
    refine ⟨rfl, fun t ht => absurd ht (Nat.not_lt_zero t), ?_⟩
    apply copied_congr K _ _ _ _ _ (copied_refl K m)
    intro np e
    constructor
    · intro hf
      exact hf.elim
    · rintro ⟨t, h1, h2, _⟩
      omega
  | succ n ih =>
    intro k m l3 m1 h hb
    simp only [copy_level_three] at h
    cases hk : old_l3[k]? with
    | none => simp [hk] at h
    | some e =>
      simp only [hk] at h
      by_cases he : e = 0
      · simp only [he, if_true] at h
        cases hrec : copy_level_three K alloc old_l3 n (k + 1) m with
        | none => simp [hrec] at h
        | some p =>
          obtain ⟨l3r, mr⟩ := p
          simp only [hrec, Option.some.injEq, Prod.mk.injEq] at h
          obtain ⟨rfl, rfl⟩ := h
          obtain ⟨i1, i2, i3⟩ := ih (k + 1) m l3r mr hrec (by omega)
          refine ⟨by simp [i1], ?_, ?_⟩
          · intro t ht
            cases t with
            | zero =>
              refine ⟨0, ?_, ?_, ?_⟩
              · rw [Nat.add_zero, hk, he]
              · simp
              · intro hh
                exact absurd rfl hh
            | succ t =>
              obtain ⟨e1, h1, h2, h3⟩ := i2 t (by omega)
              have hidx : k + (t + 1) = k + 1 + t := by omega
              refine ⟨e1, ?_, ?_, ?_⟩
              · rw [hidx]
                exact h1
              · rw [hidx]
                simpa using h2
              · rw [hidx]
                exact h3
          · apply copied_congr K _ _ _ _ _ i3
            intro np e1
            constructor
            · rintro ⟨t, h1, h2, h3, h4, h5⟩
              exact ⟨t, by omega, by omega, h3, h4, h5⟩
            · rintro ⟨t, h1, h2, h3, h4, h5⟩
              have htk : t ≠ k := by
                intro hh
                rw [hh, hk] at h3
                cases h3
                exact h4 he
              exact ⟨t, by omega, by omega, h3, h4, h5⟩
      · simp only [he, if_false] at h
        by_cases hnp : alloc k = 0
        · simp [hnp] at h
        · simp only [hnp, if_false] at h
          cases hrec : copy_level_three K alloc old_l3 n (k + 1) (copy_page K (alloc k) e m) with
          | none => simp [hrec] at h
          | some p =>
            obtain ⟨l3r, mr⟩ := p
            simp only [hrec, Option.some.injEq, Prod.mk.injEq] at h
            obtain ⟨rfl, rfl⟩ := h
            obtain ⟨i1, i2, i3⟩ := ih (k + 1) _ l3r mr hrec (by omega)
            refine ⟨by simp [i1], ?_, ?_⟩
            · intro t ht
              cases t with
              | zero =>
                refine ⟨e, ?_, ?_, ?_⟩
                · rw [Nat.add_zero, hk]
                · simp [he]
                · intro _
                  exact hnp
              | succ t =>
                obtain ⟨e1, h1, h2, h3⟩ := i2 t (by omega)
                have hidx : k + (t + 1) = k + 1 + t := by omega
                refine ⟨e1, ?_, ?_, ?_⟩
                · rw [hidx]
                  exact h1
                · rw [hidx]
                  simpa using h2
                · rw [hidx]
                  exact h3
            · have hs := copied_single K (alloc k) e m
                (hG k e k e (by omega) (by omega) hk he hk he).1
              have ht := copied_trans K _ _ m _ mr hs i3 (by
                rintro np e0 np1 e1 ⟨rfl, rfl⟩ ⟨t, h1, h2, h3, h4, rfl⟩
                have := hG k e0 t e1 (by omega) (by omega) hk he h3 h4
                exact ⟨this.2 (by omega), this.1⟩)
              apply copied_congr K _ _ _ _ _ ht
              intro np e1
              constructor
              · rintro (⟨rfl, rfl⟩ | ⟨t, h1, h2, h3, h4, h5⟩)
                · exact ⟨k, by omega, by omega, hk, he, rfl⟩
                · exact ⟨t, by omega, by omega, h3, h4, h5⟩
              · rintro ⟨t, h1, h2, h3, h4, h5⟩
                by_cases htk : t = k
                · left
                  subst htk
                  rw [hk] at h3
                  cases h3
                  exact ⟨h5, rfl⟩
                · right
                  exact ⟨t, by omega, by omega, h3, h4, h5⟩

theorem copy_status_cons_done {α : Type} (x : α) (r : copy_status (List α)) (l : List α)
    (m1 : phys_mem) (h : copy_status.cons x r = copy_status.done l m1) :
    ∃ lr, r = copy_status.done lr m1 ∧ l = x :: lr := by
  cases r with
  | undefined => simp [copy_status.cons] at h
  | nomem built m => simp [copy_status.cons] at h
  | done a m =>
    simp only [copy_status.cons, copy_status.done.injEq] at h
    obtain ⟨rfl, rfl⟩ := h
    exact ⟨a, rfl, rfl⟩

theorem copy_level_two_spec (K : vm_consts) (env : copy_env) (i : Nat)
    (old_l2 : List (Option (List Nat)))
    (hG : ∀ j k e j1 k1 e1 l3 l31, j < 64 → k < 64 → j1 < 64 → k1 < 64 →
      old_l2[j]? = some (some l3) → l3[k]? = some e → e ≠ 0 →
      old_l2[j1]? = some (some l31) → l31[k1]? = some e1 → e1 ≠ 0 →
      frames_disjoint K.PAGE_SIZE (env.alloc_kpages i j k) (source_frame K e1) ∧
      (¬ (j = j1 ∧ k = k1) →
        frames_disjoint K.PAGE_SIZE (env.alloc_kpages i j k) (env.alloc_kpages i j1 k1))) :
    ∀ (n j : Nat) (m : phys_mem) (l2 : List (Option (List Nat))) (m1 : phys_mem),
      copy_level_two K env i old_l2 n j m = copy_status.done l2 m1 → j + n ≤ 64 →
      l2.length = n ∧
      (∀ t, t < n →
        (old_l2[j + t]? = some none ∧ l2[t]? = some none) ∨
        ∃ o3 n3, old_l2[j + t]? = some (some o3) ∧ l2[t]? = some (some n3) ∧
          ∀ k, k < 64 → ∃ e, o3[k]? = some e ∧
            n3[k]? = some (if e = 0 then 0 else copy_pte K (env.alloc_kpages i (j + t) k) e) ∧
            (e ≠ 0 → env.alloc_kpages i (j + t) k ≠ 0)) ∧
      copied K (level_two_jobs env i old_l2 j n) m m1 := by
  intro n
  induction n with
  | zero =>
    intro j m l2 m1 h _
    simp only [copy_level_two, copy_status.done.injEq] at h
    obtain ⟨rfl, rfl⟩ := h
    refine ⟨rfl, fun t ht => absurd ht (Nat.not_lt_zero t), ?_⟩
    apply copied_congr K _ _ _ _ _ (copied_refl K m)
    intro np e
    constructor
    · intro hf
      exact hf.elim
    · rintro ⟨t, o3, h1, h2, _⟩
      omega
  | succ n ih =>
    intro j m l2 m1 h hb
    simp only [copy_level_two] at h
    cases hj : old_l2[j]? with
    | none => simp [hj] at h
    | some p =>
      cases p with
      | none =>
        simp only [hj] at h
        obtain ⟨l2r, hrec, rfl⟩ := copy_status_cons_done _ _ _ _ h
        obtain ⟨i1, i2, i3⟩ := ih (j + 1) m l2r m1 hrec (by omega)
        refine ⟨by simp [i1], ?_, ?_⟩
        · intro t ht
          cases t with
          | zero =>
            left
            exact ⟨by rw [Nat.add_zero, hj], by simp⟩
          | succ t =>
            have hidx : j + (t + 1) = j + 1 + t := by omega
            rw [hidx]
            simpa using i2 t (by omega)
        · apply copied_congr K _ _ _ _ _ i3
          intro np e1
          constructor
          · rintro ⟨t, o3, h1, h2, h3, h4⟩
            exact ⟨t, o3, by omega, by omega, h3, h4⟩
          · rintro ⟨t, o3, h1, h2, h3, h4⟩
            have htj : t ≠ j := by
              intro hh
              rw [hh, hj] at h3
              cases h3
            exact ⟨t, o3, by omega, by omega, h3, h4⟩
      | some old_l3 =>
        simp only [hj] at h
        by_cases hk3 : env.kmalloc_level_three i j = true
        swap
        · simp [hk3] at h
        simp only [hk3, Bool.not_true, Bool.false_eq_true, if_false] at h
        cases h3 : copy_level_three K (env.alloc_kpages i j) old_l3 VADDR_LEVEL_THREE_SIZE 0 m with
        | none => simp [h3] at h
        | some p =>
          obtain ⟨l3, ma⟩ := p
          simp only [h3] at h
          obtain ⟨l2r, hrec, rfl⟩ := copy_status_cons_done _ _ _ _ h
          obtain ⟨i1, i2, i3⟩ := ih (j + 1) ma l2r m1 hrec (by omega)
          have hG3 : ∀ t e t1 e1, t < 64 → t1 < 64 → old_l3[t]? = some e → e ≠ 0 →
              old_l3[t1]? = some e1 → e1 ≠ 0 →
              frames_disjoint K.PAGE_SIZE (env.alloc_kpages i j t) (source_frame K e1) ∧
              (t ≠ t1 →
                frames_disjoint K.PAGE_SIZE (env.alloc_kpages i j t)
                  (env.alloc_kpages i j t1)) := by
            intro t e t1 e1 ht ht1 h1 h2 h3 h4
            have := hG j t e j t1 e1 old_l3 old_l3 (by omega) ht (by omega) ht1 hj h1 h2 hj h3 h4
            exact ⟨this.1, fun hne => this.2 (fun hh => hne hh.2)⟩
          obtain ⟨c1, c2, c3⟩ := copy_level_three_spec K (env.alloc_kpages i j) old_l3 hG3
            VADDR_LEVEL_THREE_SIZE 0 m l3 ma h3 (by simp [VADDR_LEVEL_THREE_SIZE])
          refine ⟨by simp [i1], ?_, ?_⟩
          · intro t ht
            cases t with
            | zero =>
              right
              refine ⟨old_l3, l3, by rw [Nat.add_zero, hj], by simp, ?_⟩
              intro k hk
              have := c2 k hk
              simpa using this
            | succ t =>
              have hidx : j + (t + 1) = j + 1 + t := by omega
              rw [hidx]
              simpa using i2 t (by omega)
          · have ht := copied_trans K _ _ m ma m1 c3 i3 (by
              rintro np e0 np1 e1 ⟨t, h1, h2, h3, h4, rfl⟩ ⟨t1, o3, g1, g2, g3, u, u1, u2, u3, u4, rfl⟩
              have hlt : t < 64 := by
                simpa [VADDR_LEVEL_THREE_SIZE] using h2
              have hlt1 : u < 64 := by
                simpa [VADDR_LEVEL_THREE_SIZE] using u2
              have := hG j t e0 t1 u e1 old_l3 o3 (by omega) hlt (by omega) hlt1 hj h3 h4 g3 u3 u4
              exact ⟨this.2 (by omega), this.1⟩)
            apply copied_congr K _ _ _ _ _ ht
            intro np e1
            constructor
            · rintro (hh | ⟨t, o3, h1, h2, h3, h4⟩)
              · exact ⟨j, old_l3, by omega, by omega, hj, hh⟩
              · exact ⟨t, o3, by omega, by omega, h3, h4⟩
            · rintro ⟨t, o3, h1, h2, g3, h4⟩
              by_cases htj : t = j
              · left
                subst htj
                rw [hj] at g3
                cases g3
                exact h4
              · right
                exact ⟨t, o3, by omega, by omega, g3, h4⟩

theorem copy_level_one_spec (K : vm_consts) (env : copy_env)
    (old_pt : List (Option (List (Option (List Nat)))))
    (hG : ∀ i j k e i1 j1 k1 e1 l2 l3 l21 l31, i < 256 → j < 64 → k < 64 →
      i1 < 256 → j1 < 64 → k1 < 64 →
      old_pt[i]? = some (some l2) → l2[j]? = some (some l3) → l3[k]? = some e → e ≠ 0 →
      old_pt[i1]? = some (some l21) → l21[j1]? = some (some l31) → l31[k1]? = some e1 →
      e1 ≠ 0 →
      frames_disjoint K.PAGE_SIZE (env.alloc_kpages i j k) (source_frame K e1) ∧
      (¬ (i = i1 ∧ j = j1 ∧ k = k1) →
        frames_disjoint K.PAGE_SIZE (env.alloc_kpages i j k) (env.alloc_kpages i1 j1 k1))) :
    ∀ (n i : Nat) (m : phys_mem) (pt : List (Option (List (Option (List Nat)))))
      (m1 : phys_mem),
      copy_level_one K env old_pt n i m = copy_status.done pt m1 → i + n ≤ 256 →
      pt.length = n ∧
      (∀ t, t < n →
        (old_pt[i + t]? = some none ∧ pt[t]? = some none) ∨
        ∃ o2 n2, old_pt[i + t]? = some (some o2) ∧ pt[t]? = some (some n2) ∧
          ∀ j, j < 64 →
            (o2[j]? = some none ∧ n2[j]? = some none) ∨
            ∃ o3 n3, o2[j]? = some (some o3) ∧ n2[j]? = some (some n3) ∧
              ∀ k, k < 64 → ∃ e, o3[k]? = some e ∧
                n3[k]? =
                  some (if e = 0 then 0 else copy_pte K (env.alloc_kpages (i + t) j k) e) ∧
                (e ≠ 0 → env.alloc_kpages (i + t) j k ≠ 0)) ∧
      copied K (level_one_jobs env old_pt i n) m m1 := by
  intro n
  induction n with
  | zero =>
    intro i m pt m1 h _
    simp only [copy_level_one, copy_status.done.injEq] at h
    obtain ⟨rfl, rfl⟩ := h
    refine ⟨rfl, fun t ht => absurd ht (Nat.not_lt_zero t), ?_⟩
    apply copied_congr K _ _ _ _ _ (copied_refl K m)
    intro np e
    constructor
    · intro hf
      exact hf.elim
    · rintro ⟨t, o2, h1, h2, _⟩
      omega
  | succ n ih =>
    intro i m pt m1 h hb
    simp only [copy_level_one] at h
    cases hi : old_pt[i]? with
    | none => simp [hi] at h
    | some p =>
      cases p with
      | none =>
        simp only [hi] at h
        obtain ⟨ptr, hrec, rfl⟩ := copy_status_cons_done _ _ _ _ h
        obtain ⟨i1, i2, i3⟩ := ih (i + 1) m ptr m1 hrec (by omega)
        refine ⟨by simp [i1], ?_, ?_⟩
        · intro t ht
          cases t with
          | zero =>
            left
            exact ⟨by rw [Nat.add_zero, hi], by simp⟩
          | succ t =>
            have hidx : i + (t + 1) = i + 1 + t := by omega
            rw [hidx]
            simpa using i2 t (by omega)
        · apply copied_congr K _ _ _ _ _ i3
          intro np e1
          constructor
          · rintro ⟨t, o2, h1, h2, g3, h4⟩
            exact ⟨t, o2, by omega, by omega, g3, h4⟩
          · rintro ⟨t, o2, h1, h2, g3, h4⟩
            have hti : t ≠ i := by
              intro hh
              rw [hh, hi] at g3
              cases g3
            exact ⟨t, o2, by omega, by omega, g3, h4⟩
      | some old_l2 =>
        simp only [hi] at h
        by_cases hk2 : env.kmalloc_level_two i = true
        swap
        · simp [hk2] at h
        simp only [hk2, Bool.not_true, Bool.false_eq_true, if_false] at h
        cases h2 : copy_level_two K env i old_l2 VADDR_LEVEL_TWO_SIZE 0 m with
        | undefined => simp [h2] at h
        | nomem built mb => simp [h2] at h
        | done l2 ma =>
          simp only [h2] at h
          obtain ⟨ptr, hrec, rfl⟩ := copy_status_cons_done _ _ _ _ h
          obtain ⟨i1, i2, i3⟩ := ih (i + 1) ma ptr m1 hrec (by omega)
          have hG2 : ∀ j k e j1 k1 e1 l3 l31, j < 64 → k < 64 → j1 < 64 → k1 < 64 →
              old_l2[j]? = some (some l3) → l3[k]? = some e → e ≠ 0 →
              old_l2[j1]? = some (some l31) → l31[k1]? = some e1 → e1 ≠ 0 →
              frames_disjoint K.PAGE_SIZE (env.alloc_kpages i j k) (source_frame K e1) ∧
              (¬ (j = j1 ∧ k = k1) →
                frames_disjoint K.PAGE_SIZE (env.alloc_kpages i j k)
                  (env.alloc_kpages i j1 k1)) := by
            intro j k e j1 k1 e1 l3 l31 hj hk hj1 hk1 g1 g2 g3 g4 g5 g6
            have := hG i j k e i j1 k1 e1 old_l2 l3 old_l2 l31 (by omega) hj hk (by omega) hj1 hk1
              hi g1 g2 g3 hi g4 g5 g6
            exact ⟨this.1, fun hne => this.2 (fun hh => hne hh.2)⟩
          obtain ⟨c1, c2, c3⟩ := copy_level_two_spec K env i old_l2 hG2
            VADDR_LEVEL_TWO_SIZE 0 m l2 ma h2 (by simp [VADDR_LEVEL_TWO_SIZE])
          refine ⟨by simp [i1], ?_, ?_⟩
          · intro t ht
            cases t with
            | zero =>
              right
              refine ⟨old_l2, l2, by rw [Nat.add_zero, hi], by simp, ?_⟩
              intro j hj
              have := c2 j hj
              simpa using this
            | succ t =>
              have hidx : i + (t + 1) = i + 1 + t := by omega
              rw [hidx]
              simpa using i2 t (by omega)
          · have ht := copied_trans K _ _ m ma m1 c3 i3 (by
              rintro np e0 np1 e1 ⟨t, o3, a1, a2, a3, u, b1, b2, b3, b4, rfl⟩
                ⟨t1, o2, g1, g2, g3, v, p3, d1, d2, d3, w, f1, f2, f3, f4, rfl⟩
              have hlt : t < 64 := by
                simpa [VADDR_LEVEL_TWO_SIZE] using a2
              have hlu : u < 64 := by
                simpa [VADDR_LEVEL_THREE_SIZE] using b2
              have hlv : v < 64 := by
                simpa [VADDR_LEVEL_TWO_SIZE] using d2
              have hlw : w < 64 := by
                simpa [VADDR_LEVEL_THREE_SIZE] using f2
              have := hG i t u e0 t1 v w e1 old_l2 o3 o2 p3 (by omega) hlt hlu (by omega) hlv hlw
                hi a3 b3 b4 g3 d3 f3 f4
              exact ⟨this.2 (by omega), this.1⟩)
            apply copied_congr K _ _ _ _ _ ht
            intro np e1
            constructor
            · rintro (hh | ⟨t, o2, h1, g2, g3, h4⟩)
              · exact ⟨i, old_l2, by omega, by omega, hi, hh⟩
              · exact ⟨t, o2, by omega, by omega, g3, h4⟩
            · rintro ⟨t, o2, h1, g2, g3, h4⟩
              by_cases hti : t = i
              · left
                subst hti
                rw [hi] at g3
                cases g3
                exact h4
              · right
                exact ⟨t, o2, by omega, by omega, g3, h4⟩

theorem page_table_walk_entry (old : addrspace)
    (old_pt : List (Option (List (Option (List Nat))))) (i j k : Nat)
    (l2 : List (Option (List Nat))) (l3 : List Nat) (e : Nat)
    (hpt : old.page_table = some old_pt) (h1 : old_pt[i]? = some (some l2))
    (h2 : l2[j]? = some (some l3)) (h3 : l3[k]? = some e) :
    page_table_walk old i j k = some e := by
  simp only [page_table_walk, hpt, h1, h2, h3]
  split
  · rename_i he
    rw [he]
  · rfl

theorem page_table_walk_nonzero (old : addrspace)
    (old_pt : List (Option (List (Option (List Nat))))) (i j k e : Nat)
    (hpt : old.page_table = some old_pt) (hw : page_table_walk old i j k = some e)
    (he : e ≠ 0) :
    ∃ l2 l3, old_pt[i]? = some (some l2) ∧ l2[j]? = some (some l3) ∧ l3[k]? = some e := by
  simp only [page_table_walk, hpt] at hw
  cases h1 : old_pt[i]? with
  | none => simp [h1] at hw
  | some p =>
    cases p with
    | none =>
      simp only [h1, Option.some.injEq] at hw
      exact absurd hw.symm he
    | some l2 =>
      simp only [h1] at hw
      cases h2 : l2[j]? with
      | none => simp [h2] at hw
      | some q =>
        cases q with
        | none =>
          simp only [h2, Option.some.injEq] at hw
          exact absurd hw.symm he
        | some l3 =>
          simp only [h2] at hw
          cases h3 : l3[k]? with
          | none => simp [h3] at hw
          | some x =>
            simp only [h3] at hw
            split at hw
            · simp only [Option.some.injEq] at hw
              exact absurd hw.symm he
            · simp only [Option.some.injEq] at hw
              subst hw
              exact ⟨l2, l3, rfl, h2, h3⟩

theorem addr_of_indices (i j k : Nat) (hi : i < 256) (hj : j < 64) (hk : k < 64) :
    i * 16777216 + j * 262144 + k * 4096 < 4294967296 ∧
    (i * 16777216 + j * 262144 + k * 4096) / 16777216 = i ∧
    (i * 16777216 + j * 262144 + k * 4096) / 262144 % 64 = j ∧
    (i * 16777216 + j * 262144 + k * 4096) / 4096 % 64 = k := by
  omega

theorem alloc_contract_positions (K : vm_consts) (env : copy_env) (old : addrspace)
    (old_pt : List (Option (List (Option (List Nat)))))
    (hpt : old.page_table = some old_pt) (hc : alloc_contract K env old) :
    ∀ i j k e i1 j1 k1 e1 l2 l3 l21 l31, i < 256 → j < 64 → k < 64 →
      i1 < 256 → j1 < 64 → k1 < 64 →
      old_pt[i]? = some (some l2) → l2[j]? = some (some l3) → l3[k]? = some e → e ≠ 0 →
      old_pt[i1]? = some (some l21) → l21[j1]? = some (some l31) → l31[k1]? = some e1 →
      e1 ≠ 0 →
      frames_disjoint K.PAGE_SIZE (env.alloc_kpages i j k) (source_frame K e1) ∧
      (¬ (i = i1 ∧ j = j1 ∧ k = k1) →
        frames_disjoint K.PAGE_SIZE (env.alloc_kpages i j k) (env.alloc_kpages i1 j1 k1)) := by
  intro i j k e i1 j1 k1 e1 l2 l3 l21 l31 hi hj hk hi1 hj1 hk1 a1 a2 a3 he b1 b2 b3 he1
  obtain ⟨pa, pi, pj, pk⟩ := addr_of_indices i j k hi hj hk
  obtain ⟨qa, qi, qj, qk⟩ := addr_of_indices i1 j1 k1 hi1 hj1 hk1
  have hwa := page_table_walk_entry old old_pt i j k l2 l3 e hpt a1 a2 a3
  have hwb := page_table_walk_entry old old_pt i1 j1 k1 l21 l31 e1 hpt b1 b2 b3
  have hla : page_table_lookup old (i * 16777216 + j * 262144 + k * 4096) = some e := by
    rw [page_table_lookup_eq_walk, pi, pj, pk]
    exact hwa
  have hlb : page_table_lookup old (i1 * 16777216 + j1 * 262144 + k1 * 4096) = some e1 := by
    rw [page_table_lookup_eq_walk, qi, qj, qk]
    exact hwb
  obtain ⟨_, _, h3⟩ := hc _ pa e hla he
  have h4 := h3 _ qa e1 hlb he1
  simp only [copy_frame, pi, pj, pk, qi, qj, qk] at h4
  refine ⟨h4.1, fun hne => h4.2 ?_⟩
  intro heq
  apply hne
  omega

theorem copy_regions_table (K : vm_consts) (env : copy_env) :
    ∀ (regs : List as_region) (n : Nat) (a : addrspace),
      ∃ a1, copy_regions K env regs n (some a) = some a1 ∧ a1.page_table = a.page_table := by
  intro regs
  induction regs with
  | nil =>
    intro n a
    exact ⟨a, rfl, rfl⟩
  | cons r rs ih =>
    intro n a
    simp only [copy_regions, as_define_region]
    split
    · exact ih (n + 1) a
    · split
      · exact ih (n + 1) a
      · split
        · exact ih (n + 1) a
        · obtain ⟨a1, h1, h2⟩ := ih (n + 1)
            { a with as_regions_head :=
                { vbase := r.vbase, vtop := add32 r.vbase r.memsize, memsize := r.memsize,
                  readable := r.readable, writeable := r.writeable,
                  executable := r.executable } :: a.as_regions_head }
          exact ⟨a1, h1, h2⟩

theorem copy_walk (K : vm_consts) (env : copy_env) (old new : addrspace)
    (old_pt pt : List (Option (List (Option (List Nat)))))
    (hold : old.page_table = some old_pt) (hnew : new.page_table = some pt)
    (hT : ∀ t, t < 256 →
      (old_pt[0 + t]? = some none ∧ pt[t]? = some none) ∨
      ∃ o2 n2, old_pt[0 + t]? = some (some o2) ∧ pt[t]? = some (some n2) ∧
        ∀ j, j < 64 →
          (o2[j]? = some none ∧ n2[j]? = some none) ∨
          ∃ o3 n3, o2[j]? = some (some o3) ∧ n2[j]? = some (some n3) ∧
            ∀ k, k < 64 → ∃ e, o3[k]? = some e ∧
              n3[k]? =
                some (if e = 0 then 0 else copy_pte K (env.alloc_kpages (0 + t) j k) e) ∧
              (e ≠ 0 → env.alloc_kpages (0 + t) j k ≠ 0))
    (i j k : Nat) (hi : i < 256) (hj : j < 64) (hk : k < 64) :
    ∃ e, page_table_walk old i j k = some e ∧
      page_table_walk new i j k =
        some (if e = 0 then 0 else copy_pte K (env.alloc_kpages i j k) e) ∧
      (e ≠ 0 → env.alloc_kpages i j k ≠ 0) := by
  rcases hT i hi with ⟨h1, h2⟩ | ⟨o2, n2, h1, h2, h3⟩
  · rw [Nat.zero_add] at h1
    exact ⟨0, by simp [page_table_walk, hold, h1], by simp [page_table_walk, hnew, h2],
      fun hh => absurd rfl hh⟩
  · rw [Nat.zero_add] at h1
    rcases h3 j hj with ⟨g1, g2⟩ | ⟨o3, n3, g1, g2, g3⟩
    · exact ⟨0, by simp [page_table_walk, hold, h1, g1],
        by simp [page_table_walk, hnew, h2, g2], fun hh => absurd rfl hh⟩
    · obtain ⟨e, f1, f2, f3⟩ := g3 k hk
      rw [Nat.zero_add] at f2 f3
      refine ⟨e, page_table_walk_entry old old_pt i j k o2 o3 e hold h1 g1 f1, ?_, f3⟩
      rw [page_table_walk_entry new pt i j k n2 n3 _ hnew h2 g2 f2]

theorem or_eq_zero_left (x y : Nat) (h : x ||| y = 0) : x = 0 := by
  have h1 := or_and_self_right y x
  rw [Nat.or_comm, h, Nat.zero_and] at h1
  exact h1.symm

theorem or_and_of_right_zero (x v D : Nat) (hv : v &&& D = 0) : (x ||| v) &&& D = x &&& D := by
  rw [Nat.and_comm, Nat.and_or_distrib_left, Nat.and_comm D x, Nat.and_comm D v, hv,
    Nat.or_zero]

theorem copy_pte_bits (K : vm_consts) (hP : K.PAGE_FRAME = 4294963200) (np e : Nat) :
    copy_pte K np e &&& 4095 = e &&& 4095 ∧
    copy_pte K np e &&& K.PAGE_FRAME = K.KVADDR_TO_PADDR np &&& K.PAGE_FRAME := by
  have hn : not32 K.PAGE_FRAME = 4095 := by
    rw [hP]
    decide
  unfold copy_pte
  rw [hn]
  constructor
  · rw [or_and_of_left_zero]
    · rw [Nat.and_assoc, Nat.and_self]
    · rw [hP]
      exact and_and_eq_zero _ _ _ (by decide)
  · rw [or_and_of_right_zero]
    · rw [Nat.and_assoc, Nat.and_self]
    · rw [hP]
      exact and_and_eq_zero _ _ _ (by decide)

theorem jobs_of_lookup (env : copy_env) (old : addrspace)
    (old_pt : List (Option (List (Option (List Nat)))))
    (hold : old.page_table = some old_pt) (a : Nat) (ha : a < 4294967296) (e : Nat)
    (hl : page_table_lookup old a = some e) (he : e ≠ 0) :
    level_one_jobs env old_pt 0 VADDR_LEVEL_ONE_SIZE (copy_frame env a) e := by
  rw [page_table_lookup_eq_walk] at hl
  obtain ⟨l2, l3, h1, h2, h3⟩ := page_table_walk_nonzero old old_pt _ _ _ e hold hl he
  refine ⟨a / 16777216, l2, Nat.zero_le _, ?_, h1, a / 262144 % 64, l3, Nat.zero_le _, ?_, h2,
    a / 4096 % 64, Nat.zero_le _, ?_, h3, he, rfl⟩
  · show a / 16777216 < 0 + 256
    omega
  · show a / 262144 % 64 < 0 + 64
    omega
  · show a / 4096 % 64 < 0 + 64
    omega

theorem lookup_of_jobs (env : copy_env) (old : addrspace)
    (old_pt : List (Option (List (Option (List Nat)))))
    (hold : old.page_table = some old_pt) (np e : Nat)
    (h : level_one_jobs env old_pt 0 VADDR_LEVEL_ONE_SIZE np e) :
    ∃ a, a < 4294967296 ∧ page_table_lookup old a = some e ∧ e ≠ 0 ∧ np = copy_frame env a := by
  obtain ⟨i, l2, _, hi, h1, j, l3, _, hj, h2, k, _, hk, h3, he, rfl⟩ := h
  have hi1 : i < 256 := by
    simpa [VADDR_LEVEL_ONE_SIZE] using hi
  have hj1 : j < 64 := by
    simpa [VADDR_LEVEL_TWO_SIZE] using hj
  have hk1 : k < 64 := by
    simpa [VADDR_LEVEL_THREE_SIZE] using hk
  obtain ⟨pa, pi, pj, pk⟩ := addr_of_indices i j k hi1 hj1 hk1
  refine ⟨i * 16777216 + j * 262144 + k * 4096, pa, ?_, he, ?_⟩
  · rw [page_table_lookup_eq_walk, pi, pj, pk]
    exact page_table_walk_entry old old_pt i j k l2 l3 e hold h1 h2 h3
  · simp only [copy_frame, pi, pj, pk]

/-- What a successful `as_copy` leaves: the new address space has a page table
related entry by entry to the source's, and memory is the old memory after the
page copies. -/
theorem as_copy_done (K : vm_consts) (hE : K.ENOMEM ≠ 0) (old : addrspace) (m : phys_mem)
    (env : copy_env) (res : copy_result)
    (hres : as_copy K old m env = some res) (hret : res.ret = 0)
    (hc : alloc_contract K env old) :
    ∃ new old_pt, res.new_as = some (some new) ∧ old.page_table = some old_pt ∧
      (∀ i j k, i < 256 → j < 64 → k < 64 →
        ∃ e, page_table_walk old i j k = some e ∧
          page_table_walk new i j k =
            some (if e = 0 then 0 else copy_pte K (env.alloc_kpages i j k) e) ∧
          (e ≠ 0 → env.alloc_kpages i j k ≠ 0)) ∧
      copied K (level_one_jobs env old_pt 0 VADDR_LEVEL_ONE_SIZE) m res.mem := by
  unfold as_copy at hres
  cases hcr : as_create env.kmalloc_as env.kmalloc_level_one with
  | none =>
    simp only [hcr, Option.some.injEq] at hres
    rw [← hres] at hret
    exact absurd hret hE
  | some newas =>
    simp only [hcr] at hres
    cases hold : old.page_table with
    | none => simp [hold] at hres
    | some old_pt =>
      simp only [hold] at hres
      cases h1 : copy_level_one K env old_pt VADDR_LEVEL_ONE_SIZE 0 m with
      | undefined => simp [h1] at hres
      | nomem built mb =>
        simp only [h1] at hres
        split at hres
        · cases hres
        · simp only [Option.some.injEq] at hres
          rw [← hres] at hret
          exact absurd hret hE
      | done pt m1 =>
        simp only [h1, Option.some.injEq] at hres
        obtain ⟨new, hn1, hn2⟩ := copy_regions_table K env old.as_regions_head 0
          { newas with page_table := some pt }
        obtain ⟨_, c2, c3⟩ := copy_level_one_spec K env old_pt
          (alloc_contract_positions K env old old_pt hold hc) VADDR_LEVEL_ONE_SIZE 0 m pt m1 h1
          (by simp [VADDR_LEVEL_ONE_SIZE])
        refine ⟨new, old_pt, ?_, rfl, ?_, ?_⟩
        · rw [← hres]
          simp only [hn1]
        · intro i j k hi hj hk
          exact copy_walk K env old new old_pt pt hold hn2 c2 i j k hi hj hk
        · rw [← hres]
          exact c3

/-- C20. Let `PAGE_FRAME` be `0xfffff000`, `PAGE_SIZE` be 4096 and `ENOMEM` be
nonzero, and let the frame allocator keep its contract while `as_copy` runs
(`alloc_contract`).  When `as_copy` returns 0 it has stored a new address space,
and for every 32-bit address `a` both lookups are defined; the new entry is
nonzero if and only if the source entry is; in that case the low 12 bits of the
two entries are equal, the frame of the new entry is the frame `alloc_kpages`
returned for this page (nonzero, held afterwards), its `PAGE_SIZE` bytes are the
bytes the source frame had, and it is the frame of no entry of the source.  The
source address space is an argument that `as_copy` only reads; the bytes of
memory outside the new frames, so those of the source frames, are unchanged, and
the frames held before are still held. -/
theorem as_copy_deep_copy (K : vm_consts) (hP : K.PAGE_FRAME = 4294963200)
    (hS : K.PAGE_SIZE = 4096) (hE : K.ENOMEM ≠ 0) (old : addrspace) (m : phys_mem)
    (env : copy_env) (res : copy_result)
    (hres : as_copy K old m env = some res) (hret : res.ret = 0)
    (hc : alloc_contract K env old) :
    ∃ new, res.new_as = some (some new) ∧
      (∀ a, a < 4294967296 →
        ∃ eo en, page_table_lookup old a = some eo ∧ page_table_lookup new a = some en ∧
          (en ≠ 0 ↔ eo ≠ 0) ∧
          (eo ≠ 0 →
            en &&& 4095 = eo &&& 4095 ∧
            copy_frame env a ≠ 0 ∧ copy_frame env a ∈ res.mem.held ∧
            en &&& K.PAGE_FRAME = K.KVADDR_TO_PADDR (copy_frame env a) &&& K.PAGE_FRAME ∧
            K.PADDR_TO_KVADDR (en &&& K.PAGE_FRAME) = copy_frame env a ∧
            (∀ off, off < K.PAGE_SIZE →
              res.mem.bytes (copy_frame env a + off) = m.bytes (source_frame K eo + off)) ∧
            (∀ b, b < 4294967296 → ∀ eb, page_table_lookup old b = some eb → eb ≠ 0 →
              en &&& K.PAGE_FRAME ≠ eb &&& K.PAGE_FRAME ∧
              ∀ off, off < K.PAGE_SIZE →
                res.mem.bytes (source_frame K eb + off) = m.bytes (source_frame K eb + off)))) ∧
      (∀ x, (∀ a, a < 4294967296 → ∀ e, page_table_lookup old a = some e → e ≠ 0 →
          ¬ (copy_frame env a ≤ x ∧ x < copy_frame env a + K.PAGE_SIZE)) →
        res.mem.bytes x = m.bytes x) ∧
      (∀ x, x ∈ m.held → x ∈ res.mem.held) := by
  obtain ⟨new, old_pt, hnew, hold, hwalk, hcop⟩ := as_copy_done K hE old m env res hres hret hc
  obtain ⟨c1, c2, c3⟩ := hcop
  have houtside : ∀ x, (∀ a, a < 4294967296 → ∀ e, page_table_lookup old a = some e → e ≠ 0 →
      ¬ (copy_frame env a ≤ x ∧ x < copy_frame env a + K.PAGE_SIZE)) →
      res.mem.bytes x = m.bytes x := by
    intro x hx
    apply c1 x
    intro np e hj
    obtain ⟨a, ha, hl, he, rfl⟩ := lookup_of_jobs env old old_pt hold np e hj
    exact hx a ha e hl he
  refine ⟨new, hnew, ?_, houtside, ?_⟩
  · intro a ha
    have hi : a / 16777216 < 256 := by omega
    have hj : a / 262144 % 64 < 64 := by omega
    have hk : a / 4096 % 64 < 64 := by omega
    obtain ⟨eo, w1, w2, w3⟩ := hwalk _ _ _ hi hj hk
    have l1 : page_table_lookup old a = some eo := by
      rw [page_table_lookup_eq_walk]
      exact w1
    have l2 : page_table_lookup new a =
        some (if eo = 0 then 0 else copy_pte K (copy_frame env a) eo) := by
      rw [page_table_lookup_eq_walk]
      exact w2
    refine ⟨eo, _, l1, l2, ?_, ?_⟩
    · by_cases he : eo = 0
      · simp [he]
      · simp only [he, if_false, ne_eq, not_false_eq_true, iff_true]
        intro h0
        obtain ⟨_, hnz, _⟩ := hc a ha eo l1 he
        exact hnz (or_eq_zero_left _ _ h0)
    · intro he
      simp only [he, if_false]
      obtain ⟨hrt, hnz, hdis⟩ := hc a ha eo l1 he
      obtain ⟨b1, b2⟩ := copy_pte_bits K hP (copy_frame env a) eo
      have hjob := jobs_of_lookup env old old_pt hold a ha eo l1 he
      refine ⟨b1, ?_, ?_, b2, ?_, ?_, ?_⟩
      · exact w3 he
      · exact (c3 _).2 (Or.inr ⟨eo, hjob⟩)
      · rw [b2]
        exact hrt
      · intro off hoff
        exact c2 _ _ hjob off hoff
      · intro b hb eb lb heb
        have hd := (hdis b hb eb lb heb).1
        constructor
        · intro heq
          rw [b2] at heq
          have h1 : source_frame K eb = copy_frame env a := by
            unfold source_frame
            rw [← heq]
            exact hrt
          unfold frames_disjoint at hd
          omega
        · intro off hoff
          apply houtside
          intro a1 ha1 e1 hl1 he1
          have hd1 := ((hc a1 ha1 e1 hl1 he1).2.2 b hb eb lb heb).1
          unfold frames_disjoint at hd1
          omega
  · intro x hx
    exact (c3 x).2 (Or.inl hx)

theorem getElem?_set_replicate {α : Type} (n i t : Nat) (x d y : α)
    (h : ((List.replicate n d).set i x)[t]? = some y) (hy : y ≠ d) : t = i ∧ y = x := by
  rw [List.getElem?_set] at h
  split at h
  · rename_i hit
    split at h
    · simp only [Option.some.injEq] at h
      exact ⟨hit.symm, h.symm⟩
    · cases h
  · rw [List.getElem?_replicate] at h
    split at h
    · simp only [Option.some.injEq] at h
      exact absurd h.symm hy
    · cases h

theorem text_mapped_as_entries (a : Nat) (e : Nat)
    (hl : page_table_lookup text_mapped_as a = some e) (he : e ≠ 0) :
    a / 16777216 = 0 ∧ a / 262144 % 64 = 16 ∧ a / 4096 % 64 = 0 ∧ e = 328192 := by
  rw [page_table_lookup_eq_walk] at hl
  obtain ⟨l2, l3, h1, h2, h3⟩ :=
    page_table_walk_nonzero text_mapped_as _ _ _ _ e rfl hl he
  obtain ⟨hi, h1a⟩ := getElem?_set_replicate _ _ _ _ _ _ h1 (by simp)
  simp only [Option.some.injEq] at h1a
  subst h1a
  obtain ⟨hj, h2a⟩ := getElem?_set_replicate _ _ _ _ _ _ h2 (by simp)
  simp only [Option.some.injEq] at h2a
  subst h2a
  obtain ⟨hk, h3a⟩ := getElem?_set_replicate _ _ _ _ _ _ h3 he
  exact ⟨hi, hj, hk, h3a⟩

theorem text_mapped_as_contract : alloc_contract mips copy_ok_env text_mapped_as := by
  intro a _ e hl he
  obtain ⟨hi, hj, hk, rfl⟩ := text_mapped_as_entries a e hl he
  have hf : copy_frame copy_ok_env a = 2152726528 := by
    simp only [copy_frame, copy_ok_env, hj, hk]
  rw [hf]
  refine ⟨by decide, by decide, ?_⟩
  intro b _ e1 hlb he1
  obtain ⟨hi1, hj1, hk1, rfl⟩ := text_mapped_as_entries b e1 hlb he1
  have hfb : copy_frame copy_ok_env b = 2152726528 := by
    simp only [copy_frame, copy_ok_env, hj1, hk1]
  rw [hfb]
  refine ⟨by decide, ?_⟩
  intro hne
  exfalso
  apply hne
  omega

set_option maxRecDepth 100000 in
/-- Witness for C20 with the MIPS constants: `as_copy` of `text_mapped_as`, with
the frame at `0x80500000` returned for the one mapped page, returns 0 and stores
`text_copy_as`; at `0x00400100` the source entry is `0x00050200` and the new
entry is `0x00500200`. -/
theorem as_copy_deep_copy_witness :
    ∃ new, some (some text_copy_as) = some (some new) ∧
      ∃ eo en, page_table_lookup text_mapped_as 4194560 = some eo ∧
        page_table_lookup new 4194560 = some en ∧ (en ≠ 0 ↔ eo ≠ 0) :=
  match as_copy_deep_copy mips (by decide) (by decide) (by decide) text_mapped_as sevens
      copy_ok_env
      { ret := 0, new_as := some (some text_copy_as),
        mem := copy_page mips 2152726528 328192 sevens }
      rfl rfl text_mapped_as_contract with
  | ⟨new, h1, h2, _⟩ =>
    match h2 4194560 (by decide) with
    | ⟨eo, en, g1, g2, g3, _⟩ => ⟨new, h1, eo, en, g1, g2, g3⟩

/-! ## C21: allocation failures in `as_copy` -/

set_option maxRecDepth 100000 in
/-- C21 fails on the code.  With the MIPS constants and the source
`text_mapped_as` (one region, one mapped page): when `alloc_kpages` returns 0,
`as_copy` uses the address unchecked, which is a NULL write, and reports
nothing; when the `kmalloc` of the level-three array fails, `as_destroy` walks a
level-two array whose entries after the failed one were never written, and
`as_copy` reports nothing defined; when the `kmalloc` of the region record
fails inside `as_define_region`, `as_copy` returns 0 and stores an address space
that has the pages but no region.  Only the failures of `as_create` and of a
level-two `kmalloc` give `ENOMEM`. -/
theorem as_copy_failure_broken :
    (as_copy mips text_mapped_as sevens copy_nopage_env).map (fun r => r.ret) = none ∧
    (as_copy mips text_mapped_as sevens copy_nolevel3_env).map (fun r => r.ret) = none ∧
    (as_copy mips text_mapped_as sevens copy_noregion_env).map (fun r => (r.ret, r.new_as)) =
      some (0, some (some text_copy_noregion_as)) ∧
    text_mapped_as.as_regions_head.length = 1 ∧
    text_copy_noregion_as.as_regions_head = [] ∧
    page_table_lookup text_copy_noregion_as 4194560 = some 5243392 ∧
    (as_copy mips text_mapped_as sevens
        { copy_ok_env with kmalloc_level_two := fun _ => false }).map
      (fun r => (r.ret, r.new_as)) = some (mips.ENOMEM, some none) := by
  decide

/-! ## C22: the bounds check of `as_define_region` -/

set_option maxRecDepth 100000 in
/-- C22 fails on the code.  With the MIPS constants, `vaddr = 0x7fff0000` and
`memsize = 0xffff0000` are 32-bit values whose sum exceeds `USERSPACETOP`, but
the sum is computed on 32-bit words and wraps to `0x7ffe0000`, so
`as_define_region` returns 0 and puts at the head of the list a region whose
`vtop` is below its `vbase`. -/
theorem as_define_region_wraps :
    2147418112 < 4294967296 ∧ 4294901760 < 4294967296 ∧
    2147418112 + 4294901760 > mips.USERSPACETOP ∧
    add32 2147418112 4294901760 = 2147352576 ∧
    as_define_region mips (some fresh_as) 2147418112 4294901760 1 1 0 true true =
      (0, some wrapped_as) ∧
    wrapped_as.as_regions_head =
      { vbase := 2147418112, vtop := 2147352576, memsize := 4294901760,
        readable := 1, writeable := 1, executable := 0 } :: fresh_as.as_regions_head ∧
    ¬ (∀ rg ∈ wrapped_as.as_regions_head, rg.vbase ≤ rg.vtop ∧ rg.vtop ≤ mips.USERSPACETOP) := by
  decide

/-- Without wrap-around the bounds check is the one on the unbounded sum: the
call returns `ENOMEM` with the address space unchanged when `vaddr + memsize`
exceeds `USERSPACETOP`, and otherwise, the allocations succeeding, returns 0
with the new region at the head. -/
theorem as_define_region_no_wrap (K : vm_consts) (a : addrspace) (vaddr memsize : Nat)
    (readable writeable executable : Int) (h : vaddr + memsize < 4294967296) :
    (vaddr + memsize > K.USERSPACETOP →
      ∀ kr kn, as_define_region K (some a) vaddr memsize readable writeable executable kr kn =
        (K.ENOMEM, some a)) ∧
    (vaddr + memsize ≤ K.USERSPACETOP →
      as_define_region K (some a) vaddr memsize readable writeable executable true true =
        (0, some { a with as_regions_head :=
          { vbase := vaddr, vtop := vaddr + memsize, memsize := memsize,
            readable := readable, writeable := writeable, executable := executable }
            :: a.as_regions_head })) := by
  have hs : add32 vaddr memsize = vaddr + memsize := by
    unfold add32
    omega
  constructor
  · intro hgt kr kn
    simp only [as_define_region, hs, hgt, if_true]
  · intro hle
    have hn : ¬ (vaddr + memsize > K.USERSPACETOP) := by omega
    simp only [as_define_region, hs, hn, if_false, Bool.not_true, Bool.false_eq_true]

/-! ## C23: the order of the region lookup -/

theorem addr_to_region_walk_first (l : List as_region) (a : Nat) (rg : as_region)
    (h : addr_to_region_walk l a = some rg) :
    ∃ pre post, l = pre ++ rg :: post ∧ (rg.vbase ≤ a ∧ a < rg.vtop) ∧
      ∀ q ∈ pre, ¬ (q.vbase ≤ a ∧ a < q.vtop) := by
  induction l with
  | nil => simp [addr_to_region_walk] at h
  | cons x xs ih =>
    simp only [addr_to_region_walk] at h
    split at h
    · rename_i hx
      cases h
      exact ⟨[], xs, rfl, hx, fun q hq => absurd hq (List.not_mem_nil q)⟩
    · rename_i hx
      obtain ⟨pre, post, h1, h2, h3⟩ := ih h
      refine ⟨x :: pre, post, by rw [h1]; rfl, h2, ?_⟩
      intro q hq
      rcases List.mem_cons.1 hq with rfl | hq1
      · exact hx
      · exact h3 q hq1

set_option maxRecDepth 100000 in
/-- Counterexample to C23 as stated, with the MIPS constants: `text_as` has the
read-only region `[0x00400000, 0x00401000)`; after
`as_define_region(as, 0x00400000, 0x2000, 1, 1, 0)` the address `0x00400100` is
in both regions and `addr_to_region` returns the writable region defined
second, not the one defined first; a write fault there returned `EFAULT` before
the second definition and returns 0 after it. -/
theorem addr_to_region_first_defined_counterexample :
    as_define_region mips (some text_as) 4194304 8192 1 1 0 true true = (0, some overlap_as) ∧
    addr_to_region text_as 4194560 =
      some { vbase := 4194304, vtop := 4198400, memsize := 4096,
             readable := 1, writeable := 0, executable := 1 } ∧
    addr_to_region overlap_as 4194560 =
      some { vbase := 4194304, vtop := 4202496, memsize := 8192,
             readable := 1, writeable := 1, executable := 0 } ∧
    (vm_fault mips true (some text_as) sevens mips.VM_FAULT_WRITE 4194560 fault_ok_env).map
      (fun r => r.ret) = some mips.EFAULT ∧
    (vm_fault mips true (some overlap_as) sevens mips.VM_FAULT_WRITE 4194560 fault_ok_env).map
      (fun r => r.ret) = some 0 := by
  decide

/-- C23 (amended).  `addr_to_region` returns the first containing region from
the head of the list, and `as_define_region` inserts at the head: when
`as_define_region` returns 0 (`ENOMEM` being nonzero), the new list is the new
region followed by the old list and nothing else changes; every address inside
the new region resolves to the new region, whatever regions were defined
before, and every address outside it resolves as before.  So an address that
some region contains is resolved, and to the containing region defined last.  For `vm_fault` after the
definition: at an address inside the new region whose page has no valid entry, a
read or write fault is decided by the new region (a write with the new
`writeable` 0 and the loading flag 0 returns `EFAULT`; otherwise, the
allocations succeeding, it returns 0 and the entry stored and loaded is the one
`init_pte` builds from the new region); at an address whose page has a valid
entry the region is not consulted: the fault returns the same code, loads the
same TLB entry and leaves the same memory as before the definition. -/
theorem addr_to_region_latest (K : vm_consts) (hE : K.ENOMEM ≠ 0) (a a1 : addrspace)
    (vaddr memsize : Nat) (readable writeable executable : Int) (kr kn : Bool)
    (h : as_define_region K (some a) vaddr memsize readable writeable executable kr kn =
      (0, some a1)) :
    a1.as_regions_head =
      { vbase := vaddr, vtop := add32 vaddr memsize, memsize := memsize,
        readable := readable, writeable := writeable, executable := executable }
        :: a.as_regions_head ∧
    a1.page_table = a.page_table ∧ a1.loading_flag = a.loading_flag ∧
    (∀ addr, vaddr ≤ addr → addr < add32 vaddr memsize →
      addr_to_region a1 addr =
        some { vbase := vaddr, vtop := add32 vaddr memsize, memsize := memsize,
               readable := readable, writeable := writeable, executable := executable }) ∧
    (∀ addr, ¬ (vaddr ≤ addr ∧ addr < add32 vaddr memsize) →
      addr_to_region a1 addr = addr_to_region a addr) ∧
    (∀ (b : addrspace) (addr : Nat) (rg : as_region), addr_to_region b addr = some rg →
      ∃ pre post, b.as_regions_head = pre ++ rg :: post ∧ (rg.vbase ≤ addr ∧ addr < rg.vtop) ∧
        ∀ q ∈ pre, ¬ (q.vbase ≤ addr ∧ addr < q.vtop)) ∧
    (∀ (m : phys_mem) (ft : Int) (addr : Nat) (env : fault_env) (pte : Nat),
      (ft = K.VM_FAULT_READ ∨ ft = K.VM_FAULT_WRITE) → ft ≠ K.VM_FAULT_READONLY →
      vaddr ≤ addr → addr < add32 vaddr memsize →
      page_table_lookup a addr = some pte → pte &&& K.TLBLO_VALID = 0 →
      (ft = K.VM_FAULT_WRITE ∧ writeable = 0 ∧ a.loading_flag = 0 →
        vm_fault K true (some a1) m ft addr env =
          some { ret := K.EFAULT, as := some a1, mem := m, tlb := [] }) ∧
      (¬ (ft = K.VM_FAULT_WRITE ∧ writeable = 0 ∧ a.loading_flag = 0) →
        split_8_6_6 K → addr < 4294967296 → a.page_table ≠ none →
        env.alloc_kpages ≠ 0 → env.kmalloc_level_two = true →
        env.kmalloc_level_three = true →
        ∃ res a2, vm_fault K true (some a1) m ft addr env = some res ∧
          res.ret = 0 ∧ res.as = some a2 ∧
          page_table_lookup a2 addr =
            some (init_pte K
              { vbase := vaddr, vtop := add32 vaddr memsize, memsize := memsize,
                readable := readable, writeable := writeable, executable := executable }
              (K.KVADDR_TO_PADDR env.alloc_kpages)) ∧
          res.tlb = [(addr &&& K.TLBHI_VPAGE,
            init_pte K
              { vbase := vaddr, vtop := add32 vaddr memsize, memsize := memsize,
                readable := readable, writeable := writeable, executable := executable }
              (K.KVADDR_TO_PADDR env.alloc_kpages) ||| a.loading_flag)])) ∧
    (∀ (m : phys_mem) (ft : Int) (addr : Nat) (env : fault_env) (pte : Nat),
      (ft = K.VM_FAULT_READ ∨ ft = K.VM_FAULT_WRITE) → ft ≠ K.VM_FAULT_READONLY →
      page_table_lookup a addr = some pte → pte &&& K.TLBLO_VALID ≠ 0 →
      ∃ res res1, vm_fault K true (some a) m ft addr env = some res ∧
        vm_fault K true (some a1) m ft addr env = some res1 ∧
        res1.ret = res.ret ∧ res1.tlb = res.tlb ∧ res1.mem = res.mem ∧
        res.as = some a ∧ res1.as = some a1) ∧
    (∀ (b : addrspace) (addr : Nat),
      (∃ q ∈ b.as_regions_head, q.vbase ≤ addr ∧ addr < q.vtop) →
      ∃ rg, addr_to_region b addr = some rg) := by
  have hE1 : ¬ (K.ENOMEM = 0) := hE
  have ha1 : a1 = { a with as_regions_head :=
      { vbase := vaddr, vtop := add32 vaddr memsize, memsize := memsize,
        readable := readable, writeable := writeable, executable := executable }
        :: a.as_regions_head } := by
    simp only [as_define_region] at h
    split at h
    · simp only [Prod.mk.injEq] at h
      exact absurd h.1 hE1
    · split at h
      · simp only [Prod.mk.injEq] at h
        exact absurd h.1 hE1
      · split at h
        · simp only [Prod.mk.injEq] at h
          exact absurd h.1 hE1
        · simp only [Prod.mk.injEq, Option.some.injEq, true_and] at h
          exact h.symm
  have hin : ∀ addr, vaddr ≤ addr → addr < add32 vaddr memsize →
      addr_to_region a1 addr =
        some { vbase := vaddr, vtop := add32 vaddr memsize, memsize := memsize,
               readable := readable, writeable := writeable, executable := executable } := by
    intro addr h1 h2
    rw [ha1]
    simp only [addr_to_region, addr_to_region_walk, h1, h2, and_self, if_true]
  have hpt : a1.page_table = a.page_table := by rw [ha1]
  have hfl : a1.loading_flag = a.loading_flag := by rw [ha1]
  have hlook : ∀ x, page_table_lookup a1 x = page_table_lookup a x :=
    fun x => page_table_lookup_congr a1 a hpt x
  refine ⟨by rw [ha1], hpt, hfl, hin, ?_, ?_, ?_, ?_, ?_⟩
  · intro addr hn
    rw [ha1]
    simp only [addr_to_region, addr_to_region_walk, hn, if_false]
  · intro b addr rg hb
    exact addr_to_region_walk_first _ _ _ hb
  · intro m ft addr env pte hft hro hlo hhi hl hv
    have hl1 : page_table_lookup a1 addr = some pte := by
      rw [hlook]
      exact hl
    have hrg := hin addr hlo hhi
    constructor
    · rintro ⟨hw1, hw2, hw3⟩
      subst hw1
      unfold vm_fault
      have hro1 : ¬ (K.VM_FAULT_WRITE = K.VM_FAULT_READONLY) := hro
      have hfl1 : a1.loading_flag = 0 := by rw [hfl, hw3]
      simp only [hro1, if_false, or_true, not_true_eq_false, Bool.not_true, Bool.false_eq_true,
        hl1, hv, ne_eq, not_false_eq_true, if_true, hrg, hw2, hfl1, and_self]
    · intro hnw hK haddr hptn hpage hk2 hk3
      have hnw1 : ¬ (ft = K.VM_FAULT_WRITE ∧ writeable = 0 ∧ a1.loading_flag = 0) := by
        rw [hfl]
        exact hnw
      have hptn1 : a1.page_table ≠ none := by
        rw [hpt]
        exact hptn
      obtain ⟨r, a2, hins, hr⟩ := insert_defined K hK a1
        (init_pte K
          { vbase := vaddr, vtop := add32 vaddr memsize, memsize := memsize,
            readable := readable, writeable := writeable, executable := executable }
          (K.KVADDR_TO_PADDR env.alloc_kpages)) haddr
        env.kmalloc_level_two env.kmalloc_level_three hptn1 pte hl1
      have hr0 : r = 0 := hr hk2 hk3
      subst hr0
      obtain ⟨_, hfl2, _⟩ := insert_frame K a1 _ addr _ _ 0 a2 hins
      have hf := vm_fault_first_touch K a1 m ft addr env pte _ hft hro hl1 hv hrg hnw1 hpage
      rw [hins] at hf
      simp only [ne_eq, not_true_eq_false, if_false] at hf
      refine ⟨_, a2, hf, rfl, rfl, insert_lookup_same K hK hE a1 a2 _ haddr _ _ hins, ?_⟩
      simp only [load_into_tlb, hfl2, hfl]
  · intro m ft addr env pte hft hro hl hv
    have hl1 : page_table_lookup a1 addr = some pte := by
      rw [hlook]
      exact hl
    have f0 := vm_fault_valid K a m ft addr env pte hft hro hl hv
    have f1 := vm_fault_valid K a1 m ft addr env pte hft hro hl1 hv
    rw [hfl] at f1
    by_cases hc : ft = K.VM_FAULT_WRITE ∧ pte &&& K.TLBLO_DIRTY = 0 ∧ a.loading_flag = 0
    · rw [if_pos hc] at f0 f1
      exact ⟨_, _, f0, f1, rfl, rfl, rfl, rfl, rfl⟩
    · rw [if_neg hc] at f0 f1
      exact ⟨_, _, f0, f1, rfl, rfl, rfl, rfl, rfl⟩
  · rintro b addr ⟨q, hq, hc⟩
    cases hb : addr_to_region b addr with
    | none =>
      exact absurd hc ((addr_to_region_walk_none _ _).1 hb q hq)
    | some rg => exact ⟨rg, rfl⟩

set_option maxRecDepth 100000 in
/-- Witness for C23 (amended) with the MIPS constants.  After the second
definition on `text_as`, `0x00400100` resolves to the new region, `0x00500000`,
outside it, resolves as before, and a write fault at `0x00400100`, whose page
has no entry, returns 0 with an entry that has `TLBLO_DIRTY`.  After the same
definition on `text_mapped_as`, where the page has a valid entry without
`TLBLO_DIRTY`, the write fault returns what it returned before, `EFAULT`. -/
theorem addr_to_region_latest_witness :
    addr_to_region overlap_as 4194560 =
      some { vbase := 4194304, vtop := add32 4194304 8192, memsize := 8192,
             readable := 1, writeable := 1, executable := 0 } ∧
    addr_to_region overlap_as 5242880 = addr_to_region text_as 5242880 ∧
    (∃ res a2, vm_fault mips true (some overlap_as) sevens mips.VM_FAULT_WRITE 4194560
        fault_ok_env = some res ∧ res.ret = 0 ∧ res.as = some a2 ∧
      page_table_lookup a2 4194560 = some (327680 ||| mips.TLBLO_DIRTY ||| mips.TLBLO_VALID)) ∧
    (∃ res res1, vm_fault mips true (some text_mapped_as) sevens mips.VM_FAULT_WRITE 4194560
        fault_ok_env = some res ∧
      vm_fault mips true (some overlap_mapped_as) sevens mips.VM_FAULT_WRITE 4194560
        fault_ok_env = some res1 ∧ res1.ret = res.ret) ∧
    (vm_fault mips true (some overlap_mapped_as) sevens mips.VM_FAULT_WRITE 4194560
      fault_ok_env).map (fun r => r.ret) = some mips.EFAULT :=
  have h := addr_to_region_latest mips (by decide) text_as overlap_as 4194304 8192 1 1 0
    true true (by decide)
  have g := addr_to_region_latest mips (by decide) text_mapped_as overlap_mapped_as 4194304
    8192 1 1 0 true true (by decide)
  ⟨h.2.2.2.1 4194560 (by decide) (by decide),
   h.2.2.2.2.1 5242880 (by decide),
   (match (h.2.2.2.2.2.2.1 sevens mips.VM_FAULT_WRITE 4194560 fault_ok_env 0 (by decide)
      (by decide) (by decide) (by decide) (by decide) (by decide)).2 (by decide) (by decide)
      (by decide) (by decide) (by decide) (by decide) (by decide) with
    | ⟨res, a2, h1, h2, h3, h4, _⟩ => ⟨res, a2, h1, h2, h3, h4⟩),
   (match g.2.2.2.2.2.2.2.1 sevens mips.VM_FAULT_WRITE 4194560 fault_ok_env 328192 (by decide)
      (by decide) (by decide) (by decide) with
    | ⟨res, res1, h1, h2, h3, _⟩ => ⟨res, res1, h1, h2, h3⟩),
   by decide⟩

/-! ## C24: `vm_fault` on error -/

theorem insert_fail_lookup (K : vm_consts) (as : addrspace) (e a : Nat) (k2 k3 : Bool)
    (r : Int) (as1 : addrspace) (h : insert_into_page_table K as e a k2 k3 = some (r, as1))
    (hr : r ≠ 0) (x : Nat) : page_table_lookup as1 x = page_table_lookup as x := by
  unfold insert_into_page_table at h
  rw [page_table_lookup_eq_walk, page_table_lookup_eq_walk]
  apply page_table_store_fail_walk K.ENOMEM as e _ _ _ k2 k3 r as1 h hr
  omega

theorem erase_cons_self (x : Nat) (l : List Nat) : (x :: l).erase x = l := by
  simp

/-- C24. Whenever `vm_fault` returns a nonzero code, nothing is loaded into the
TLB and the frames held are the same as before the call; if there was no
current address space there is none afterwards, and otherwise the address space
afterwards has the same region list and loading flag and `page_table_lookup`
gives the same result as before at every address.  This covers the failure of
`insert_into_page_table` after the frame was allocated (the frame is freed) and
after a level-two array was installed (lookups through the new, empty array
give 0 as before). -/
theorem vm_fault_error_atomic (K : vm_consts) (curproc : Bool) (as : Option addrspace)
    (m : phys_mem) (ft : Int) (addr : Nat) (env : fault_env) (res : fault_result)
    (hres : vm_fault K curproc as m ft addr env = some res) (hret : res.ret ≠ 0) :
    res.tlb = [] ∧ res.mem.held = m.held ∧
    (as = none → res.as = none) ∧
    (∀ a, as = some a → ∃ a1, res.as = some a1 ∧
      a1.as_regions_head = a.as_regions_head ∧ a1.loading_flag = a.loading_flag ∧
      ∀ x, page_table_lookup a1 x = page_table_lookup a x) := by
  have same : ∀ (c : Int), res = { ret := c, as := as, mem := m, tlb := [] } →
      res.tlb = [] ∧ res.mem.held = m.held ∧
      (as = none → res.as = none) ∧
      (∀ a, as = some a → ∃ a1, res.as = some a1 ∧
        a1.as_regions_head = a.as_regions_head ∧ a1.loading_flag = a.loading_flag ∧
        ∀ x, page_table_lookup a1 x = page_table_lookup a x) := by
    intro c hc
    subst hc
    exact ⟨rfl, rfl, fun h => h, fun a ha => ⟨a, ha, rfl, rfl, fun _ => rfl⟩⟩
  by_cases h1 : ft = K.VM_FAULT_READONLY
  · simp only [vm_fault, h1, if_true, Option.some.injEq] at hres
    exact same _ hres.symm
  by_cases h2 : ft = K.VM_FAULT_READ ∨ ft = K.VM_FAULT_WRITE
  swap
  · simp only [vm_fault, h1, if_false, h2, not_false_eq_true, if_true,
      Option.some.injEq] at hres
    exact same _ hres.symm
  cases curproc with
  | false =>
    simp only [vm_fault, h1, if_false, h2, not_true_eq_false, Bool.not_false, if_true,
      Option.some.injEq] at hres
    exact same _ hres.symm
  | true =>
    cases as with
    | none =>
      simp only [vm_fault, h1, if_false, h2, not_true_eq_false, Bool.not_true,
        Bool.false_eq_true, Option.some.injEq] at hres
      exact same _ hres.symm
    | some a =>
      cases hl : page_table_lookup a addr with
      | none =>
        simp only [vm_fault, h1, if_false, h2, not_true_eq_false, Bool.not_true,
          Bool.false_eq_true, hl] at hres
        cases hres
      | some pte =>
        by_cases hv : pte &&& K.TLBLO_VALID ≠ 0
        · rw [vm_fault_valid K a m ft addr env pte h2 h1 hl hv] at hres
          split at hres
          · simp only [Option.some.injEq] at hres
            exact same _ hres.symm
          · simp only [Option.some.injEq] at hres
            rw [← hres] at hret
            exact absurd rfl hret
        · have hv0 : pte &&& K.TLBLO_VALID = 0 := by
            by_contra hh
            exact hv hh
          cases hrg : addr_to_region a addr with
          | none =>
            rw [vm_fault_no_region K a m ft addr env pte h2 h1 hl hv0 hrg] at hres
            simp only [Option.some.injEq] at hres
            exact same _ hres.symm
          | some rg =>
            by_cases hw : ft = K.VM_FAULT_WRITE ∧ rg.writeable = 0 ∧ a.loading_flag = 0
            · obtain ⟨rfl, hw2, hw3⟩ := hw
              unfold vm_fault at hres
              have h1a : ¬ (K.VM_FAULT_WRITE = K.VM_FAULT_READONLY) := h1
              simp only [h1a, if_false, or_true, not_true_eq_false, Bool.not_true,
                Bool.false_eq_true, hl, hv0, ne_eq, not_false_eq_true, if_true, hrg, hw2, hw3,
                and_self, Option.some.injEq] at hres
              exact same _ hres.symm
            · by_cases hpage : env.alloc_kpages = 0
              · unfold vm_fault at hres
                simp only [h1, if_false, h2, not_true_eq_false, Bool.not_true,
                  Bool.false_eq_true, hl, hv0, ne_eq, not_false_eq_true, if_true, hrg, hw,
                  hpage, Option.some.injEq] at hres
                exact same _ hres.symm
              · rw [vm_fault_first_touch K a m ft addr env pte rg h2 h1 hl hv0 hrg hw
                  hpage] at hres
                cases hins : insert_into_page_table K a
                    (init_pte K rg (K.KVADDR_TO_PADDR env.alloc_kpages)) addr
                    env.kmalloc_level_two env.kmalloc_level_three with
                | none =>
                  rw [hins] at hres
                  cases hres
                | some p =>
                  obtain ⟨r, a1⟩ := p
                  rw [hins] at hres
                  simp only at hres
                  by_cases hr : r = 0
                  · subst hr
                    simp only [ne_eq, not_true_eq_false, if_false, Option.some.injEq] at hres
                    rw [← hres] at hret
                    exact absurd rfl hret
                  · simp only [ne_eq, hr, not_false_eq_true, if_true,
                      Option.some.injEq] at hres
                    obtain ⟨hregs, hfl, _⟩ := insert_frame K a _ addr _ _ r a1 hins
                    subst hres
                    refine ⟨rfl, ?_, ?_, ?_⟩
                    · exact erase_cons_self _ _
                    · intro hn
                      cases hn
                    · intro a2 ha2
                      cases ha2
                      exact ⟨a1, rfl, hregs, hfl,
                        insert_fail_lookup K _ _ addr _ _ r a1 hins hr⟩

set_option maxRecDepth 100000 in
/-- Witness for C24 with the MIPS constants: a read fault at `0x00400100` in
`text_as` whose level-three `kmalloc` fails returns `ENOMEM` after the frame was
allocated and the level-two array installed; the frame is freed, nothing is
loaded, and the lookup at `0x00400100` still gives 0. -/
theorem vm_fault_error_atomic_witness :
    vm_fault mips true (some text_as) sevens mips.VM_FAULT_READ 4194560 fault_nolevel3_env =
      some { ret := mips.ENOMEM, as := some text_level_two_as,
             mem := free_kpages 2147811328
               { bytes := bzero 2147811328 4096 sevens.bytes, held := [2147811328] },
             tlb := [] } ∧
    (free_kpages 2147811328
      { bytes := bzero 2147811328 4096 sevens.bytes, held := [2147811328] }).held = sevens.held ∧
    ∃ a1, some text_level_two_as = some a1 ∧
      a1.as_regions_head = text_as.as_regions_head ∧
      page_table_lookup a1 4194560 = page_table_lookup text_as 4194560 :=
  have h := vm_fault_error_atomic mips true (some text_as) sevens mips.VM_FAULT_READ 4194560
    fault_nolevel3_env
    { ret := mips.ENOMEM, as := some text_level_two_as,
      mem := free_kpages 2147811328
        { bytes := bzero 2147811328 4096 sevens.bytes, held := [2147811328] },
      tlb := [] }
    rfl (by decide)
  ⟨rfl, h.2.1,
   match h.2.2.2 text_as rfl with
   | ⟨a1, g1, g2, _, g4⟩ => ⟨a1, g1, g2, g4 4194560⟩⟩

/-! ## C26: the regions of a copy -/

/-- The "copy regions list" loop reverses the list: when the allocations succeed
and every source region was made by `as_define_region` (its `vtop` is the 32-bit
sum, within the bound), the regions of the copy are those of the source in the
opposite order, in front of what the copy had. -/
theorem copy_regions_reverse (K : vm_consts) (env : copy_env)
    (hr : ∀ n, env.kmalloc_region n = true) (hn : ∀ n, env.kmalloc_node n = true) :
    ∀ (regs : List as_region) (n : Nat) (a : addrspace),
      (∀ r ∈ regs, r.vtop = add32 r.vbase r.memsize ∧ r.vtop ≤ K.USERSPACETOP) →
      copy_regions K env regs n (some a) =
        some { a with as_regions_head := regs.reverse ++ a.as_regions_head } := by
  intro regs
  induction regs with
  | nil =>
    intro n a _
    simp [copy_regions]
  | cons r rs ih =>
    intro n a hwf
    obtain ⟨h1, h2⟩ := hwf r (List.mem_cons_self _ _)
    have hle : ¬ (add32 r.vbase r.memsize > K.USERSPACETOP) := by
      rw [← h1]
      omega
    simp only [copy_regions, as_define_region, hle, if_false, hr, hn, Bool.not_true,
      Bool.false_eq_true]
    rw [ih (n + 1) _ (fun q hq => hwf q (List.mem_cons_of_mem _ hq))]
    simp only [List.reverse_cons, List.append_assoc, List.singleton_append, ← h1]


set_option maxRecDepth 100000 in
/-- C26 fails on the code.  With the MIPS constants: `overlap_as` is `fresh_as`
after two successful calls of `as_define_region`, the second region (writable)
overlapping the first (read-only).  `as_copy` with every allocation succeeding
returns 0, but it defines the regions of the copy from the head of the source
list and `as_define_region` inserts at the head, so the copy holds the two
regions in the opposite order.  At `0x00400100` the source resolves to the
writable region and the copy to the read-only one: a write fault there returns 0
in the source and `EFAULT` in the copy. -/
theorem as_copy_reverses_regions :
    as_define_region mips (some fresh_as) 4194304 4096 1 0 1 true true = (0, some text_as) ∧
    as_define_region mips (some text_as) 4194304 8192 1 1 0 true true = (0, some overlap_as) ∧
    (as_copy mips overlap_as sevens copy_ok_env).map (fun r => (r.ret, r.new_as)) =
      some (0, some (some overlap_copy_as)) ∧
    overlap_copy_as.as_regions_head = overlap_as.as_regions_head.reverse ∧
    addr_to_region overlap_as 4194560 =
      some { vbase := 4194304, vtop := 4202496, memsize := 8192,
             readable := 1, writeable := 1, executable := 0 } ∧
    addr_to_region overlap_copy_as 4194560 =
      some { vbase := 4194304, vtop := 4198400, memsize := 4096,
             readable := 1, writeable := 0, executable := 1 } ∧
    (vm_fault mips true (some overlap_as) sevens mips.VM_FAULT_WRITE 4194560 fault_ok_env).map
      (fun r => r.ret) = some 0 ∧
    (vm_fault mips true (some overlap_copy_as) sevens mips.VM_FAULT_WRITE 4194560
      fault_ok_env).map (fun r => r.ret) = some mips.EFAULT := by
  decide

end VirtualMemory

/-! # The hint of the descriptor table -/

namespace FileSyscalls

set_option maxRecDepth 100000 in
/-- C25 fails on the code.  With the OS/161 constants, `FD_table_create` followed
by `sys_dup2(1, 3)` reaches `dup_state`: slot 3, which was unbound and was the
hint, is now bound to the console open file at node 1000, and `sys_dup2` has
left the hint at 3 (it calls `get_next_fd` only when `newfd` was bound).  So the
hint is the index of a bound slot in a reachable state, and the next successful
`sys_open` returns 3 and overwrites the bound descriptor 3 with the new node
1002. -/
theorem hint_invariant_broken :
    (FD_table_create os161 [] boot_env).map (fun r => r.st) = some boot_state ∧
    hint_ok os161 boot_state ∧
    (sys_dup2 os161 boot_state 1 3).map (fun r => (r.ret, r.st)) = some (3, dup_state) ∧
    reachable os161 dup_state ∧
    dup_state.FD_table.next = 3 ∧
    array_load dup_state.FD_table.OF_node_ptr_array 3 = some (some 1000) ∧
    ¬ hint_ok os161 dup_state ∧
    ¬ (∀ s, reachable os161 s → hint_ok os161 s) ∧
    (sys_open os161 dup_state 0 0 open_ok_env).map (fun r => (r.ret, r.st)) =
      some (3, clobbered_state) ∧
    array_load clobbered_state.FD_table.OF_node_ptr_array 3 = some (some 1002) := by
  have hreach : reachable os161 dup_state :=
    reachable.step_dup2 boot_state 1 3
      { ret := 3, errno := none, st := dup_state, calls := [] }
      boot_state_reachable (by decide)
  have hbad : ¬ hint_ok os161 dup_state := by decide
  exact ⟨by decide, by decide, by decide, hreach, by decide, by decide, hbad,
    fun h => hbad (h _ hreach), by decide, by decide⟩

end FileSyscalls
